import Mathlib

/-!
# Seed-verification quiz of the wallet UI (`ui/page/seedbackup/verify_seed.go`)

A shallow embedding of the quiz generator and of the quiz state handling.

* Go slices are lists; an index expression that panics at run time is `none`.
* Go `int` values that can be negative (the `-1` sentinels) are `Int`.
* The process-wide random source is an explicit stream of raw draws that is
  threaded through the generator.
-/

namespace seedbackup

/-! ## Go primitives used by the page -/

/-- Go index expression `s[i]` for an `int` index: a run-time panic (`none`)
unless `0 ≤ i < len(s)`. -/
def index {α : Type} (s : List α) (i : Int) : Option α :=
  if 0 ≤ i then s[i.toNat]? else none

/-- Go `strings.Split(s, sep)` for a one-character separator: the pieces of `s`
between the occurrences of `sep` (always at least one piece). -/
def stringsSplit (s : String) (sep : Char) : List String :=
  (s.data.splitOn sep).map String.mk

/-- Go `strings.Join(elems, sep)` for a one-character separator. -/
def stringsJoin (elems : List String) (sep : Char) : String :=
  String.mk ([sep].intercalate (elems.map String.data))

/-- The process-wide source of `math/rand`, as the stream of its future raw
draws. Every run of the program corresponds to some stream. -/
structure Rand where
  draws : Nat → Nat

/-- The source after one draw has been consumed. -/
def Rand.advance (r : Rand) : Rand := ⟨fun k => r.draws (k + 1)⟩

/-- One bounded draw: the next raw draw reduced into `[0, n)`. Every value of
`[0, n)` is the result for some stream. -/
def Rand.below (r : Rand) (n : Nat) : Nat × Rand := (r.draws 0 % n, r.advance)

/-- Go `rand.Intn(n)`: panics (`none`) when `n ≤ 0`, otherwise a value of `[0, n)`. -/
def Rand.Intn (r : Rand) (n : Nat) : Option (Nat × Rand) :=
  if n = 0 then none else some (r.below n)

/-- The loop of Go `rand.Shuffle`: for `i` from the given index down to `1`,
draw `j` in `[0, i]` and call `swap(i, j)`. -/
def shuffleLoop {σ : Type} (swap : σ → Nat → Nat → Option σ) :
    Nat → Rand → σ → Option (σ × Rand)
  | 0, r, s => some (s, r)
  | i + 1, r, s =>
    match swap s (i + 1) (r.below (i + 2)).1 with
    | none => none
    | some s' => shuffleLoop swap i (r.below (i + 2)).2 s'

/-- Go `rand.Shuffle(n, swap)` (Fisher-Yates, from index `n - 1` down to `1`). -/
def Shuffle {σ : Type} (n : Nat) (swap : σ → Nat → Nat → Option σ) (r : Rand) (s : σ) :
    Option (σ × Rand) :=
  shuffleLoop swap (n - 1) r s

/-- Modelled from the spec: the `Clickable` widget of `ui/decredmaterial` is not
among the sources. The spec describes clickable widgets that are polled each
frame for a "clicked" flag, each click being consumed once; the model keeps the
two settings made by the page and the number of clicks not yet consumed. -/
structure Clickable where
  hoverable : Bool
  radius : Nat
  clicks : Nat
  deriving DecidableEq, Repr

/-- Modelled from the spec: `Theme.NewClickable(hoverable)`, a fresh widget with
no pending click. -/
def NewClickable (hoverable : Bool) : Clickable :=
  { hoverable := hoverable, radius := 0, clicks := 0 }

/-- Modelled from the spec: `Clickable.Clicked()` reports whether a click is
pending and consumes it. -/
def Clickable.Clicked (c : Clickable) : Bool × Clickable :=
  if c.clicks = 0 then (false, c) else (true, { c with clicks := c.clicks - 1 })

/-- The Go loop `for c.Clicked() { body }` on state `s`. The first argument
bounds the number of calls of `Clicked`; `forClicked` passes `clicks + 1`,
which is the exact number of calls the loop makes. -/
def clickedLoop {σ : Type} (body : σ → σ) : Nat → Clickable → σ → Clickable × σ
  | 0, c, s => (c, s)
  | n + 1, c, s =>
    if (c.Clicked).1 then clickedLoop body n (c.Clicked).2 (body s)
    else ((c.Clicked).2, s)

/-- The Go loop `for c.Clicked() { body }`. -/
def forClicked {σ : Type} (body : σ → σ) (c : Clickable) (s : σ) : Clickable × σ :=
  clickedLoop body (c.clicks + 1) c s

/-! ## Data model of the page -/

/-- The Go struct `shuffledSeedWords`: one candidate set of the quiz. -/
structure shuffledSeedWords where
  selectedIndex : Int
  words : List String
  clickables : List Clickable
  deriving DecidableEq, Repr

/-- The Go struct `VerifySeedPage`, restricted to the fields the quiz logic
reads or writes. `modalsShown` counts the password modals opened by
`verifySeed`. -/
structure VerifySeedPage where
  seed : String
  multiSeedList : List shuffledSeedWords
  actionButton : Clickable
  modalsShown : Nat
  deriving DecidableEq, Repr

/-! ## Quiz generation -/

/-- The loop of Go `seedPosition`, started at index `i`. -/
def seedPositionFrom (seed : String) : List String → Nat → Int
  | [], _ => -1
  | s :: rest, i => if s = seed then (i : Int) else seedPositionFrom seed rest (i + 1)

/-- Go `seedPosition`: the first index holding `seed`, or `-1`. -/
def seedPosition (seed : String) (allSeeds : List String) : Int :=
  seedPositionFrom seed allSeeds 0

/-- Go `removeSeed`: `append(allSeeds[:index], allSeeds[index+1:]...)`. The
slice expressions panic unless `0 ≤ index` and `index + 1 ≤ len(allSeeds)`. -/
def removeSeed (allSeeds : List String) (idx : Int) : Option (List String) :=
  if 0 ≤ idx ∧ idx + 1 ≤ (allSeeds.length : Int) then
    some (allSeeds.take idx.toNat ++ allSeeds.drop (idx.toNat + 1))
  else none

/-- The closure `clickable` of `getMultiSeed`. -/
def clickable : Clickable :=
  { NewClickable true with radius := 8 }

/-- The distractor loop of `getMultiSeed` (`for i := 0; i < 3; i++`), with the
number of iterations still to run. -/
def distractorLoop : Nat → shuffledSeedWords → List String → Rand →
    Option (shuffledSeedWords × List String × Rand)
  | 0, shuffledSeed, allSeeds, rng => some (shuffledSeed, allSeeds, rng)
  | n + 1, shuffledSeed, allSeeds, rng =>
    match rng.Intn allSeeds.length with
    | none => none
    | some (randomSeed, rng') =>
      match index allSeeds (randomSeed : Int) with
      | none => none
      | some w =>
        match removeSeed allSeeds (randomSeed : Int) with
        | none => none
        | some allSeeds' =>
          distractorLoop n
            { shuffledSeed with
              words := shuffledSeed.words ++ [w],
              clickables := shuffledSeed.clickables ++ [clickable] }
            allSeeds' rng'

/-- The swap closure passed to `rand.Shuffle` by `getMultiSeed`:
`words[i], words[j] = words[j], words[i]`. -/
def swapWords (words : List String) (i j : Nat) : Option (List String) :=
  match words[j]?, words[i]? with
  | some wj, some wi => some ((words.set i wj).set j wi)
  | _, _ => none

/-- Go `VerifySeedPage.getMultiSeed`. -/
def getMultiSeed (realSeedIndex : Int) (allSeeds : List String) (rng : Rand) :
    Option (shuffledSeedWords × Rand) :=
  let shuffledSeed : shuffledSeedWords :=
    { selectedIndex := -1, words := [], clickables := [] }
  match index allSeeds realSeedIndex with
  | none => none
  | some w =>
    let shuffledSeed : shuffledSeedWords :=
      { shuffledSeed with
        words := shuffledSeed.words ++ [w],
        clickables := shuffledSeed.clickables ++ [clickable] }
    match removeSeed allSeeds realSeedIndex with
    | none => none
    | some allSeeds =>
      match distractorLoop 3 shuffledSeed allSeeds rng with
      | none => none
      | some (shuffledSeed, _, rng) =>
        match Shuffle shuffledSeed.words.length swapWords rng shuffledSeed.words with
        | none => none
        | some (words, rng) => some ({ shuffledSeed with words := words }, rng)

/-- The loop of `OnNavigatedTo` over the seed words. `PGPWordList` is the
wallet library's word list; each call of the library function returns a fresh
slice, so every iteration starts from the same list. -/
def navigateLoop (PGPWordList allSeeds : List String) :
    List String → List shuffledSeedWords → Rand → Option (List shuffledSeedWords × Rand)
  | [], multiSeedList, rng => some (multiSeedList, rng)
  | word :: rest, multiSeedList, rng =>
    match getMultiSeed (seedPosition word allSeeds) PGPWordList rng with
    | none => none
    | some (shuffledSeed, rng') =>
      navigateLoop PGPWordList allSeeds rest (multiSeedList ++ [shuffledSeed]) rng'

/-- Go `VerifySeedPage.OnNavigatedTo`. `rng` is the random source as left by
`rand.Seed(time.Now().UnixNano())`. A panic is `none`: the page is then never
assigned its candidate sets. -/
def OnNavigatedTo (PGPWordList : List String) (pg : VerifySeedPage) (rng : Rand) :
    Option VerifySeedPage :=
  let allSeeds := PGPWordList
  let seedWords := stringsSplit pg.seed ' '
  match navigateLoop PGPWordList allSeeds seedWords [] rng with
  | none => none
  | some (multiSeedList, _) => some { pg with multiSeedList := multiSeedList }

/-! ## Quiz state -/

/-- The loop of Go `allSeedsSelected`. -/
def allSeedsSelectedLoop : List shuffledSeedWords → Bool
  | [] => true
  | multiSeed :: rest =>
    if multiSeed.selectedIndex = -1 then false else allSeedsSelectedLoop rest

/-- Go `VerifySeedPage.allSeedsSelected`. -/
def allSeedsSelected (pg : VerifySeedPage) : Bool :=
  allSeedsSelectedLoop pg.multiSeedList

/-- The loop of Go `selectedSeedPhrase`, collecting into `wordList`. -/
def selectedWordsLoop : List shuffledSeedWords → List String → Option (List String)
  | [], wordList => some wordList
  | multiSeed :: rest, wordList =>
    if multiSeed.selectedIndex ≠ -1 then
      match index multiSeed.words multiSeed.selectedIndex with
      | none => none
      | some w => selectedWordsLoop rest (wordList ++ [w])
    else selectedWordsLoop rest wordList

/-- Go `VerifySeedPage.selectedSeedPhrase`; `none` when an index expression
panics. -/
def selectedSeedPhrase (pg : VerifySeedPage) : Option String :=
  (selectedWordsLoop pg.multiSeedList []).map (fun wordList => stringsJoin wordList ' ')

/-- Go `VerifySeedPage.verifySeed`, as far as the page state goes: a password
modal is shown; the verification itself runs in the wallet library. -/
def verifySeed (pg : VerifySeedPage) : VerifySeedPage :=
  { pg with modalsShown := pg.modalsShown + 1 }

/-- The inner loops of `HandleUserInteractions` for one position: for each
clickable `j`, in order, `for clickable.Clicked() { selectedIndex = j }`. -/
def handleClickables : Nat → List Clickable → Int → List Clickable × Int
  | _, [], selectedIndex => ([], selectedIndex)
  | j, c :: rest, selectedIndex =>
    let r := forClicked (fun _ => (j : Int)) c selectedIndex
    let r' := handleClickables (j + 1) rest r.2
    (r.1 :: r'.1, r'.2)

/-- One iteration of the outer loop of `HandleUserInteractions`. -/
def handleMultiSeed (multiSeed : shuffledSeedWords) : shuffledSeedWords :=
  let r := handleClickables 0 multiSeed.clickables multiSeed.selectedIndex
  { multiSeed with selectedIndex := r.2, clickables := r.1 }

/-- Go `VerifySeedPage.HandleUserInteractions`. -/
def HandleUserInteractions (pg : VerifySeedPage) : VerifySeedPage :=
  let pg : VerifySeedPage :=
    { pg with multiSeedList := pg.multiSeedList.map handleMultiSeed }
  let r := forClicked (fun p => if allSeedsSelected p then verifySeed p else p)
    pg.actionButton pg
  { r.2 with actionButton := r.1 }

/-- A user click on candidate `j` of position `i`: the clickable records one
more pending click (no effect when there is no such clickable). -/
def click (pg : VerifySeedPage) (i j : Nat) : VerifySeedPage :=
  { pg with
    multiSeedList := pg.multiSeedList.modify
      (fun m => { m with
        clickables := m.clickables.modify (fun c => { c with clicks := c.clicks + 1 }) j })
      i }

/-- Selecting candidate `j` at position `i`: the click, followed by the next
frame's `HandleUserInteractions`. -/
def select (pg : VerifySeedPage) (i j : Nat) : VerifySeedPage :=
  HandleUserInteractions (click pg i j)

/-- No click is pending on any candidate of the quiz. -/
def quiescent (pg : VerifySeedPage) : Prop :=
  ∀ m ∈ pg.multiSeedList, ∀ c ∈ m.clickables, c.clicks = 0

/-! ## Auxiliary predicates and example data -/

/-- What generation establishes for the candidate set `m` built for seed word
`w` over the word list `wl`: nothing selected, four words and four clickables,
`w` among the words, and the words taken from distinct positions of `wl`. -/
def candidateFor (wl : List String) (m : shuffledSeedWords) (w : String) : Prop :=
  m.selectedIndex = -1 ∧ m.words.length = 4 ∧ m.clickables.length = 4 ∧ w ∈ m.words ∧
    ∃ rest, (m.words ++ rest).Perm wl

/-- The word list of the spec's example. -/
def exampleWordList : List String := ["alpha", "bravo", "charlie", "delta", "echo"]

/-- A page for the spec's example seed phrase, before generation. -/
def examplePage : VerifySeedPage :=
  { seed := "alpha bravo charlie", multiSeedList := [],
    actionButton := NewClickable false, modalsShown := 0 }

/-- A sample random source. -/
def exampleRand : Rand := ⟨fun k => 7 * k + 3⟩

/-- Position `i` of the quiz with its selection replaced by `j`. -/
def setSelected (msl : List shuffledSeedWords) (i j : Nat) : List shuffledSeedWords :=
  msl.modify (fun m => { m with selectedIndex := (j : Int) }) i

/-- The quiz generated for the spec's example. -/
def exampleQuiz : VerifySeedPage :=
  (OnNavigatedTo exampleWordList examplePage exampleRand).getD examplePage

/-- The example quiz after the user picked the correct word at every position. -/
def exampleAnswered : VerifySeedPage :=
  { exampleQuiz with
    multiSeedList :=
      setSelected (setSelected (setSelected exampleQuiz.multiSeedList 0 3) 1 1) 2 3 }

/-- The reconstructed phrase as the spec words it: the selected word
`words[selectedIndex]` of every position that has a selection, in position
order, joined by single spaces (`none` when a selected index is out of range). -/
def reconstructedPhrase (msl : List shuffledSeedWords) : Option String :=
  ((msl.filter (fun m => m.selectedIndex ≠ -1)).mapM
    (fun m => index m.words m.selectedIndex)).map (fun ws => stringsJoin ws ' ')

/-- A word list with exactly four entries. -/
def fourWordList : List String := ["alpha", "bravo", "charlie", "delta"]

/-- A user click on the Verify button: one more pending click. -/
def clickAction (pg : VerifySeedPage) : VerifySeedPage :=
  { pg with actionButton := { pg.actionButton with clicks := pg.actionButton.clicks + 1 } }

/-- The quiz states reachable from generation over the word list `wl` by user
clicks (on any candidate or on the Verify button) and frames
(`HandleUserInteractions`). -/
inductive Reachable (wl : List String) : VerifySeedPage → Prop
  | generated (pg pg' : VerifySeedPage) (rng : Rand) :
      OnNavigatedTo wl pg rng = some pg' → Reachable wl pg'
  | click (pg : VerifySeedPage) (i j : Nat) : Reachable wl pg → Reachable wl (click pg i j)
  | clickAction (pg : VerifySeedPage) : Reachable wl pg → Reachable wl (clickAction pg)
  | frame (pg : VerifySeedPage) : Reachable wl pg → Reachable wl (HandleUserInteractions pg)

/-- The shape every candidate set keeps: four words, four clickables, and a
selection that is the sentinel or an index of a word. -/
def wellFormed (m : shuffledSeedWords) : Prop :=
  m.words.length = 4 ∧ m.clickables.length = 4 ∧
    (m.selectedIndex = -1 ∨ (0 ≤ m.selectedIndex ∧ m.selectedIndex ≤ 3))

/-- The position in a list of the entry that is at position `j` once entry `i`
has been removed. -/
def skipIndex (i j : Nat) : Nat := if j < i then j else j + 1

/-! ## Handling the verification result -/

/-- Modelled from the spec: the password modal of `ui/modal` is not among the
sources. The model keeps what the page sets on it: the loading flag, the error
text shown in the modal, and whether it has been dismissed. -/
structure PasswordModal where
  isLoading : Bool
  error : String
  dismissed : Bool
  deriving DecidableEq, Repr

/-- Modelled from the spec: `PasswordModal.Dismiss()` closes the modal. -/
def PasswordModal.Dismiss (m : PasswordModal) : PasswordModal :=
  { m with dismissed := true }

/-- Modelled from the spec: `PasswordModal.SetLoading(loading)`. -/
def PasswordModal.SetLoading (m : PasswordModal) (loading : Bool) : PasswordModal :=
  { m with isLoading := loading }

/-- Modelled from the spec: `PasswordModal.SetError(err)` shows `err` in the modal. -/
def PasswordModal.SetError (m : PasswordModal) (err : String) : PasswordModal :=
  { m with error := err }

/-- The pages `ChangeFragment` can navigate to from the verification page. -/
inductive Fragment where
  | BackupSuccessPage
  deriving DecidableEq, Repr

/-- What the confirm callback of `verifySeed` works on: the page, the password
modal it was called from, the last error notification shown by `Toast`, and the
fragment navigated to (if any). -/
structure VerifyUI where
  page : VerifySeedPage
  modal : PasswordModal
  toastError : Option String
  fragment : Option Fragment
  deriving DecidableEq, Repr

/-- The body of the goroutine started by the confirm callback of `verifySeed`.
`ErrInvalid` is the wallet library's constant, `VerifySeedForWallet seed password`
the library call for the page's wallet, returning the error text or `none` on
success. A panic in `selectedSeedPhrase` is `none`. -/
def verifySeedConfirm (ErrInvalid : String) (VerifySeedForWallet : String → String → Option String)
    (password : String) (ui : VerifyUI) : Option VerifyUI :=
  match selectedSeedPhrase ui.page with
  | none => none
  | some seed =>
    match VerifySeedForWallet seed password with
    | some err =>
      if err = ErrInvalid then
        some { ui with
          toastError := some "Failed to verify. Please go through every word and try again.",
          modal := ui.modal.Dismiss }
      else
        some { ui with modal := (ui.modal.SetLoading false).SetError err }
    | none =>
      some { ui with modal := ui.modal.Dismiss, fragment := some Fragment.BackupSuccessPage }

/-- The example quiz, fully answered, with the password modal open and loading. -/
def exampleVerifyUI : VerifyUI :=
  { page := exampleAnswered,
    modal := { isLoading := true, error := "", dismissed := false },
    toastError := none, fragment := none }

end seedbackup

/-!
# Drop-down menus (`ui/decredmaterial/dropdown.go`)

Drop-downs are handled through pointers: a heap maps each pointer to the
drop-down it points to, and a slice of drop-downs is a list of pointers stored
in a backing array that `append` may overwrite in place.
-/

namespace decredmaterial

open seedbackup

/-- The Go struct `DropDownItem` (the icon is left out). -/
structure DropDownItem where
  Text : String
  clickable : Clickable
  deriving DecidableEq, Repr

/-- The Go struct `DropDown`, restricted to the fields that carry state: the
items, the open flag, the selection, the trigger `clickable`, the backdrop, and
the group and position numbers. -/
structure DropDown where
  items : List DropDownItem
  isOpen : Bool
  Position : Nat
  selectedIndex : Int
  clickable : Clickable
  backdrop : Clickable
  group : Nat
  deriving DecidableEq, Repr

/-- Go `Theme.DropDown(items, group, pos)`: a closed drop-down whose selection is
item 0, every item getting a fresh clickable. -/
def Theme.DropDown (items : List DropDownItem) (group pos : Nat) : DropDown :=
  { items := items.map (fun item => { item with clickable := NewClickable true }),
    isOpen := false,
    Position := pos,
    selectedIndex := 0,
    clickable := { NewClickable true with radius := 8 },
    backdrop := NewClickable false,
    group := group }

/-- Go `DropDown.SelectedIndex`. -/
def DropDown.SelectedIndex (d : DropDown) : Int := d.selectedIndex

/-- Go `DropDown.Len`. -/
def DropDown.Len (d : DropDown) : Int := d.items.length

/-- The heap of drop-downs: what each pointer `*DropDown` points to. -/
abbrev Heap := Nat → DropDown

/-- Assignment through a pointer: `heap[p] = d`. -/
def Heap.set (heap : Heap) (p : Nat) (d : DropDown) : Heap :=
  fun q => if q = p then d else heap q

/-- Go `ResliceDropdown`: `append(dropdowns[:indexToRemove], dropdowns[indexToRemove+1:]...)`
on the backing array holding `dropdowns`. The first component is the returned
slice (one element shorter); the second is the content of the backing array
afterwards, seen through the caller's slice: `append` writes the tail in place,
one slot to the left, and the last slot keeps its old element. The slice
expressions panic (`none`) unless `0 ≤ indexToRemove < len(dropdowns)`. -/
def ResliceDropdown (dropdowns : List Nat) (indexToRemove : Int) :
    Option (List Nat × List Nat) :=
  if 0 ≤ indexToRemove ∧ indexToRemove + 1 ≤ (dropdowns.length : Int) then
    let menus := dropdowns.take indexToRemove.toNat ++ dropdowns.drop (indexToRemove.toNat + 1)
    some (menus, menus ++ dropdowns.drop (dropdowns.length - 1))
  else none

/-- The inner loop of `DisplayOneDropdown`: `menusToClose.isOpen = false` for
every element of `menus`. -/
def closeMenus : List Nat → Heap → Heap
  | [], heap => heap
  | menusToClose :: rest, heap =>
    closeMenus rest (heap.set menusToClose { heap menusToClose with isOpen := false })

/-- The loop `for i, menu := range dropdowns` of `DisplayOneDropdown`, at index
`i` with `remaining` iterations to go. The range reads element `i` from the
backing array as it is at that iteration. -/
def displayLoop : Nat → Nat → List Nat → Heap → Option Heap
  | 0, _, _, heap => some heap
  | remaining + 1, i, dropdowns, heap =>
    match dropdowns[i]? with
    | none => none
    | some menu =>
      let clicked := ((heap menu).clickable.Clicked).1
      let heap := heap.set menu { heap menu with clickable := ((heap menu).clickable.Clicked).2 }
      if clicked then
        let heap := heap.set menu { heap menu with isOpen := true }
        match ResliceDropdown dropdowns (i : Int) with
        | none => none
        | some (menus, dropdowns') =>
          displayLoop remaining (i + 1) dropdowns' (closeMenus menus heap)
      else displayLoop remaining (i + 1) dropdowns heap

/-- Go `DisplayOneDropdown(dropdowns...)`. -/
def DisplayOneDropdown (dropdowns : List Nat) (heap : Heap) : Option Heap :=
  displayLoop dropdowns.length 0 dropdowns heap

/-- A closed drop-down with two items and no pending click. -/
def idleDropDown : DropDown :=
  Theme.DropDown [⟨"first", NewClickable true⟩, ⟨"second", NewClickable true⟩] 0 0

/-- A drop-down whose trigger has one pending click. -/
def clickedDropDown : DropDown :=
  { idleDropDown with clickable := { idleDropDown.clickable with clicks := 1 } }

/-- Four closed drop-downs at pointers 0..3; the triggers of 0 and 2 were
clicked since the last frame. -/
def twoClicksHeap : Heap :=
  fun p => if p = 0 ∨ p = 2 then clickedDropDown else idleDropDown

/-- Which of the given drop-downs are open. -/
def openFlags (dropdowns : List Nat) (heap : Heap) : List Bool :=
  dropdowns.map (fun p => (heap p).isOpen)

end decredmaterial

/-!
# Transactions page (`ui/page/transaction/transactions_page.go`)
-/

namespace transaction

open seedbackup decredmaterial

/-- The wallet library's transaction filter constants used by the page; they
are declared outside the sources, so they are parameters. -/
structure TxFilters where
  TxFilterAll : Int
  TxFilterSent : Int
  TxFilterReceived : Int
  TxFilterTransferred : Int
  TxFilterMixed : Int
  TxFilterStaking : Int
  deriving DecidableEq, Repr

/-- The localised texts `values.String(values.Str...)` used for the items of the
transaction-type drop-down; the string tables are outside the sources, so the
texts are parameters. -/
structure Strings where
  StrAll : String
  StrSent : String
  StrReceived : String
  StrYourself : String
  StrStaking : String
  deriving DecidableEq, Repr

/-- A wallet of the wallet library, identified by its ID. -/
structure Wallet where
  ID : Int
  deriving DecidableEq, Repr

/-- A transaction of the wallet library. -/
structure Transaction where
  Hash : String
  WalletID : Int
  deriving DecidableEq, Repr

/-- The Go struct `TransactionsPage`, restricted to the drop-downs, the loaded
transactions and the wallets. -/
structure TransactionsPage where
  orderDropDown : DropDown
  txTypeDropDown : DropDown
  walletDropDown : DropDown
  transactions : List Transaction
  wallets : List Wallet
  deriving DecidableEq, Repr

/-- Go `NewTransactionsPage`. The order and wallet drop-downs and the sorted
wallet list come from helpers outside the sources and are parameters; the
transaction-type drop-down is built here. -/
def NewTransactionsPage (s : Strings) (orderDropDown walletDropDown : DropDown)
    (wallets : List Wallet) (TxDropdownGroup : Nat) : TransactionsPage :=
  { orderDropDown := orderDropDown,
    wallets := wallets,
    walletDropDown := walletDropDown,
    txTypeDropDown := Theme.DropDown
      [ { Text := s.StrAll, clickable := NewClickable true },
        { Text := s.StrSent, clickable := NewClickable true },
        { Text := s.StrReceived, clickable := NewClickable true },
        { Text := s.StrYourself, clickable := NewClickable true },
        { Text := "Mixed", clickable := NewClickable true },
        { Text := s.StrStaking, clickable := NewClickable true } ]
      TxDropdownGroup 2,
    transactions := [] }

/-- Go `TransactionsPage.loadTransactions`. `GetTransactionsRaw wallet offset
limit txFilter newestFirst` is the wallet library call, returning the
transactions or an error. Indexing `pg.wallets` out of range is a panic (`none`). -/
def loadTransactions (c : TxFilters)
    (GetTransactionsRaw : Wallet → Int → Int → Int → Bool → Except String (List Transaction))
    (pg : TransactionsPage) : Option TransactionsPage :=
  match index pg.wallets pg.walletDropDown.SelectedIndex with
  | none => none
  | some selectedWallet =>
    let newestFirst := decide (pg.orderDropDown.SelectedIndex = 0)
    let txFilter :=
      match pg.txTypeDropDown.SelectedIndex with
      | 1 => c.TxFilterSent
      | 2 => c.TxFilterReceived
      | 3 => c.TxFilterTransferred
      | 4 => c.TxFilterMixed
      | 5 => c.TxFilterStaking
      | _ => c.TxFilterAll
    match GetTransactionsRaw selectedWallet 0 0 txFilter newestFirst with
    | Except.error _ => some pg
    | Except.ok wallTxs => some { pg with transactions := wallTxs }

/-- The filter the spec assigns to each index of the transaction-type
drop-down: 0 All, 1 Sent, 2 Received, 3 Transferred, 4 Mixed, 5 Staking, and
All for every other index. -/
def txFilterTable (c : TxFilters) (selected : Int) : Int :=
  if selected = 0 then c.TxFilterAll
  else if selected = 1 then c.TxFilterSent
  else if selected = 2 then c.TxFilterReceived
  else if selected = 3 then c.TxFilterTransferred
  else if selected = 4 then c.TxFilterMixed
  else if selected = 5 then c.TxFilterStaking
  else c.TxFilterAll

/-- What `loadTransactions` does with the answer of the wallet library. -/
def storeTransactions (pg : TransactionsPage) :
    Except String (List Transaction) → TransactionsPage
  | Except.error _ => pg
  | Except.ok wallTxs => { pg with transactions := wallTxs }

/-- Sample filter constants. -/
def exampleFilters : TxFilters :=
  { TxFilterAll := 0, TxFilterSent := 1, TxFilterReceived := 2, TxFilterTransferred := 3,
    TxFilterMixed := 7, TxFilterStaking := 4 }

/-- Sample texts. -/
def exampleStrings : Strings :=
  { StrAll := "All", StrSent := "Sent", StrReceived := "Received", StrYourself := "Yourself",
    StrStaking := "Staking" }

/-- A sample page: one wallet, "Yourself" selected, oldest first. -/
def exampleTransactionsPage : TransactionsPage :=
  let pg := NewTransactionsPage exampleStrings idleDropDown idleDropDown [⟨1⟩] 1
  { pg with
    txTypeDropDown := { pg.txTypeDropDown with selectedIndex := 3 },
    orderDropDown := { pg.orderDropDown with selectedIndex := 1 } }

/-- A sample wallet library call that answers with one transaction naming the
filter and the order it was asked for. -/
def exampleGetTransactionsRaw (w : Wallet) (_offset _limit : Int) (txFilter : Int)
    (newestFirst : Bool) : Except String (List Transaction) :=
  Except.ok [⟨if newestFirst then "newest" else "oldest", w.ID + 10 * txFilter⟩]

end transaction

/-!
# Settings page (`ui/page/settings_page.go`)
-/

namespace page

open seedbackup

/-- Modelled from the spec: the `Switch` widget of `ui/decredmaterial` is not
among the sources. The spec speaks of toggling persisted boolean settings; the
model keeps the checked state and whether the user toggled the switch since the
page last asked. -/
structure Switch where
  value : Bool
  changed : Bool
  deriving DecidableEq, Repr

/-- Modelled from the spec: `Switch.Changed()` reports whether the switch was
toggled since the last call and clears the report. -/
def Switch.Changed (s : Switch) : Bool × Switch := (s.changed, { s with changed := false })

/-- Modelled from the spec: `Switch.IsChecked()`. -/
def Switch.IsChecked (s : Switch) : Bool := s.value

/-- Modelled from the spec: `Switch.SetChecked(value)`. -/
def Switch.SetChecked (s : Switch) (value : Bool) : Switch := { s with value := value }

/-- A value stored in the wallet configuration. -/
inductive ConfigValue where
  | bool (b : Bool)
  | string (s : String)
  deriving DecidableEq, Repr

/-- Modelled from the spec: the persisted configuration key-value pairs kept by
the wallet library. -/
abbrev Config := String → Option ConfigValue

/-- Modelled from the spec: `SaveConfigValueForKey(key, value)` stores `value`
under `key`. -/
def SaveConfigValueForKey (cfg : Config) (key : String) (value : ConfigValue) : Config :=
  fun k => if k = key then some value else cfg k

/-- Modelled from the spec: `ReadBoolConfigValueForKey(key)`, `false` when no
boolean is stored under `key`. -/
def ReadBoolConfigValueForKey (cfg : Config) (key : String) : Bool :=
  match cfg key with
  | some (ConfigValue.bool b) => b
  | _ => false

/-- Modelled from the spec: `ReadStringConfigValueForKey(key)`, empty when no
string is stored under `key`. -/
def ReadStringConfigValueForKey (cfg : Config) (key : String) : String :=
  match cfg key with
  | some (ConfigValue.string s) => s
  | _ => ""

/-- The configuration keys used by the page; they are constants declared outside
the sources, so they are parameters. -/
structure ConfigKeys where
  DarkModeConfigKey : String
  SpendUnconfirmedConfigKey : String
  FetchProposalConfigKey : String
  BeepNewBlocksConfigKey : String
  ProposalNotificationConfigKey : String
  TransactionNotificationConfigKey : String
  SpvPersistentPeerAddressesConfigKey : String
  UserAgentConfigKey : String
  deriving DecidableEq, Repr

/-- The Go struct `SettingsPage`, restricted to the state that
`HandleUserInteractions` and `updateSettingOptions` read or write. `config` is
the wallet configuration reached through `pg.wal`; `toasts` lists the
notifications shown, `modalsShown` counts the dialogs opened, `themeRefreshes`
counts the calls of `RefreshTheme`, and `politeiaSyncs` counts the started
proposal syncs. -/
structure SettingsPage where
  config : Config
  updateConnectToPeer : Clickable
  updateUserAgent : Clickable
  changeStartupPass : Clickable
  language : Clickable
  currency : Clickable
  infoButton : Clickable
  isDarkModeOn : Switch
  spendUnconfirmed : Switch
  startupPassword : Switch
  beepNewBlocks : Switch
  connectToPeer : Switch
  userAgent : Switch
  governance : Switch
  proposalNotification : Switch
  transactionNotification : Switch
  peerLabel : String
  agentLabel : String
  isStartupPassword : Bool
  peerAddr : String
  agentValue : String
  toasts : List String
  modalsShown : Nat
  themeRefreshes : Nat
  politeiaSyncs : Nat

/-- Opening a dialog (`Show()` or `ShowModal`). -/
def SettingsPage.showModal (pg : SettingsPage) : SettingsPage :=
  { pg with modalsShown := pg.modalsShown + 1 }

/-- Go `Toast.Notify(text)` and `Toast.NotifyError(text)`. -/
def SettingsPage.notify (pg : SettingsPage) (text : String) : SettingsPage :=
  { pg with toasts := pg.toasts ++ [text] }

/-- The language row of `HandleUserInteractions`
(`for c.Clicked() { ...Show(); break }` opens one dialog for one click). -/
def handleLanguage (pg : SettingsPage) : SettingsPage :=
  if (pg.language.Clicked).1 then
    { pg with language := (pg.language.Clicked).2, modalsShown := pg.modalsShown + 1 }
  else { pg with language := (pg.language.Clicked).2 }

/-- The currency row of `HandleUserInteractions`. -/
def handleCurrency (pg : SettingsPage) : SettingsPage :=
  if (pg.currency.Clicked).1 then
    { pg with currency := (pg.currency.Clicked).2, modalsShown := pg.modalsShown + 1 }
  else { pg with currency := (pg.currency.Clicked).2 }

/-- The first part of `HandleUserInteractions`: the language and currency rows. -/
def handleRows (pg : SettingsPage) : SettingsPage :=
  handleCurrency (handleLanguage pg)

/-- The dark-mode switch of `HandleUserInteractions`. -/
def handleDarkMode (k : ConfigKeys) (pg : SettingsPage) : SettingsPage :=
  if (pg.isDarkModeOn.Changed).1 then
    { pg with
      isDarkModeOn := (pg.isDarkModeOn.Changed).2,
      config := SaveConfigValueForKey pg.config k.DarkModeConfigKey
        (ConfigValue.bool pg.isDarkModeOn.IsChecked),
      themeRefreshes := pg.themeRefreshes + 1 }
  else { pg with isDarkModeOn := (pg.isDarkModeOn.Changed).2 }

/-- The spend-unconfirmed switch of `HandleUserInteractions`. -/
def handleSpendUnconfirmed (k : ConfigKeys) (pg : SettingsPage) : SettingsPage :=
  if (pg.spendUnconfirmed.Changed).1 then
    { pg with
      spendUnconfirmed := (pg.spendUnconfirmed.Changed).2,
      config := SaveConfigValueForKey pg.config k.SpendUnconfirmedConfigKey
        (ConfigValue.bool pg.spendUnconfirmed.IsChecked) }
  else { pg with spendUnconfirmed := (pg.spendUnconfirmed.Changed).2 }

/-- The governance switch of `HandleUserInteractions`: switching it on starts
the proposal sync and saves the setting at once; switching it off only opens
the confirmation dialog. -/
def handleGovernance (k : ConfigKeys) (pg : SettingsPage) : SettingsPage :=
  if (pg.governance.Changed).1 then
    if pg.governance.IsChecked then
      { pg with
        governance := (pg.governance.Changed).2,
        politeiaSyncs := pg.politeiaSyncs + 1,
        config := SaveConfigValueForKey pg.config k.FetchProposalConfigKey
          (ConfigValue.bool pg.governance.IsChecked),
        toasts := pg.toasts ++ ["Proposals fetching enabled. Check Governance page"] }
    else
      { pg with governance := (pg.governance.Changed).2, modalsShown := pg.modalsShown + 1 }
  else { pg with governance := (pg.governance.Changed).2 }

/-- The beep-on-new-blocks switch of `HandleUserInteractions`. -/
def handleBeepNewBlocks (k : ConfigKeys) (pg : SettingsPage) : SettingsPage :=
  if (pg.beepNewBlocks.Changed).1 then
    { pg with
      beepNewBlocks := (pg.beepNewBlocks.Changed).2,
      config := SaveConfigValueForKey pg.config k.BeepNewBlocksConfigKey
        (ConfigValue.bool pg.beepNewBlocks.IsChecked) }
  else { pg with beepNewBlocks := (pg.beepNewBlocks.Changed).2 }

/-- The proposal-notification switch of `HandleUserInteractions`. -/
def handleProposalNotification (k : ConfigKeys) (pg : SettingsPage) : SettingsPage :=
  if (pg.proposalNotification.Changed).1 then
    { pg with
      proposalNotification := (pg.proposalNotification.Changed).2,
      config := SaveConfigValueForKey pg.config k.ProposalNotificationConfigKey
        (ConfigValue.bool pg.proposalNotification.IsChecked),
      toasts := pg.toasts ++
        [if pg.proposalNotification.IsChecked then "Proposal notification enabled"
          else "Proposal notification disabled"] }
  else { pg with proposalNotification := (pg.proposalNotification.Changed).2 }

/-- The transaction-notification switch of `HandleUserInteractions`. -/
def handleTransactionNotification (k : ConfigKeys) (pg : SettingsPage) : SettingsPage :=
  if (pg.transactionNotification.Changed).1 then
    { pg with
      transactionNotification := (pg.transactionNotification.Changed).2,
      config := SaveConfigValueForKey pg.config k.TransactionNotificationConfigKey
        (ConfigValue.bool pg.transactionNotification.IsChecked),
      toasts := pg.toasts ++
        [if pg.transactionNotification.IsChecked then "Transaction notification enabled"
          else "Transaction notification disabled"] }
  else { pg with transactionNotification := (pg.transactionNotification.Changed).2 }

/-- The switches of `HandleUserInteractions` that save a boolean setting, in the
order of the source: dark mode, spend unconfirmed, governance, beep on new
blocks, proposal notification, transaction notification. -/
def handleSettingSwitches (k : ConfigKeys) (pg : SettingsPage) : SettingsPage :=
  handleTransactionNotification k (handleProposalNotification k (handleBeepNewBlocks k
    (handleGovernance k (handleSpendUnconfirmed k (handleDarkMode k pg)))))

/-- The end of `HandleUserInteractions`: the error channel. `received` is the
error text taken from `errorReceiver`, if one is waiting; `ErrInvalidPassphrase`
is the wallet library's constant. -/
def handleErrorReceiver (ErrInvalidPassphrase : String) (received : Option String)
    (pg : SettingsPage) : SettingsPage :=
  match received with
  | some err =>
    if err = ErrInvalidPassphrase then pg.notify "Password is incorrect" else pg.notify err
  | none => pg

/-- The user-agent switch of `HandleUserInteractions` and the error channel
after it: switching it on opens the user-agent dialog and returns; switching it
off opens the confirmation dialog. -/
def handleUserAgent (ErrInvalidPassphrase : String) (received : Option String)
    (pg : SettingsPage) : SettingsPage :=
  if (pg.userAgent.Changed).1 then
    if pg.userAgent.IsChecked then
      { pg with userAgent := (pg.userAgent.Changed).2, modalsShown := pg.modalsShown + 1 }
    else
      handleErrorReceiver ErrInvalidPassphrase received
        { pg with userAgent := (pg.userAgent.Changed).2, modalsShown := pg.modalsShown + 1 }
  else
    handleErrorReceiver ErrInvalidPassphrase received
      { pg with userAgent := (pg.userAgent.Changed).2 }

/-- The info button of `HandleUserInteractions`. -/
def handleInfoButton (pg : SettingsPage) : SettingsPage :=
  if (pg.infoButton.Clicked).1 then
    { pg with infoButton := (pg.infoButton.Clicked).2, modalsShown := pg.modalsShown + 1 }
  else { pg with infoButton := (pg.infoButton.Clicked).2 }

/-- The change-startup-password row of `HandleUserInteractions`. -/
def handleChangeStartupPass (pg : SettingsPage) : SettingsPage :=
  if (pg.changeStartupPass.Clicked).1 then
    { pg with changeStartupPass := (pg.changeStartupPass.Clicked).2,
              modalsShown := pg.modalsShown + 1 }
  else { pg with changeStartupPass := (pg.changeStartupPass.Clicked).2 }

/-- The startup-password switch of `HandleUserInteractions`: either way a
password dialog is opened. -/
def handleStartupPassword (pg : SettingsPage) : SettingsPage :=
  if (pg.startupPassword.Changed).1 then
    { pg with startupPassword := (pg.startupPassword.Changed).2,
              modalsShown := pg.modalsShown + 1 }
  else { pg with startupPassword := (pg.startupPassword.Changed).2 }

/-- The row of `HandleUserInteractions` that reopens the peer dialog. -/
def handleUpdateConnectToPeer (pg : SettingsPage) : SettingsPage :=
  if (pg.updateConnectToPeer.Clicked).1 then
    { pg with updateConnectToPeer := (pg.updateConnectToPeer.Clicked).2,
              modalsShown := pg.modalsShown + 1 }
  else { pg with updateConnectToPeer := (pg.updateConnectToPeer.Clicked).2 }

/-- The row of `HandleUserInteractions` that reopens the user-agent dialog. -/
def handleUpdateUserAgent (pg : SettingsPage) : SettingsPage :=
  if (pg.updateUserAgent.Clicked).1 then
    { pg with updateUserAgent := (pg.updateUserAgent.Clicked).2,
              modalsShown := pg.modalsShown + 1 }
  else { pg with updateUserAgent := (pg.updateUserAgent.Clicked).2 }

/-- The two rows of `HandleUserInteractions` that reopen the peer and the
user-agent dialogs. -/
def handleUpdateRows (pg : SettingsPage) : SettingsPage :=
  handleUpdateUserAgent (handleUpdateConnectToPeer pg)

/-- The connect-to-peer switch of `HandleUserInteractions` and everything after
it: switching it on opens the peer dialog and returns; otherwise the frame goes
on with the rows, the user-agent switch and the error channel. -/
def handleConnectToPeer (ErrInvalidPassphrase : String) (received : Option String)
    (pg : SettingsPage) : SettingsPage :=
  if (pg.connectToPeer.Changed).1 then
    if pg.connectToPeer.IsChecked then
      { pg with connectToPeer := (pg.connectToPeer.Changed).2,
                modalsShown := pg.modalsShown + 1 }
    else
      handleUserAgent ErrInvalidPassphrase received
        (handleUpdateRows
          { pg with connectToPeer := (pg.connectToPeer.Changed).2,
                    modalsShown := pg.modalsShown + 1 })
  else
    handleUserAgent ErrInvalidPassphrase received
      (handleUpdateRows { pg with connectToPeer := (pg.connectToPeer.Changed).2 })

/-- The part of `HandleUserInteractions` that only opens dialogs: the info
button, the startup password row and switch, and the peer and user-agent rows
and switches; none of them writes the configuration during the frame. -/
def handleDialogs (ErrInvalidPassphrase : String) (received : Option String)
    (pg : SettingsPage) : SettingsPage :=
  handleConnectToPeer ErrInvalidPassphrase received
    (handleStartupPassword (handleChangeStartupPass (handleInfoButton pg)))

/-- Go `SettingsPage.HandleUserInteractions`. -/
def HandleUserInteractions (k : ConfigKeys) (ErrInvalidPassphrase : String)
    (received : Option String) (pg : SettingsPage) : SettingsPage :=
  handleDialogs ErrInvalidPassphrase received (handleSettingSwitches k (handleRows pg))

/-- The pattern `sw.SetChecked(false); if v { sw.SetChecked(v) }` of
`updateSettingOptions`. -/
def setCheckedFrom (sw : Switch) (v : Bool) : Switch :=
  let sw := sw.SetChecked false
  if v then sw.SetChecked v else sw

/-- The startup-password step of `updateSettingOptions`; `isPassword` is the
answer of `IsStartupSecuritySet()`. -/
def updateStartupPassword (isPassword : Bool) (pg : SettingsPage) : SettingsPage :=
  { pg with
    startupPassword := setCheckedFrom pg.startupPassword isPassword,
    isStartupPassword := if isPassword then true else false }

/-- The boolean settings of `updateSettingOptions` read before the peer
address: dark mode, spend unconfirmed and beep on new blocks. -/
def updateFirstSwitches (k : ConfigKeys) (pg : SettingsPage) : SettingsPage :=
  { pg with
    isDarkModeOn := setCheckedFrom pg.isDarkModeOn
      (ReadBoolConfigValueForKey pg.config k.DarkModeConfigKey),
    spendUnconfirmed := setCheckedFrom pg.spendUnconfirmed
      (ReadBoolConfigValueForKey pg.config k.SpendUnconfirmedConfigKey),
    beepNewBlocks := setCheckedFrom pg.beepNewBlocks
      (ReadBoolConfigValueForKey pg.config k.BeepNewBlocksConfigKey) }

/-- The peer-address step of `updateSettingOptions`. -/
def updatePeer (k : ConfigKeys) (pg : SettingsPage) : SettingsPage :=
  let peerAddr := ReadStringConfigValueForKey pg.config k.SpvPersistentPeerAddressesConfigKey
  if peerAddr ≠ "" then
    { pg with peerAddr := peerAddr, peerLabel := peerAddr,
              connectToPeer := (pg.connectToPeer.SetChecked false).SetChecked true }
  else { pg with peerAddr := peerAddr, connectToPeer := pg.connectToPeer.SetChecked false }

/-- The user-agent step of `updateSettingOptions`. -/
def updateAgent (k : ConfigKeys) (pg : SettingsPage) : SettingsPage :=
  let agentValue := ReadStringConfigValueForKey pg.config k.UserAgentConfigKey
  if agentValue ≠ "" then
    { pg with agentValue := agentValue, agentLabel := agentValue,
              userAgent := (pg.userAgent.SetChecked false).SetChecked true }
  else { pg with agentValue := agentValue, userAgent := pg.userAgent.SetChecked false }

/-- The boolean settings of `updateSettingOptions` read after the user agent:
governance, proposal notification and transaction notification. -/
def updateLastSwitches (k : ConfigKeys) (pg : SettingsPage) : SettingsPage :=
  { pg with
    governance := setCheckedFrom pg.governance
      (ReadBoolConfigValueForKey pg.config k.FetchProposalConfigKey),
    proposalNotification := setCheckedFrom pg.proposalNotification
      (ReadBoolConfigValueForKey pg.config k.ProposalNotificationConfigKey),
    transactionNotification := setCheckedFrom pg.transactionNotification
      (ReadBoolConfigValueForKey pg.config k.TransactionNotificationConfigKey) }

/-- Go `SettingsPage.updateSettingOptions`, step by step in the order of the
source. `isPassword` is the answer of `IsStartupSecuritySet()`. -/
def updateSettingOptions (k : ConfigKeys) (isPassword : Bool) (pg : SettingsPage) :
    SettingsPage :=
  updateLastSwitches k (updateAgent k (updatePeer k (updateFirstSwitches k
    (updateStartupPassword isPassword pg))))

/-- The keys of the boolean settings that `HandleUserInteractions` saves. -/
def ConfigKeys.saved (k : ConfigKeys) : List String :=
  [k.DarkModeConfigKey, k.SpendUnconfirmedConfigKey, k.FetchProposalConfigKey,
    k.BeepNewBlocksConfigKey, k.ProposalNotificationConfigKey,
    k.TransactionNotificationConfigKey]

/-- The part of the page the boolean settings live in: the configuration and
the five switches that mirror a saved boolean. -/
def SettingsPage.settingsView (pg : SettingsPage) :
    Config × Switch × Switch × Switch × Switch × Switch :=
  (pg.config, pg.isDarkModeOn, pg.spendUnconfirmed, pg.beepNewBlocks,
    pg.proposalNotification, pg.transactionNotification)

/-- Sample keys. -/
def exampleKeys : ConfigKeys :=
  { DarkModeConfigKey := "dark_mode", SpendUnconfirmedConfigKey := "spend_unconfirmed",
    FetchProposalConfigKey := "fetch_proposals", BeepNewBlocksConfigKey := "beep_new_blocks",
    ProposalNotificationConfigKey := "proposal_notification",
    TransactionNotificationConfigKey := "transaction_notification",
    SpvPersistentPeerAddressesConfigKey := "spv_peer_addresses",
    UserAgentConfigKey := "user_agent" }

/-- A sample page with an empty configuration in which the user has just
switched dark mode and transaction notifications on. -/
def exampleSettingsPage : SettingsPage :=
  { config := fun _ => none,
    updateConnectToPeer := NewClickable false, updateUserAgent := NewClickable false,
    changeStartupPass := NewClickable false, language := NewClickable false,
    currency := NewClickable false, infoButton := NewClickable false,
    isDarkModeOn := ⟨true, true⟩, spendUnconfirmed := ⟨false, false⟩,
    startupPassword := ⟨false, false⟩, beepNewBlocks := ⟨false, false⟩,
    connectToPeer := ⟨false, false⟩, userAgent := ⟨false, false⟩,
    governance := ⟨false, false⟩, proposalNotification := ⟨false, false⟩,
    transactionNotification := ⟨true, true⟩,
    peerLabel := "", agentLabel := "", isStartupPassword := false, peerAddr := "",
    agentValue := "", toasts := [], modalsShown := 0, themeRefreshes := 0, politeiaSyncs := 0 }

end page

/-!
# Drop-down events (`ui/decredmaterial/dropdown.go`, continued)
-/

namespace decredmaterial

open seedbackup

/-- Go `DropDown.Selected`: `d.items[d.SelectedIndex()].Text`; an index out of
range is a panic (`none`). -/
def DropDown.Selected (d : DropDown) : Option String :=
  (index d.items d.SelectedIndex).map (fun item => item.Text)

/-- The item loop of `handleEvents` on an open drop-down, from item `i` on:
`for d.items[index].clickable.Clicked() { selectedIndex = index; isOpen = false; break }`
takes one pending click of each item, and the loop goes on to the last item. -/
def handleItems : Nat → List DropDownItem → Int → Bool → List DropDownItem × Int × Bool
  | _, [], selectedIndex, isOpen => ([], selectedIndex, isOpen)
  | i, item :: rest, selectedIndex, isOpen =>
    let r := handleItems (i + 1) rest
      (if (item.clickable.Clicked).1 then (i : Int) else selectedIndex)
      (if (item.clickable.Clicked).1 then false else isOpen)
    ({ item with clickable := (item.clickable.Clicked).2 } :: r.1, r.2)

/-- Go `DropDown.handleEvents`. `closeAllDropdown` is what the call
`d.closeAllDropdown(d.group)` does to this drop-down; the function behind that
field is outside the sources, so it is a parameter. -/
def DropDown.handleEvents (closeAllDropdown : DropDown → DropDown) (d : DropDown) : DropDown :=
  let d : DropDown :=
    if d.isOpen then
      { d with
        items := (handleItems 0 d.items d.selectedIndex d.isOpen).1,
        selectedIndex := (handleItems 0 d.items d.selectedIndex d.isOpen).2.1,
        isOpen := (handleItems 0 d.items d.selectedIndex d.isOpen).2.2 }
    else
      { d with
        clickable := (forClicked (fun _ => true) d.clickable d.isOpen).1,
        isOpen := (forClicked (fun _ => true) d.clickable d.isOpen).2 }
  let r := forClicked closeAllDropdown d.backdrop d
  { r.2 with backdrop := r.1 }

/-- The item loop of `Changed` on an open drop-down, from item `i` on: the
index of the first item with a pending click, with the items after that click
has been taken; `none` when no item was clicked. -/
def changedItems : Nat → List DropDownItem → Option (Nat × List DropDownItem)
  | _, [] => none
  | i, item :: rest =>
    if (item.clickable.Clicked).1 then
      some (i, { item with clickable := (item.clickable.Clicked).2 } :: rest)
    else
      match changedItems (i + 1) rest with
      | none => none
      | some (j, rest') => some (j, { item with clickable := (item.clickable.Clicked).2 } :: rest')

/-- Go `DropDown.Changed`: the returned flag and the drop-down afterwards. -/
def DropDown.Changed (d : DropDown) : Bool × DropDown :=
  if d.isOpen then
    match changedItems 0 d.items with
    | some (j, items') =>
      (true, { d with items := items', selectedIndex := (j : Int), isOpen := false })
    | none => (false, d)
  else (false, d)

/-- The Go polling loop `for dropdown.Changed() { body }` on a page state `σ`
that holds the drop-down (`get`, `set`). The first argument bounds the number
of calls of `Changed`: the outer `none` means the bound was reached before the
loop ended, the inner `none` that `body` panicked. -/
def forChanged {σ : Type} (get : σ → DropDown) (set : DropDown → σ → σ)
    (body : σ → Option σ) : Nat → σ → Option (Option σ)
  | 0, _ => none
  | n + 1, s =>
    if ((get s).Changed).1 then
      match body (set ((get s).Changed).2 s) with
      | none => some none
      | some s' => forChanged get set body n s'
    else some (some (set ((get s).Changed).2 s))

/-- A user click on item `i` of the drop-down. -/
def DropDown.clickItem (d : DropDown) (i : Nat) : DropDown :=
  { d with
    items := List.modify
      (fun item => { item with
        clickable := { item.clickable with clicks := item.clickable.clicks + 1 } })
      i d.items }

/-- A user click on the trigger of the drop-down. -/
def DropDown.clickTrigger (d : DropDown) : DropDown :=
  { d with clickable := { d.clickable with clicks := d.clickable.clicks + 1 } }

/-- A user click on the backdrop of the drop-down. -/
def DropDown.clickBackdrop (d : DropDown) : DropDown :=
  { d with backdrop := { d.backdrop with clicks := d.backdrop.clicks + 1 } }

/-- What the theorems assume of the function behind `closeAllDropdown`: it
leaves the items and the selection alone and opens nothing. -/
def ClosesOnly (closeAllDropdown : DropDown → DropDown) : Prop :=
  ∀ d, (closeAllDropdown d).items = d.items ∧
    (closeAllDropdown d).selectedIndex = d.selectedIndex ∧
    ((closeAllDropdown d).isOpen = true → d.isOpen = true)

/-- The expected behaviour of `closeAllDropdown` on the drop-down itself: it is
closed. -/
def closeDropDown (d : DropDown) : DropDown := { d with isOpen := false }

/-- The selection is an index of an item: `0 ≤ selectedIndex < Len()`. -/
def DropDown.inBounds (d : DropDown) : Prop :=
  0 ≤ d.selectedIndex ∧ d.selectedIndex < d.Len

/-- The drop-down states reachable from a drop-down created with the items
`items`, by user clicks and by calls of `handleEvents` and `Changed`. -/
inductive DropDown.Reachable (closeAllDropdown : DropDown → DropDown)
    (items : List DropDownItem) : DropDown → Prop
  | created (group pos : Nat) : DropDown.Reachable closeAllDropdown items
      (Theme.DropDown items group pos)
  | clickItem (d : DropDown) (i : Nat) : DropDown.Reachable closeAllDropdown items d →
      DropDown.Reachable closeAllDropdown items (d.clickItem i)
  | clickTrigger (d : DropDown) : DropDown.Reachable closeAllDropdown items d →
      DropDown.Reachable closeAllDropdown items d.clickTrigger
  | clickBackdrop (d : DropDown) : DropDown.Reachable closeAllDropdown items d →
      DropDown.Reachable closeAllDropdown items d.clickBackdrop
  | handleEvents (d : DropDown) : DropDown.Reachable closeAllDropdown items d →
      DropDown.Reachable closeAllDropdown items (d.handleEvents closeAllDropdown)
  | Changed (d : DropDown) : DropDown.Reachable closeAllDropdown items d →
      DropDown.Reachable closeAllDropdown items (d.Changed).2

/-- Three sample items. -/
def exampleItems : List DropDownItem :=
  [⟨"a", NewClickable true⟩, ⟨"b", NewClickable true⟩, ⟨"c", NewClickable true⟩]

/-- A drop-down with three items, opened, whose second and third items have been
clicked. -/
def exampleOpenDropDown : DropDown :=
  ((((Theme.DropDown exampleItems 0 0).clickTrigger.handleEvents closeDropDown).clickItem
    2).clickItem 1)

/-- A closed drop-down with three items and pending clicks on its second item,
on its trigger and on its backdrop. -/
def exampleClosedDropDown : DropDown :=
  (((Theme.DropDown exampleItems 0 0).clickItem 1).clickTrigger).clickBackdrop

end decredmaterial


namespace transaction

open seedbackup decredmaterial

/-- The three polling loops of `TransactionsPage.HandleUserInteractions`:
`for pg.txTypeDropDown.Changed() { pg.loadTransactions() }`, then the same for
`orderDropDown` and `walletDropDown`. `fuel` bounds the calls of `Changed` of
each loop; the outer `none` is a loop cut off by the bound, the inner `none` a
panic of `loadTransactions`. -/
def pollDropDowns (c : TxFilters)
    (GetTransactionsRaw : Wallet → Int → Int → Int → Bool → Except String (List Transaction))
    (fuel : Nat) (pg : TransactionsPage) : Option (Option TransactionsPage) :=
  match forChanged (fun pg => pg.txTypeDropDown) (fun d pg => { pg with txTypeDropDown := d })
      (loadTransactions c GetTransactionsRaw) fuel pg with
  | some (some pg) =>
    match forChanged (fun pg => pg.orderDropDown) (fun d pg => { pg with orderDropDown := d })
        (loadTransactions c GetTransactionsRaw) fuel pg with
    | some (some pg) =>
      forChanged (fun pg => pg.walletDropDown) (fun d pg => { pg with walletDropDown := d })
        (loadTransactions c GetTransactionsRaw) fuel pg
    | r => r
  | r => r

/-- A sample page with one transaction already loaded. -/
def exampleLoadedPage : TransactionsPage :=
  { exampleTransactionsPage with transactions := [⟨"loaded before", 1⟩] }

/-- A sample wallet library call that fails. -/
def exampleFailingGetTransactionsRaw (_w : Wallet) (_offset _limit _txFilter : Int)
    (_newestFirst : Bool) : Except String (List Transaction) :=
  Except.error "wallet is locked"

end transaction
/-!
# Text editor (`ui/decredmaterial/editor.go`)
-/

namespace decredmaterial

open seedbackup

/-- The theme colours the editor uses (`t.Color.Primary`, ...). -/
inductive Color where
  | Primary
  | Danger
  | Gray2
  | Text
  | GrayText2
  | Surface
  deriving DecidableEq, Repr

/-- Modelled from the spec: the `Label` widget of `ui/decredmaterial`, a text
drawn in a colour. -/
structure Label where
  Text : String
  Color : Color
  deriving DecidableEq, Repr

/-- Modelled from the spec: the toolkit's `widget.Editor`, the text field the
`Editor` points to: its text, whether it has the focus, and its mask rune
(`'*'` is 42, no mask is 0). -/
structure WidgetEditor where
  text : String
  focused : Bool
  Mask : Nat
  deriving DecidableEq, Repr

/-- Modelled from the spec: `widget.Editor.Len`, the length of the text. -/
def WidgetEditor.Len (w : WidgetEditor) : Nat := w.text.length

/-- Modelled from the spec: `widget.Editor.Focused`. -/
def WidgetEditor.Focused (w : WidgetEditor) : Bool := w.focused

/-- Modelled from the spec: `widget.Editor.Text`. -/
def WidgetEditor.Text (w : WidgetEditor) : String := w.text

/-- Modelled from the spec: `widget.Editor.SetText`. -/
def WidgetEditor.SetText (w : WidgetEditor) (s : String) : WidgetEditor := { w with text := s }

/-- The Go struct `Editor`, restricted to the fields that decide the labels, the
line colour and the event handling. `editor` is the text field behind the
pointer `Editor` of the embedded `material.EditorStyle` (in lower case, as the
structure itself has that name); the two icon buttons are the
clickables behind their `Button` pointers; `hasEditorIconButtonEvent` tells
whether the callback `EditorIconButtonEvent` is set (not nil) and
`iconEvents` counts its calls. -/
structure Editor where
  editor : WidgetEditor
  Hint : String
  TitleLabel : Label
  errorLabel : Label
  LineColor : Color
  IsRequired : Bool
  IsTitleLabel : Bool
  Bordered : Bool
  requiredErrorText : String
  editorIconButton : Clickable
  showHidePassword : Clickable
  hasEditorIconButtonEvent : Bool
  iconEvents : Nat
  deriving DecidableEq, Repr

/-- Go `Theme.Editor(editor, hint)`. -/
def Theme.Editor (editor : WidgetEditor) (hint : String) : Editor :=
  { editor := editor,
    Hint := hint,
    TitleLabel := { Text := "", Color := Color.Text },
    errorLabel := { Text := "", Color := Color.Danger },
    LineColor := Color.Gray2,
    IsRequired := false,
    IsTitleLabel := true,
    Bordered := true,
    requiredErrorText := "Field is required",
    editorIconButton := NewClickable false,
    showHidePassword := NewClickable false,
    hasEditorIconButtonEvent := false,
    iconEvents := 0 }

/-- Go `Editor.SetRequiredErrorText`. -/
def Editor.SetRequiredErrorText (e : Editor) (txt : String) : Editor :=
  { e with requiredErrorText := txt }

/-- Go `Editor.SetError`. -/
def Editor.SetError (e : Editor) (text : String) : Editor :=
  { e with errorLabel := { e.errorLabel with Text := text } }

/-- Go `Editor.ClearError`. -/
def Editor.ClearError (e : Editor) : Editor :=
  { e with errorLabel := { e.errorLabel with Text := "" } }

/-- First step of `handleEvents`: a click of the show/hide button toggles the
mask of the text field between `'*'` and none. -/
def Editor.handleShowHide (e : Editor) : Editor :=
  { e with
    showHidePassword := (e.showHidePassword.Clicked).2,
    editor :=
      if (e.showHidePassword.Clicked).1 then
        if e.editor.Mask = 42 then { e.editor with Mask := 0 }
        else if e.editor.Mask = 0 then { e.editor with Mask := 42 }
        else e.editor
      else e.editor }

/-- Second step of `handleEvents`: a click of the icon button calls
`e.EditorIconButtonEvent()`; calling a nil function is a panic (`none`). -/
def Editor.handleIconButton (e : Editor) : Option Editor :=
  if (e.editorIconButton.Clicked).1 then
    if e.hasEditorIconButtonEvent then
      some { e with editorIconButton := (e.editorIconButton.Clicked).2,
                    iconEvents := e.iconEvents + 1 }
    else none
  else some { e with editorIconButton := (e.editorIconButton.Clicked).2 }

/-- Last step of `handleEvents`: the line colour is set from the error label and
then set again from `requiredErrorText`. -/
def Editor.handleLineColor (e : Editor) : Editor :=
  let e : Editor :=
    if e.errorLabel.Text ≠ "" then { e with LineColor := Color.Danger }
    else { e with LineColor := Color.Gray2 }
  if e.requiredErrorText ≠ "" then { e with LineColor := Color.Danger }
  else { e with LineColor := Color.Gray2 }

/-- Go `Editor.handleEvents` (value receiver): the result is the copy the method
worked on. -/
def Editor.handleEvents (e : Editor) : Option Editor :=
  (e.handleShowHide.handleIconButton).map Editor.handleLineColor

/-- What the caller's editor is after a call of a value-receiver method that
ended with the copy `e'`: only what lies behind pointers (the text field, the
clickables of the two buttons, the effect of the callback) is shared. -/
def Editor.afterValueCall (e e' : Editor) : Editor :=
  { e with
    editor := e'.editor,
    editorIconButton := e'.editorIconButton,
    showHidePassword := e'.showHidePassword,
    iconEvents := e'.iconEvents }

/-- In `Layout`: `if e.Editor.Len() > 0 { e.TitleLabel.Text = e.Hint }`. -/
def Editor.layoutTitle (e : Editor) : Editor :=
  if e.editor.Len > 0 then { e with TitleLabel := { e.TitleLabel with Text := e.Hint } } else e

/-- In `Layout`: the `if e.Editor.Focused()` block. -/
def Editor.layoutFocused (e : Editor) : Editor :=
  if e.editor.Focused then
    { e with
      TitleLabel := { Text := e.Hint, Color := Color.Primary },
      LineColor := Color.Primary,
      Hint := "" }
  else e

/-- In `Layout`: the `if e.IsRequired && !e.Editor.Focused() && e.Editor.Len() == 0`
block. -/
def Editor.layoutRequired (e : Editor) : Editor :=
  if e.IsRequired && !e.editor.Focused && e.editor.Len == 0 then
    { e with
      errorLabel := { e.errorLabel with Text := e.requiredErrorText },
      LineColor := Color.Danger }
  else e

/-- In `Layout`: the `if e.errorLabel.Text != ""` block. -/
def Editor.layoutError (e : Editor) : Editor :=
  if e.errorLabel.Text ≠ "" then
    { e with LineColor := Color.Danger, TitleLabel := { e.TitleLabel with Color := Color.Danger } }
  else e

/-- What `Layout` draws: the error label under the text field (drawn only when
its text is not empty), the title label (drawn only when `IsTitleLabel`), the
border in the line colour (drawn only when `Bordered`) and the hint. -/
structure EditorView where
  errorLabel : Option Label
  titleLabel : Option Label
  border : Option Color
  Hint : String
  deriving DecidableEq, Repr

/-- The drawing part of `Layout` (with `editorLayout`), on Layout's copy of the
editor. -/
def Editor.draw (e : Editor) : EditorView :=
  { errorLabel := if e.errorLabel.Text ≠ "" then some e.errorLabel else none,
    titleLabel := if e.IsTitleLabel then some e.TitleLabel else none,
    border := if e.Bordered then some e.LineColor else none,
    Hint := e.Hint }

/-- Go `Editor.Layout` (value receiver): what is drawn, and the caller's editor
afterwards. `none` is a panic. -/
def Editor.Layout (e : Editor) : Option (EditorView × Editor) :=
  match e.handleEvents with
  | none => none
  | some e' =>
    some ((((e.afterValueCall e').layoutTitle.layoutFocused).layoutRequired.layoutError).draw,
      e.afterValueCall e')

/-- A required editor that has the focus and no text. -/
def exampleFocusedEditor : Editor :=
  { Theme.Editor { text := "", focused := true, Mask := 0 } "Address" with IsRequired := true }

/-- A required editor without the focus that holds a text. -/
def exampleFilledEditor : Editor :=
  { Theme.Editor { text := "Ds1", focused := false, Mask := 0 } "Address" with
    IsRequired := true }

/-- A required editor without the focus and without text, with its own
required-field text. -/
def exampleRequiredEditor : Editor :=
  ({ Theme.Editor { text := "", focused := false, Mask := 0 } "Address" with
    IsRequired := true }).SetRequiredErrorText "Address is required"

end decredmaterial

/-!
# Staking overview page (`ui/page/staking/overview.go`)
-/

namespace staking

/-- Modelled from the spec: a wallet of the wallet library, with the answer of
its `TicketBuyerConfigIsSet()`. -/
structure Wallet where
  ID : Int
  TicketBuyerConfigIsSet : Bool
  deriving DecidableEq, Repr

/-- The Go struct `Page` of the staking overview, restricted to the ticket-buyer
wallet; `none` is the nil pointer. -/
structure Page where
  ticketBuyerWallet : Option Wallet
  deriving DecidableEq, Repr

/-- Go `Page.setTBWallet`. `SortedWalletList` is the answer of
`pg.WL.SortedWalletList()`; indexing it at 0 when it is empty is a panic
(`none`). -/
def setTBWallet (SortedWalletList : List Wallet) (pg : Page) : Option Page :=
  let pg : Page := SortedWalletList.foldl
    (fun pg wal => if wal.TicketBuyerConfigIsSet then { pg with ticketBuyerWallet := some wal }
      else pg) pg
  match pg.ticketBuyerWallet with
  | none =>
    match SortedWalletList[0]? with
    | none => none
    | some wal => some { pg with ticketBuyerWallet := some wal }
  | some _ => some pg

/-- Two sample wallets without a ticket-buyer configuration. -/
def exampleWalletA : Wallet := { ID := 1, TicketBuyerConfigIsSet := false }

/-- The second sample wallet. -/
def exampleWalletB : Wallet := { ID := 2, TicketBuyerConfigIsSet := false }

end staking

/-!
# Sign message page (`ui/page/wallets/sign_message_page.go`)
-/

namespace wallets

open seedbackup decredmaterial

/-- Modelled from the spec: the `Button` widget of `ui/decredmaterial`: whether
it is enabled, and its pending clicks. -/
structure Button where
  isEnabled : Bool
  clickable : Clickable
  deriving DecidableEq, Repr

/-- Modelled from the spec: `Button.SetEnabled`. -/
def Button.SetEnabled (b : Button) (enabled : Bool) : Button := { b with isEnabled := enabled }

/-- The Go struct `SignMessagePage`, restricted to the form: the flags, the
labels, the two editors and the clear and sign buttons. -/
structure SignMessagePage where
  isSigningMessage : Bool
  addressIsValid : Bool
  messageIsValid : Bool
  isEnabled : Bool
  errorLabel : Label
  signedMessageLabel : Label
  addressEditor : Editor
  messageEditor : Editor
  clearButton : Button
  signButton : Button
  deriving DecidableEq, Repr

/-- Go `SignMessagePage.updateButtonColors`. `StringNotEmpty` is the helper
`components.StringNotEmpty`, outside the sources. -/
def updateButtonColors (StringNotEmpty : String → Bool) (pg : SignMessagePage) :
    SignMessagePage :=
  let pg : SignMessagePage := { pg with isEnabled := false }
  let pg : SignMessagePage :=
    if StringNotEmpty pg.addressEditor.editor.Text || StringNotEmpty pg.messageEditor.editor.Text
    then { pg with clearButton := pg.clearButton.SetEnabled true }
    else { pg with clearButton := pg.clearButton.SetEnabled false }
  let pg : SignMessagePage :=
    if !pg.isSigningMessage && pg.messageIsValid && pg.addressIsValid then
      { pg with isEnabled := true }
    else pg
  { pg with signButton := pg.signButton.SetEnabled pg.isEnabled }

/-- The `switch` of `validateAddress`: the pair `(valid, errorMessage)`.
`IsAddressValid` is the wallet library's `MultiWallet.IsAddressValid` and
`HaveAddress` the wallet's `HaveAddress`. -/
def validateAddressSwitch (StringNotEmpty IsAddressValid HaveAddress : String → Bool)
    (address : String) : Bool × String :=
  if !StringNotEmpty address then (false, "Please enter a valid address")
  else if !IsAddressValid address then (false, "Invalid address")
  else if !HaveAddress address then (false, "Address not owned by any wallet")
  else (true, "")

/-- Go `SignMessagePage.validateAddress`: the returned value and the page
afterwards. -/
def validateAddress (StringNotEmpty IsAddressValid HaveAddress : String → Bool)
    (pg : SignMessagePage) : Bool × SignMessagePage :=
  let address := pg.addressEditor.editor.Text
  let pg : SignMessagePage := { pg with addressEditor := pg.addressEditor.SetError "" }
  let r := validateAddressSwitch StringNotEmpty IsAddressValid HaveAddress address
  let pg : SignMessagePage :=
    if !r.1 then { pg with addressEditor := pg.addressEditor.SetError r.2 } else pg
  (r.1, { pg with addressIsValid := r.1 })

/-- Go `SignMessagePage.validateMessage`. -/
def validateMessage (StringNotEmpty : String → Bool) (pg : SignMessagePage) :
    Bool × SignMessagePage :=
  let message := pg.messageEditor.editor.Text
  let pg : SignMessagePage := { pg with messageEditor := pg.messageEditor.SetError "" }
  if !StringNotEmpty message then
    (false, { pg with
      messageEditor := pg.messageEditor.SetError "Please enter a valid message to sign",
      messageIsValid := false })
  else (true, { pg with messageIsValid := true })

/-- Go `SignMessagePage.clearForm`. -/
def clearForm (pg : SignMessagePage) : SignMessagePage :=
  { pg with
    addressEditor :=
      ({ pg.addressEditor with editor := pg.addressEditor.editor.SetText "" }).SetError "",
    messageEditor :=
      ({ pg.messageEditor with editor := pg.messageEditor.editor.SetText "" }).SetError "",
    signedMessageLabel := { pg.signedMessageLabel with Text := "" },
    errorLabel := { pg.errorLabel with Text := "" } }

/-- A sample `StringNotEmpty`: the text is not the empty string. -/
def exampleStringNotEmpty (s : String) : Bool := decide (s ≠ "")

/-- A sample sign-message page with a valid form: an address and a message are
entered, both were validated, a signature is shown. -/
def exampleSignMessagePage : SignMessagePage :=
  { isSigningMessage := false,
    addressIsValid := true,
    messageIsValid := true,
    isEnabled := true,
    errorLabel := { Text := "", Color := Color.Danger },
    signedMessageLabel := { Text := "c2lnbmF0dXJl", Color := Color.GrayText2 },
    addressEditor := Theme.Editor { text := "DsExampleAddress", focused := false, Mask := 0 }
      "Address",
    messageEditor := Theme.Editor { text := "hello", focused := true, Mask := 0 } "Message",
    clearButton := { isEnabled := true, clickable := NewClickable false },
    signButton := { isEnabled := true, clickable := NewClickable false } }

end wallets

namespace seedbackup

/-! ## Lemmas: Go primitives -/

@[simp] theorem index_natCast {α : Type} (s : List α) (k : Nat) : index s (k : Int) = s[k]? := by
  simp [index]

theorem index_eq_some {α : Type} {s : List α} {i : Int} {a : α} (h : index s i = some a) :
    ∃ k : Nat, i = (k : Int) ∧ k < s.length ∧ s[k]? = some a := by
  unfold index at h
  split at h
  · rename_i h0
    refine ⟨i.toNat, (Int.toNat_of_nonneg h0).symm, ?_, h⟩
    exact (List.getElem?_eq_some_iff.mp h).1
  · cases h

theorem index_neg {α : Type} (s : List α) {i : Int} (h : i < 0) : index s i = none := by
  unfold index
  rw [if_neg (by omega)]

theorem removeSeed_natCast (s : List String) (k : Nat) :
    removeSeed s (k : Int) = if k < s.length then some (s.eraseIdx k) else none := by
  unfold removeSeed
  by_cases h : k < s.length
  · rw [if_pos (by omega), if_pos h, List.eraseIdx_eq_take_drop_succ]
    simp
  · rw [if_neg (by omega), if_neg h]

theorem Intn_pos (r : Rand) {n : Nat} (h : 0 < n) :
    r.Intn n = some (r.draws 0 % n, r.advance) ∧ r.draws 0 % n < n := by
  refine ⟨?_, Nat.mod_lt _ h⟩
  unfold Rand.Intn Rand.below
  rw [if_neg (by omega)]

theorem Intn_zero (r : Rand) : r.Intn 0 = none := by
  simp [Rand.Intn]

theorem getElem_cons_eraseIdx_perm {α : Type} (l : List α) (k : Nat) (h : k < l.length) :
    (l[k] :: l.eraseIdx k).Perm l := by
  induction l generalizing k with
  | nil => simp at h
  | cons a t ih =>
    cases k with
    | zero => simp
    | succ k =>
      simp only [List.getElem_cons_succ, List.eraseIdx_cons_succ]
      have h' : k < t.length := by simpa using h
      exact (List.Perm.swap a t[k] _).trans ((ih k h').cons a)

/-! ## Lemmas: the distractor loop and the shuffle -/

theorem distractorLoop_spec (n : Nat) (ss : shuffledSeedWords) (pool : List String) (rng : Rand)
    (h : n ≤ pool.length) :
    ∃ ss' pool' rng', distractorLoop n ss pool rng = some (ss', pool', rng') ∧
      (ss'.words ++ pool').Perm (ss.words ++ pool) ∧
      ss'.words.length = ss.words.length + n ∧
      ss'.clickables.length = ss.clickables.length + n ∧
      ss'.selectedIndex = ss.selectedIndex ∧
      ∃ d, ss'.words = ss.words ++ d := by
  induction n generalizing ss pool rng with
  | zero => exact ⟨ss, pool, rng, rfl, List.Perm.refl _, rfl, rfl, rfl, [], by simp⟩
  | succ n ih =>
    have hpos : 0 < pool.length := by omega
    obtain ⟨hI, hk⟩ := Intn_pos rng hpos
    have hlen : n ≤ (pool.eraseIdx (rng.draws 0 % pool.length)).length := by
      rw [List.length_eraseIdx_of_lt hk]; omega
    obtain ⟨ss', pool', rng', heq, hperm, hw, hc, hs, d, hd⟩ :=
      ih { ss with
           words := ss.words ++ [pool[rng.draws 0 % pool.length]],
           clickables := ss.clickables ++ [clickable] }
        (pool.eraseIdx (rng.draws 0 % pool.length)) rng.advance hlen
    refine ⟨ss', pool', rng', ?_, ?_, ?_, ?_, hs, pool[rng.draws 0 % pool.length] :: d, ?_⟩
    · simp only [distractorLoop, hI, index_natCast, List.getElem?_eq_getElem hk,
        removeSeed_natCast, if_pos hk]
      exact heq
    · refine hperm.trans ?_
      simp only [List.append_assoc, List.singleton_append]
      exact (getElem_cons_eraseIdx_perm pool _ hk).append_left ss.words
    · simp only [List.length_append, List.length_singleton] at hw
      omega
    · simp only [List.length_append, List.length_singleton] at hc
      omega
    · simpa using hd

theorem distractorLoop_short (n : Nat) (ss : shuffledSeedWords) (pool : List String) (rng : Rand)
    (h : pool.length < n) : distractorLoop n ss pool rng = none := by
  induction n generalizing ss pool rng with
  | zero => omega
  | succ n ih =>
    by_cases hpos : pool.length = 0
    · simp [distractorLoop, hpos, Intn_zero]
    · obtain ⟨hI, hk⟩ := Intn_pos rng (Nat.pos_of_ne_zero hpos)
      simp only [distractorLoop, hI, index_natCast, List.getElem?_eq_getElem hk,
        removeSeed_natCast, if_pos hk]
      apply ih
      rw [List.length_eraseIdx_of_lt hk]; omega

theorem getElem_cons_set_perm {α : Type} (t : List α) (k : Nat) (a : α) (h : k < t.length) :
    (t[k] :: t.set k a).Perm (a :: t) := by
  induction t generalizing k with
  | nil => simp at h
  | cons b u ih =>
    cases k with
    | zero => simpa using List.Perm.swap a b u
    | succ k =>
      have h' : k < u.length := by simpa using h
      simp only [List.getElem_cons_succ, List.set_cons_succ]
      exact (List.Perm.swap b u[k] _).trans (((ih k h').cons b).trans (List.Perm.swap a b u))

theorem set_set_swap_perm {α : Type} (s : List α) (i j : Nat) (hi : i < s.length)
    (hj : j < s.length) : ((s.set i s[j]).set j s[i]).Perm s := by
  induction s generalizing i j with
  | nil => simp at hi
  | cons a t ih =>
    cases i with
    | zero =>
      cases j with
      | zero => simp
      | succ j =>
        have h' : j < t.length := by simpa using hj
        simpa using getElem_cons_set_perm t j a h'
    | succ i =>
      have hi' : i < t.length := by simpa using hi
      cases j with
      | zero => simpa using getElem_cons_set_perm t i a hi'
      | succ j =>
        have hj' : j < t.length := by simpa using hj
        simpa using ih i j hi' hj'

theorem swapWords_spec (s : List String) (i j : Nat) (hi : i < s.length) (hj : j < s.length) :
    ∃ s', swapWords s i j = some s' ∧ s'.Perm s := by
  refine ⟨(s.set i s[j]).set j s[i], ?_, set_set_swap_perm s i j hi hj⟩
  simp [swapWords, List.getElem?_eq_getElem hi, List.getElem?_eq_getElem hj]

theorem shuffleLoop_spec (i : Nat) (r : Rand) (s : List String) (h : i < s.length ∨ i = 0) :
    ∃ s' r', shuffleLoop swapWords i r s = some (s', r') ∧ s'.Perm s := by
  induction i generalizing r s with
  | zero => exact ⟨s, r, rfl, List.Perm.refl _⟩
  | succ i ih =>
    have hi : i + 1 < s.length := by omega
    have hj : (r.below (i + 2)).1 < s.length := by
      have : r.draws 0 % (i + 2) < i + 2 := Nat.mod_lt _ (by omega)
      simp only [Rand.below]; omega
    obtain ⟨s1, h1, hp1⟩ := swapWords_spec s (i + 1) _ hi hj
    obtain ⟨s', r', h2, hp2⟩ := ih (r.below (i + 2)).2 s1 (Or.inl (by rw [hp1.length_eq]; omega))
    refine ⟨s', r', ?_, hp2.trans hp1⟩
    simp only [shuffleLoop, h1]
    exact h2

theorem Shuffle_spec (r : Rand) (s : List String) :
    ∃ s' r', Shuffle s.length swapWords r s = some (s', r') ∧ s'.Perm s := by
  unfold Shuffle
  apply shuffleLoop_spec
  omega

/-! ## Lemmas: `getMultiSeed` and `seedPosition` -/

theorem getMultiSeed_spec (wl : List String) (k : Nat) (rng : Rand) (hk : k < wl.length)
    (h4 : 4 ≤ wl.length) :
    ∃ ss rng', getMultiSeed (k : Int) wl rng = some (ss, rng') ∧
      ss.selectedIndex = -1 ∧ ss.words.length = 4 ∧ ss.clickables.length = 4 ∧
      wl[k] ∈ ss.words ∧ ∃ rest, (ss.words ++ rest).Perm wl := by
  have hlen : 3 ≤ (wl.eraseIdx k).length := by
    rw [List.length_eraseIdx_of_lt hk]; omega
  obtain ⟨ss1, pool1, rng1, h1, hperm, hw, hc, hs, d, hd⟩ :=
    distractorLoop_spec 3 ⟨-1, [] ++ [wl[k]], [] ++ [clickable]⟩ (wl.eraseIdx k) rng hlen
  obtain ⟨ws, rng2, h2, hp2⟩ := Shuffle_spec rng1 ss1.words
  refine ⟨{ ss1 with words := ws }, rng2, ?_, hs, ?_, ?_, ?_, pool1, ?_⟩
  · simp only [getMultiSeed, index_natCast, List.getElem?_eq_getElem hk, removeSeed_natCast,
      if_pos hk, h1, h2]
  · rw [hp2.length_eq, hw]; rfl
  · rw [hc]; rfl
  · refine hp2.symm.subset ?_
    rw [hd]; simp
  · refine (hp2.append_right pool1).trans (hperm.trans ?_)
    simpa using getElem_cons_eraseIdx_perm wl k hk

theorem getMultiSeed_neg (wl : List String) (i : Int) (rng : Rand) (h : i < 0) :
    getMultiSeed i wl rng = none := by
  simp [getMultiSeed, index_neg wl h]

theorem seedPositionFrom_spec (seed : String) (l : List String) (i : Nat) :
    (seed ∉ l ∧ seedPositionFrom seed l i = -1) ∨
    ∃ k : Nat, k < l.length ∧ seedPositionFrom seed l i = ((i + k : Nat) : Int) ∧
      l[k]? = some seed ∧ ∀ j, j < k → l[j]? ≠ some seed := by
  induction l generalizing i with
  | nil => exact Or.inl ⟨by simp, rfl⟩
  | cons s rest ih =>
    by_cases hs : s = seed
    · refine Or.inr ⟨0, by simp, ?_, by simp [hs], fun j hj => by omega⟩
      simp [seedPositionFrom, hs]
    · rcases ih (i + 1) with ⟨hn, hm⟩ | ⟨k, hk, hm, hget, hmin⟩
      · refine Or.inl ⟨?_, ?_⟩
        · simp only [List.mem_cons, not_or]
          exact ⟨fun h => hs h.symm, hn⟩
        · simp only [seedPositionFrom, if_neg hs]
          exact hm
      · refine Or.inr ⟨k + 1, by simpa using hk, ?_, by simpa using hget, ?_⟩
        · simp only [seedPositionFrom, if_neg hs, hm]
          congr 1
          omega
        · intro j hj
          cases j with
          | zero => simpa using hs
          | succ j => simpa using hmin j (by omega)

theorem seedPosition_of_mem {seed : String} {l : List String} (h : seed ∈ l) :
    ∃ k : Nat, k < l.length ∧ seedPosition seed l = (k : Int) ∧ l[k]? = some seed ∧
      ∀ j, j < k → l[j]? ≠ some seed := by
  rcases seedPositionFrom_spec seed l 0 with ⟨hn, _⟩ | ⟨k, hk, hm, hget, hmin⟩
  · exact absurd h hn
  · exact ⟨k, hk, by simpa [seedPosition] using hm, hget, hmin⟩

theorem seedPosition_of_not_mem {seed : String} {l : List String} (h : seed ∉ l) :
    seedPosition seed l = -1 := by
  rcases seedPositionFrom_spec seed l 0 with ⟨_, hm⟩ | ⟨k, _, _, hget, _⟩
  · exact hm
  · exact absurd (List.getElem?_mem hget) h

/-! ## Lemmas: `OnNavigatedTo` -/

theorem navigateLoop_spec (wl : List String) (h4 : 4 ≤ wl.length) (ws : List String)
    (acc : List shuffledSeedWords) (rng : Rand) (hall : ∀ w ∈ ws, w ∈ wl) :
    ∃ msl rng', navigateLoop wl wl ws acc rng = some (acc ++ msl, rng') ∧
      List.Forall₂ (candidateFor wl) msl ws := by
  induction ws generalizing acc rng with
  | nil => exact ⟨[], rng, by simp [navigateLoop], List.Forall₂.nil⟩
  | cons w rest ih =>
    obtain ⟨k, hk, hpos, hget, _⟩ := seedPosition_of_mem (hall w (List.mem_cons_self w rest))
    obtain ⟨ss, rng1, hg, hsel, hw, hc, hmem, hperm⟩ := getMultiSeed_spec wl k rng hk h4
    obtain ⟨msl, rng2, hn, hf⟩ :=
      ih (acc ++ [ss]) rng1 (fun w' hw' => hall w' (List.mem_cons_of_mem w hw'))
    have hwk : wl[k] = w := by
      rw [List.getElem?_eq_getElem hk] at hget
      exact Option.some.inj hget
    refine ⟨ss :: msl, rng2, ?_, List.Forall₂.cons ⟨hsel, hw, hc, hwk ▸ hmem, hperm⟩ hf⟩
    simp only [navigateLoop, hpos, hg]
    simpa using hn

theorem navigateLoop_missing (wl : List String) (ws : List String)
    (acc : List shuffledSeedWords) (rng : Rand) (h : ∃ w ∈ ws, w ∉ wl) :
    navigateLoop wl wl ws acc rng = none := by
  induction ws generalizing acc rng with
  | nil => obtain ⟨w, hw, _⟩ := h; simp at hw
  | cons w rest ih =>
    by_cases hw : w ∈ wl
    · have hrest : ∃ w' ∈ rest, w' ∉ wl := by
        obtain ⟨w', hw', hn⟩ := h
        rcases List.mem_cons.mp hw' with rfl | h'
        · exact absurd hw hn
        · exact ⟨w', h', hn⟩
      simp only [navigateLoop]
      cases hg : getMultiSeed (seedPosition w wl) wl rng with
      | none => rfl
      | some p => exact ih _ _ hrest
    · simp only [navigateLoop, seedPosition_of_not_mem hw,
        getMultiSeed_neg wl (-1) rng (by decide)]

theorem OnNavigatedTo_spec (wl : List String) (pg : VerifySeedPage) (rng : Rand)
    (h4 : 4 ≤ wl.length) (hall : ∀ w ∈ stringsSplit pg.seed ' ', w ∈ wl) :
    ∃ pg', OnNavigatedTo wl pg rng = some pg' ∧ pg'.seed = pg.seed ∧
      List.Forall₂ (candidateFor wl) pg'.multiSeedList (stringsSplit pg.seed ' ') := by
  obtain ⟨msl, rng', hn, hf⟩ := navigateLoop_spec wl h4 _ [] rng hall
  refine ⟨{ pg with multiSeedList := msl }, ?_, rfl, hf⟩
  simp only [OnNavigatedTo, hn, List.nil_append]

theorem candidateFor_nodup {wl : List String} {m : shuffledSeedWords} {w : String}
    (hnd : wl.Nodup) (h : candidateFor wl m w) : m.words.Nodup := by
  obtain ⟨_, _, _, _, rest, hperm⟩ := h
  exact (hperm.nodup_iff.mpr hnd).of_append_left

theorem candidateFor_subset {wl : List String} {m : shuffledSeedWords} {w : String}
    (h : candidateFor wl m w) : ∀ x ∈ m.words, x ∈ wl := by
  obtain ⟨_, _, _, _, rest, hperm⟩ := h
  intro x hx
  exact hperm.subset (List.mem_append_left rest hx)

theorem getMultiSeed_candidate (wl : List String) (i : Int) (rng : Rand)
    (h4 : 4 ≤ wl.length) (h0 : 0 ≤ i) (hi : i < (wl.length : Int)) :
    ∃ ss rng' w, getMultiSeed i wl rng = some (ss, rng') ∧ index wl i = some w ∧
      candidateFor wl ss w := by
  obtain ⟨k, rfl⟩ := Int.eq_ofNat_of_zero_le h0
  have hk : k < wl.length := by omega
  obtain ⟨ss, rng1, hg, hsel, hw, hc, hmem, hperm⟩ := getMultiSeed_spec wl k rng hk h4
  exact ⟨ss, rng1, wl[k], hg, by simp [List.getElem?_eq_getElem hk], hsel, hw, hc, hmem, hperm⟩

/-! ## Lemmas: reconstructing the phrase -/

theorem selectedWordsLoop_spec (msl : List shuffledSeedWords) (ws acc : List String)
    (h : msl.map (fun m => index m.words m.selectedIndex) = ws.map some) :
    selectedWordsLoop msl acc = some (acc ++ ws) := by
  induction msl generalizing ws acc with
  | nil =>
    cases ws with
    | nil => simp [selectedWordsLoop]
    | cons w ws => simp at h
  | cons m rest ih =>
    cases ws with
    | nil => simp at h
    | cons w ws =>
      simp only [List.map_cons, List.cons.injEq] at h
      obtain ⟨hm, hrest⟩ := h
      have hne : m.selectedIndex ≠ -1 := by
        intro hneg
        rw [hneg, index_neg m.words (by decide)] at hm
        cases hm
      simp only [selectedWordsLoop, if_pos hne, hm]
      rw [ih ws (acc ++ [w]) hrest]
      simp

theorem stringsJoin_stringsSplit (s : String) : stringsJoin (stringsSplit s ' ') ' ' = s := by
  unfold stringsJoin stringsSplit
  have : List.map String.data (List.map String.mk (s.data.splitOn ' ')) = s.data.splitOn ' ' := by
    rw [List.map_map]
    exact List.map_id _
  rw [this, List.intercalate_splitOn]

/-! ## Lemmas: click handling -/

theorem clickedLoop_spec {σ : Type} (body : σ → σ) (n : Nat) (c : Clickable) (s : σ)
    (h : c.clicks < n) :
    clickedLoop body n c s = ({ c with clicks := 0 }, body^[c.clicks] s) := by
  induction n generalizing c s with
  | zero => omega
  | succ n ih =>
    by_cases h0 : c.clicks = 0
    · simp [clickedLoop, Clickable.Clicked, h0]
      cases c
      simp_all
    · obtain ⟨k, hk⟩ := Nat.exists_eq_succ_of_ne_zero h0
      simp only [clickedLoop, Clickable.Clicked, if_neg h0, if_true]
      rw [ih _ _ (by simp only []; omega)]
      simp [hk, Function.iterate_succ_apply]

theorem forClicked_spec {σ : Type} (body : σ → σ) (c : Clickable) (s : σ) :
    forClicked body c s = ({ c with clicks := 0 }, body^[c.clicks] s) :=
  clickedLoop_spec body _ c s (Nat.lt_succ_self _)

theorem forClicked_idle {σ : Type} (body : σ → σ) (c : Clickable) (s : σ) (h : c.clicks = 0) :
    forClicked body c s = (c, s) := by
  rw [forClicked_spec, h]
  cases c
  simp_all

theorem handleClickables_idle (j : Nat) (cs : List Clickable) (sel : Int)
    (h : ∀ c ∈ cs, c.clicks = 0) : handleClickables j cs sel = (cs, sel) := by
  induction cs generalizing j sel with
  | nil => rfl
  | cons c rest ih =>
    have hc : c.clicks = 0 := h c (List.mem_cons_self c rest)
    simp only [handleClickables, forClicked_idle _ c sel hc]
    rw [ih (j + 1) sel (fun c' hc' => h c' (List.mem_cons_of_mem c hc'))]

theorem handleClickables_one (j a : Nat) (cs : List Clickable) (sel : Int)
    (h : ∀ c ∈ cs, c.clicks = 0) (ha : a < cs.length) :
    handleClickables j (cs.modify (fun c => { c with clicks := c.clicks + 1 }) a) sel =
      (cs, ((j + a : Nat) : Int)) := by
  induction cs generalizing j a sel with
  | nil => simp at ha
  | cons c rest ih =>
    have hc : c.clicks = 0 := h c (List.mem_cons_self c rest)
    have hrest : ∀ c' ∈ rest, c'.clicks = 0 := fun c' hc' => h c' (List.mem_cons_of_mem c hc')
    cases a with
    | zero =>
      simp only [List.modify_zero_cons, handleClickables, forClicked_spec, hc]
      rw [handleClickables_idle (j + 1) rest _ hrest]
      cases c
      simp_all
    | succ a =>
      have ha' : a < rest.length := by simpa using ha
      rw [List.modify_succ_cons]
      simp only [handleClickables, forClicked_idle _ c sel hc]
      rw [ih (j + 1) a sel hrest ha']
      simp only [Prod.mk.injEq, true_and]
      congr 1
      omega

theorem handleMultiSeed_idle (m : shuffledSeedWords) (h : ∀ c ∈ m.clickables, c.clicks = 0) :
    handleMultiSeed m = m := by
  simp only [handleMultiSeed, handleClickables_idle 0 m.clickables m.selectedIndex h]

theorem handleMultiSeed_one (m : shuffledSeedWords) (a : Nat)
    (h : ∀ c ∈ m.clickables, c.clicks = 0) (ha : a < m.clickables.length) :
    handleMultiSeed { m with
      clickables := m.clickables.modify (fun c => { c with clicks := c.clicks + 1 }) a } =
      { m with selectedIndex := (a : Int) } := by
  simp only [handleMultiSeed, handleClickables_one 0 a m.clickables m.selectedIndex h ha]
  simp

theorem map_handleMultiSeed_click (msl : List shuffledSeedWords) (i a : Nat)
    (m : shuffledSeedWords) (hq : ∀ m' ∈ msl, ∀ c ∈ m'.clickables, c.clicks = 0)
    (hm : msl[i]? = some m) (ha : a < m.clickables.length) :
    (msl.modify (fun m' => { m' with
        clickables := m'.clickables.modify (fun c => { c with clicks := c.clicks + 1 }) a })
      i).map handleMultiSeed = setSelected msl i a := by
  induction msl generalizing i with
  | nil => simp at hm
  | cons m0 rest ih =>
    have hrest : ∀ m' ∈ rest, ∀ c ∈ m'.clickables, c.clicks = 0 :=
      fun m' hm' => hq m' (List.mem_cons_of_mem m0 hm')
    have hmap : rest.map handleMultiSeed = rest := by
      conv => rhs; rw [← List.map_id rest]
      exact List.map_congr_left (fun m' hm' => handleMultiSeed_idle m' (hrest m' hm'))
    cases i with
    | zero =>
      simp only [List.getElem?_cons_zero, Option.some.injEq] at hm
      subst hm
      simp only [setSelected, List.modify_zero_cons, List.map_cons, hmap]
      rw [handleMultiSeed_one m0 a (hq m0 (List.mem_cons_self m0 rest)) ha]
    | succ i =>
      simp only [List.getElem?_cons_succ] at hm
      simp only [setSelected, List.modify_succ_cons, List.map_cons]
      rw [handleMultiSeed_idle m0 (hq m0 (List.mem_cons_self m0 rest))]
      have := ih i hrest hm
      simp only [setSelected] at this
      rw [this]

theorem iterate_verify (n : Nat) (p : VerifySeedPage) :
    (fun p => if allSeedsSelected p then verifySeed p else p)^[n] p =
      if allSeedsSelected p then { p with modalsShown := p.modalsShown + n } else p := by
  induction n generalizing p with
  | zero => simp
  | succ n ih =>
    rw [Function.iterate_succ_apply]
    by_cases h : allSeedsSelected p = true
    · have h' : allSeedsSelected (verifySeed p) = true := h
      rw [if_pos h, ih, if_pos h', if_pos h]
      simp only [verifySeed]
      congr 1
      omega
    · rw [if_neg h, ih]
      simp only [if_neg h]

theorem select_eq (pg : VerifySeedPage) (i a : Nat) (m : shuffledSeedWords)
    (hq : quiescent pg) (hm : pg.multiSeedList[i]? = some m) (ha : a < m.clickables.length) :
    select pg i a =
      { seed := pg.seed,
        multiSeedList := setSelected pg.multiSeedList i a,
        actionButton := { pg.actionButton with clicks := 0 },
        modalsShown :=
          if allSeedsSelectedLoop (setSelected pg.multiSeedList i a) then
            pg.modalsShown + pg.actionButton.clicks
          else pg.modalsShown } := by
  simp only [select, click, HandleUserInteractions, forClicked_spec, iterate_verify,
    map_handleMultiSeed_click pg.multiSeedList i a m hq hm ha]
  unfold allSeedsSelected
  split <;> rfl

theorem setSelected_setSelected (msl : List shuffledSeedWords) (i a b : Nat) :
    setSelected (setSelected msl i a) i b = setSelected msl i b := by
  unfold setSelected
  rw [List.modify_modify_eq]
  rfl

theorem allSeedsSelectedLoop_setSelected (msl : List shuffledSeedWords) (i a b : Nat) :
    allSeedsSelectedLoop (setSelected msl i a) = allSeedsSelectedLoop (setSelected msl i b) := by
  induction msl generalizing i with
  | nil => simp [setSelected]
  | cons m rest ih =>
    cases i with
    | zero =>
      have ha : ((a : Nat) : Int) ≠ -1 := by omega
      have hb : ((b : Nat) : Int) ≠ -1 := by omega
      simp [setSelected, allSeedsSelectedLoop, ha, hb]
    | succ i =>
      have e : ∀ x : Nat, setSelected (m :: rest) (i + 1) x = m :: setSelected rest i x :=
        fun x => rfl
      rw [e, e]
      simp only [allSeedsSelectedLoop, ih i]

theorem quiescent_setSelected (pg : VerifySeedPage) (i a : Nat) (hq : quiescent pg)
    (p : VerifySeedPage) (hp : p.multiSeedList = setSelected pg.multiSeedList i a) :
    quiescent p := by
  intro m hm c hc
  rw [hp] at hm
  obtain ⟨k, hk⟩ := List.mem_iff_getElem?.mp hm
  simp only [setSelected, List.getElem?_modify] at hk
  cases hget : pg.multiSeedList[k]? with
  | none => simp [hget] at hk
  | some m0 =>
    rw [hget] at hk
    have hm0 : m0 ∈ pg.multiSeedList := List.getElem?_mem hget
    simp only [Option.map_eq_map, Option.map_some', Option.some.injEq] at hk
    subst hk
    split at hc
    · exact hq m0 hm0 c hc
    · exact hq m0 hm0 c hc

/-! ## The claims -/

/-- C1: for a word list with pairwise distinct entries and at least 4 entries,
a seed phrase whose space-separated words all occur in the word list, and any
random draws, `OnNavigatedTo` succeeds and its k-th candidate set contains the
k-th seed word exactly once. -/
theorem OnNavigatedTo_correct_word_once (wl : List String) (pg : VerifySeedPage) (rng : Rand)
    (hnd : wl.Nodup) (h4 : 4 ≤ wl.length)
    (hall : ∀ w ∈ stringsSplit pg.seed ' ', w ∈ wl) :
    ∃ pg', OnNavigatedTo wl pg rng = some pg' ∧
      List.Forall₂ (fun m w => m.words.count w = 1) pg'.multiSeedList
        (stringsSplit pg.seed ' ') := by
  obtain ⟨pg', hgen, _, hf⟩ := OnNavigatedTo_spec wl pg rng h4 hall
  refine ⟨pg', hgen, hf.imp ?_⟩
  intro m w hc
  exact List.count_eq_one_of_mem (candidateFor_nodup hnd hc) hc.2.2.2.1

theorem OnNavigatedTo_correct_word_once_witness :
    exampleWordList.Nodup ∧ 4 ≤ exampleWordList.length ∧
    (∀ w ∈ stringsSplit examplePage.seed ' ', w ∈ exampleWordList) ∧
    ∃ pg', OnNavigatedTo exampleWordList examplePage exampleRand = some pg' ∧
      List.Forall₂ (fun m w => m.words.count w = 1) pg'.multiSeedList
        (stringsSplit examplePage.seed ' ') :=
  ⟨by decide, by decide, by decide,
    OnNavigatedTo_correct_word_once exampleWordList examplePage exampleRand
      (by decide) (by decide) (by decide)⟩

/-- C2: for a word list with pairwise distinct entries and at least 4 entries,
a valid index and any random draws, `getMultiSeed` returns a candidate set
whose words are pairwise distinct. -/
theorem getMultiSeed_words_nodup (wl : List String) (realSeedIndex : Int) (rng : Rand)
    (hnd : wl.Nodup) (h4 : 4 ≤ wl.length) (h0 : 0 ≤ realSeedIndex)
    (hi : realSeedIndex < (wl.length : Int)) :
    ∃ ss rng', getMultiSeed realSeedIndex wl rng = some (ss, rng') ∧ ss.words.Nodup := by
  obtain ⟨ss, rng', w, hg, _, hc⟩ := getMultiSeed_candidate wl realSeedIndex rng h4 h0 hi
  exact ⟨ss, rng', hg, candidateFor_nodup hnd hc⟩

theorem getMultiSeed_words_nodup_witness :
    exampleWordList.Nodup ∧ 4 ≤ exampleWordList.length ∧ (0 : Int) ≤ 2 ∧
    (2 : Int) < (exampleWordList.length : Int) ∧
    ∃ ss rng', getMultiSeed 2 exampleWordList exampleRand = some (ss, rng') ∧ ss.words.Nodup :=
  ⟨by decide, by decide, by decide, by decide,
    getMultiSeed_words_nodup exampleWordList 2 exampleRand
      (by decide) (by decide) (by decide) (by decide)⟩

/-- C3: for a word list with at least 4 entries and a seed phrase whose words
(split on single spaces) all occur in it, `OnNavigatedTo` produces exactly one
candidate set per seed word, in seed-phrase order: as many sets as words, the
k-th set holding the k-th word. -/
theorem OnNavigatedTo_one_set_per_word (wl : List String) (pg : VerifySeedPage) (rng : Rand)
    (h4 : 4 ≤ wl.length) (hall : ∀ w ∈ stringsSplit pg.seed ' ', w ∈ wl) :
    ∃ pg', OnNavigatedTo wl pg rng = some pg' ∧
      pg'.multiSeedList.length = (stringsSplit pg.seed ' ').length ∧
      List.Forall₂ (fun m w => w ∈ m.words) pg'.multiSeedList (stringsSplit pg.seed ' ') := by
  obtain ⟨pg', hgen, _, hf⟩ := OnNavigatedTo_spec wl pg rng h4 hall
  exact ⟨pg', hgen, hf.length_eq, hf.imp (fun _ _ hc => hc.2.2.2.1)⟩

theorem OnNavigatedTo_one_set_per_word_witness :
    4 ≤ exampleWordList.length ∧
    (∀ w ∈ stringsSplit examplePage.seed ' ', w ∈ exampleWordList) ∧
    (stringsSplit examplePage.seed ' ').length = 3 ∧
    ∃ pg', OnNavigatedTo exampleWordList examplePage exampleRand = some pg' ∧
      pg'.multiSeedList.length = (stringsSplit examplePage.seed ' ').length ∧
      List.Forall₂ (fun m w => w ∈ m.words) pg'.multiSeedList
        (stringsSplit examplePage.seed ' ') :=
  ⟨by decide, by decide, by decide,
    OnNavigatedTo_one_set_per_word exampleWordList examplePage exampleRand
      (by decide) (by decide)⟩

/-- C4: for a word list with at least 4 entries, a valid index and any random
draws, `getMultiSeed` returns a candidate set with exactly 4 words and exactly
4 clickables. -/
theorem getMultiSeed_four_words (wl : List String) (realSeedIndex : Int) (rng : Rand)
    (h4 : 4 ≤ wl.length) (h0 : 0 ≤ realSeedIndex) (hi : realSeedIndex < (wl.length : Int)) :
    ∃ ss rng', getMultiSeed realSeedIndex wl rng = some (ss, rng') ∧
      ss.words.length = 4 ∧ ss.clickables.length = 4 := by
  obtain ⟨ss, rng', w, hg, _, hc⟩ := getMultiSeed_candidate wl realSeedIndex rng h4 h0 hi
  exact ⟨ss, rng', hg, hc.2.1, hc.2.2.1⟩

theorem getMultiSeed_four_words_witness :
    4 ≤ exampleWordList.length ∧ (0 : Int) ≤ 4 ∧ (4 : Int) < (exampleWordList.length : Int) ∧
    ∃ ss rng', getMultiSeed 4 exampleWordList exampleRand = some (ss, rng') ∧
      ss.words.length = 4 ∧ ss.clickables.length = 4 :=
  ⟨by decide, by decide, by decide,
    getMultiSeed_four_words exampleWordList 4 exampleRand (by decide) (by decide) (by decide)⟩

/-- C5: for every quiz state, in particular every state of a generated quiz, in
which at every position the selected index points at the position's correct
seed word (the word of the seed phrase at that position), `selectedSeedPhrase`
returns the original seed phrase exactly. -/
theorem selectedSeedPhrase_correct_selection (seed : String) (q : VerifySeedPage)
    (hsel : q.multiSeedList.map (fun m => index m.words m.selectedIndex) =
      (stringsSplit seed ' ').map some) :
    selectedSeedPhrase q = some seed := by
  unfold selectedSeedPhrase
  rw [selectedWordsLoop_spec q.multiSeedList (stringsSplit seed ' ') [] hsel]
  simp [stringsJoin_stringsSplit]

theorem selectedSeedPhrase_correct_selection_witness :
    OnNavigatedTo exampleWordList examplePage exampleRand = some exampleQuiz ∧
    exampleAnswered.multiSeedList.map (fun m => m.words) =
      exampleQuiz.multiSeedList.map (fun m => m.words) ∧
    exampleAnswered.multiSeedList.map (fun m => index m.words m.selectedIndex) =
      (stringsSplit examplePage.seed ' ').map some ∧
    selectedSeedPhrase exampleAnswered = some examplePage.seed :=
  ⟨by decide, by decide, by decide,
    selectedSeedPhrase_correct_selection examplePage.seed exampleAnswered (by decide)⟩

/-- C6: `allSeedsSelected` returns true if and only if every position of
`multiSeedList` has a `selectedIndex` different from the sentinel `-1`. -/
theorem allSeedsSelected_iff (pg : VerifySeedPage) :
    allSeedsSelected pg = true ↔ ∀ m ∈ pg.multiSeedList, m.selectedIndex ≠ -1 := by
  unfold allSeedsSelected
  induction pg.multiSeedList with
  | nil => simp [allSeedsSelectedLoop]
  | cons m rest ih =>
    by_cases h : m.selectedIndex = -1
    · simp [allSeedsSelectedLoop, h]
    · simp [allSeedsSelectedLoop, h, ih]

/-- C7: for a word list with at least 4 entries, a valid index and any random
draws, every word of the candidate set returned by `getMultiSeed` is an entry
of the word list passed in. -/
theorem getMultiSeed_words_from_wordlist (wl : List String) (realSeedIndex : Int) (rng : Rand)
    (h4 : 4 ≤ wl.length) (h0 : 0 ≤ realSeedIndex) (hi : realSeedIndex < (wl.length : Int)) :
    ∃ ss rng', getMultiSeed realSeedIndex wl rng = some (ss, rng') ∧
      ∀ w ∈ ss.words, w ∈ wl := by
  obtain ⟨ss, rng', w, hg, _, hc⟩ := getMultiSeed_candidate wl realSeedIndex rng h4 h0 hi
  exact ⟨ss, rng', hg, candidateFor_subset hc⟩

theorem getMultiSeed_words_from_wordlist_witness :
    4 ≤ exampleWordList.length ∧ (0 : Int) ≤ 0 ∧ (0 : Int) < (exampleWordList.length : Int) ∧
    ∃ ss rng', getMultiSeed 0 exampleWordList exampleRand = some (ss, rng') ∧
      ∀ w ∈ ss.words, w ∈ exampleWordList :=
  ⟨by decide, by decide, by decide,
    getMultiSeed_words_from_wordlist exampleWordList 0 exampleRand
      (by decide) (by decide) (by decide)⟩

/-- C8: in a quiz with no pending click, selecting candidate `a` at position `i`
and then candidate `b` at the same position leaves the page in the same state
as selecting `b` alone: the selection at position `i` is `b`, the number of
positions is unchanged, the words of every position are unchanged, and the
selection of every other position is unchanged. -/
theorem select_overwrites (pg : VerifySeedPage) (i a b : Nat) (m : shuffledSeedWords)
    (hq : quiescent pg) (hm : pg.multiSeedList[i]? = some m)
    (ha : a < m.clickables.length) (hb : b < m.clickables.length) :
    select (select pg i a) i b = select pg i b ∧
    (select (select pg i a) i b).multiSeedList[i]? = some { m with selectedIndex := (b : Int) } ∧
    (select (select pg i a) i b).multiSeedList.length = pg.multiSeedList.length ∧
    (select (select pg i a) i b).multiSeedList.map (fun m => m.words) =
      pg.multiSeedList.map (fun m => m.words) ∧
    ∀ k, k ≠ i → (select (select pg i a) i b).multiSeedList[k]? = pg.multiSeedList[k]? := by
  have h1 := select_eq pg i a m hq hm ha
  have hq1 : quiescent (select pg i a) := quiescent_setSelected pg i a hq _ (by rw [h1])
  have hm1 : (select pg i a).multiSeedList[i]? = some { m with selectedIndex := (a : Int) } := by
    rw [h1]
    simp [setSelected, hm]
  have h2 := select_eq (select pg i a) i b _ hq1 hm1 hb
  have h3 := select_eq pg i b m hq hm hb
  have heq : select (select pg i a) i b = select pg i b := by
    rw [h2, h3, h1]
    simp only [setSelected_setSelected, Nat.add_zero, ite_self]
    rw [allSeedsSelectedLoop_setSelected pg.multiSeedList i a b]
  refine ⟨heq, ?_, ?_, ?_, ?_⟩
  · rw [heq, h3]
    simp [setSelected, hm]
  · rw [heq, h3]
    simp [setSelected]
  · rw [heq, h3]
    apply List.ext_getElem?
    intro k
    simp only [setSelected, List.getElem?_map, List.getElem?_modify]
    cases pg.multiSeedList[k]? with
    | none => rfl
    | some m0 =>
      simp only [Option.map_eq_map, Option.map_some']
      split <;> rfl
  · intro k hk
    rw [heq, h3]
    simp only [setSelected]
    exact List.getElem?_modify_ne _ _ (fun h => hk h.symm)

theorem select_overwrites_witness :
    quiescent exampleQuiz ∧
    exampleQuiz.multiSeedList[1]? =
      some ⟨-1, ["echo", "bravo", "charlie", "delta"],
        [clickable, clickable, clickable, clickable]⟩ ∧
    2 < [clickable, clickable, clickable, clickable].length ∧
    0 < [clickable, clickable, clickable, clickable].length ∧
    select (select exampleQuiz 1 2) 1 0 = select exampleQuiz 1 0 ∧
    (select (select exampleQuiz 1 2) 1 0).multiSeedList.map (fun m => m.selectedIndex) =
      [-1, 0, -1] :=
  ⟨by unfold quiescent; decide, by decide, by decide, by decide,
    (select_overwrites exampleQuiz 1 2 0
      ⟨-1, ["echo", "bravo", "charlie", "delta"], [clickable, clickable, clickable, clickable]⟩
      (by unfold quiescent; decide) (by decide) (by decide) (by decide)).1,
    by decide⟩

/-- C9: `seedPosition` returns `-1` if and only if the word does not occur in
the word list, and it returns the index `k` if and only if `k` is the smallest
index whose entry equals the word. -/
theorem seedPosition_spec (seed : String) (allSeeds : List String) :
    (seedPosition seed allSeeds = -1 ↔ seed ∉ allSeeds) ∧
    ∀ k : Nat, seedPosition seed allSeeds = (k : Int) ↔
      (allSeeds[k]? = some seed ∧ ∀ j, j < k → allSeeds[j]? ≠ some seed) := by
  by_cases hmem : seed ∈ allSeeds
  · obtain ⟨k, hk, hpos, hget, hmin⟩ := seedPosition_of_mem hmem
    refine ⟨?_, ?_⟩
    · rw [hpos]
      constructor
      · intro h; omega
      · intro h; exact absurd hmem h
    · intro k'
      rw [hpos]
      constructor
      · intro h
        have : k = k' := by omega
        subst this
        exact ⟨hget, hmin⟩
      · rintro ⟨hget', hmin'⟩
        have h1 : ¬ k < k' := fun h => hmin' k h hget
        have h2 : ¬ k' < k := fun h => hmin k' h hget'
        have : k = k' := by omega
        rw [this]
  · have hpos := seedPosition_of_not_mem hmem
    refine ⟨?_, ?_⟩
    · rw [hpos]; simp [hmem]
    · intro k
      rw [hpos]
      constructor
      · intro h; omega
      · rintro ⟨hget, _⟩
        exact absurd (List.getElem?_mem hget) hmem

/-- C10: if some word of the seed phrase does not occur in the word list, then
`seedPosition` gives `-1` for it, indexing the word list at that position is out
of range, `getMultiSeed` fails on it, and `OnNavigatedTo` fails without
assigning any candidate sets. -/
theorem OnNavigatedTo_missing_word (wl : List String) (pg : VerifySeedPage) (rng : Rand)
    (w : String) (hw : w ∈ stringsSplit pg.seed ' ') (hn : w ∉ wl) :
    seedPosition w wl = -1 ∧ index wl (seedPosition w wl) = none ∧
    (∀ r, getMultiSeed (seedPosition w wl) wl r = none) ∧
    OnNavigatedTo wl pg rng = none := by
  have hpos := seedPosition_of_not_mem hn
  refine ⟨hpos, ?_, ?_, ?_⟩
  · rw [hpos]; exact index_neg wl (by decide)
  · intro r; rw [hpos]; exact getMultiSeed_neg wl (-1) r (by decide)
  · simp only [OnNavigatedTo, navigateLoop_missing wl _ [] rng ⟨w, hw, hn⟩]

theorem OnNavigatedTo_missing_word_witness :
    "zulu" ∈ stringsSplit "alpha zulu bravo" ' ' ∧ "zulu" ∉ exampleWordList ∧
    seedPosition "zulu" exampleWordList = -1 ∧
    index exampleWordList (seedPosition "zulu" exampleWordList) = none ∧
    (∀ r, getMultiSeed (seedPosition "zulu" exampleWordList) exampleWordList r = none) ∧
    OnNavigatedTo exampleWordList { examplePage with seed := "alpha zulu bravo" } exampleRand
      = none :=
  ⟨by decide, by decide,
    OnNavigatedTo_missing_word exampleWordList { examplePage with seed := "alpha zulu bravo" }
      exampleRand "zulu" (by decide) (by decide)⟩

/-! ## Lemmas: failure and reconstruction -/

theorem getMultiSeed_short (wl : List String) (k : Nat) (rng : Rand) (hk : k < wl.length)
    (h4 : wl.length < 4) : getMultiSeed (k : Int) wl rng = none := by
  have hlen : (wl.eraseIdx k).length < 3 := by
    rw [List.length_eraseIdx_of_lt hk]; omega
  simp only [getMultiSeed, index_natCast, List.getElem?_eq_getElem hk, removeSeed_natCast,
    if_pos hk, distractorLoop_short 3 _ _ rng hlen]

theorem selectedWordsLoop_eq (msl : List shuffledSeedWords) (acc : List String) :
    selectedWordsLoop msl acc =
      ((msl.filter (fun m => m.selectedIndex ≠ -1)).mapM
        (fun m => index m.words m.selectedIndex)).map (fun ws => acc ++ ws) := by
  induction msl generalizing acc with
  | nil =>
    simp only [selectedWordsLoop, List.filter_nil, List.mapM_nil]
    simp
  | cons m rest ih =>
    by_cases h : m.selectedIndex = -1
    · simp [selectedWordsLoop, h, ih]
    · simp only [selectedWordsLoop, ne_eq, h, not_false_eq_true, if_true, decide_True,
        List.filter_cons_of_pos, List.mapM_cons]
      cases hidx : index m.words m.selectedIndex with
      | none => simp
      | some w =>
        simp only [ih, Option.pure_def, Option.bind_eq_bind, Option.some_bind]
        cases List.mapM (fun m => index m.words m.selectedIndex)
            (List.filter (fun m => decide (¬ m.selectedIndex = -1)) rest) with
        | none => simp
        | some ws => simp

theorem distractorLoop_three (w : String) (P1 : List String) (rng : Rand) (h : 3 ≤ P1.length) :
    ∃ d1 d2 d3 w1 w2 w3 rng',
      d1 < P1.length ∧ d2 < (P1.eraseIdx d1).length ∧
      d3 < ((P1.eraseIdx d1).eraseIdx d2).length ∧
      P1[d1]? = some w1 ∧ (P1.eraseIdx d1)[d2]? = some w2 ∧
      ((P1.eraseIdx d1).eraseIdx d2)[d3]? = some w3 ∧
      distractorLoop 3 ⟨-1, [w], [clickable]⟩ P1 rng =
        some (⟨-1, [w, w1, w2, w3], [clickable, clickable, clickable, clickable]⟩,
          ((P1.eraseIdx d1).eraseIdx d2).eraseIdx d3, rng') := by
  obtain ⟨hI1, hd1⟩ := Intn_pos rng (show 0 < P1.length by omega)
  have hl2 : (P1.eraseIdx (rng.draws 0 % P1.length)).length = P1.length - 1 :=
    List.length_eraseIdx_of_lt hd1
  obtain ⟨hI2, hd2⟩ := Intn_pos rng.advance
    (show 0 < (P1.eraseIdx (rng.draws 0 % P1.length)).length by omega)
  have hl3 := List.length_eraseIdx_of_lt hd2
  obtain ⟨hI3, hd3⟩ := Intn_pos rng.advance.advance
    (show 0 < ((P1.eraseIdx (rng.draws 0 % P1.length)).eraseIdx
      (rng.advance.draws 0 % (P1.eraseIdx (rng.draws 0 % P1.length)).length)).length by omega)
  refine ⟨_, _, _, _, _, _, rng.advance.advance.advance, hd1, hd2, hd3,
    List.getElem?_eq_getElem hd1, List.getElem?_eq_getElem hd2, List.getElem?_eq_getElem hd3, ?_⟩
  simp only [distractorLoop, hI1, hI2, hI3, index_natCast, List.getElem?_eq_getElem hd1,
    List.getElem?_eq_getElem hd2, List.getElem?_eq_getElem hd3, removeSeed_natCast,
    if_pos hd1, if_pos hd2, if_pos hd3, List.cons_append, List.nil_append]

theorem getMultiSeed_stages (wl : List String) (k : Nat) (rng : Rand) (hk : k < wl.length)
    (h4 : 4 ≤ wl.length) :
    ∃ d1 d2 d3 w1 w2 w3 rng1 ws rng2,
      d1 < (wl.eraseIdx k).length ∧ d2 < ((wl.eraseIdx k).eraseIdx d1).length ∧
      d3 < (((wl.eraseIdx k).eraseIdx d1).eraseIdx d2).length ∧
      (wl.eraseIdx k)[d1]? = some w1 ∧ ((wl.eraseIdx k).eraseIdx d1)[d2]? = some w2 ∧
      (((wl.eraseIdx k).eraseIdx d1).eraseIdx d2)[d3]? = some w3 ∧
      distractorLoop 3 ⟨-1, [wl[k]], [clickable]⟩ (wl.eraseIdx k) rng =
        some (⟨-1, [wl[k], w1, w2, w3], [clickable, clickable, clickable, clickable]⟩,
          (((wl.eraseIdx k).eraseIdx d1).eraseIdx d2).eraseIdx d3, rng1) ∧
      Shuffle 4 swapWords rng1 [wl[k], w1, w2, w3] = some (ws, rng2) ∧
      ws.Perm [wl[k], w1, w2, w3] ∧
      getMultiSeed (k : Int) wl rng =
        some (⟨-1, ws, [clickable, clickable, clickable, clickable]⟩, rng2) := by
  have hlen : 3 ≤ (wl.eraseIdx k).length := by
    rw [List.length_eraseIdx_of_lt hk]; omega
  obtain ⟨d1, d2, d3, w1, w2, w3, rng1, hd1, hd2, hd3, hw1, hw2, hw3, hloop⟩ :=
    distractorLoop_three wl[k] (wl.eraseIdx k) rng hlen
  obtain ⟨ws, rng2, hs, hp⟩ := Shuffle_spec rng1 [wl[k], w1, w2, w3]
  refine ⟨d1, d2, d3, w1, w2, w3, rng1, ws, rng2, hd1, hd2, hd3, hw1, hw2, hw3, hloop, hs, hp, ?_⟩
  simp only [getMultiSeed, index_natCast, List.getElem?_eq_getElem hk, removeSeed_natCast,
    if_pos hk, List.nil_append, hloop]
  simp only [List.length_cons, List.length_nil] at hs ⊢
  rw [hs]

theorem skipIndex_ne (i j : Nat) : skipIndex i j ≠ i := by
  unfold skipIndex
  split <;> omega

theorem skipIndex_inj {i j j' : Nat} (h : skipIndex i j = skipIndex i j') : j = j' := by
  unfold skipIndex at h
  split at h <;> split at h <;> omega

theorem getElem?_eraseIdx_skipIndex {α : Type} (l : List α) (i j : Nat) :
    (l.eraseIdx i)[j]? = l[skipIndex i j]? := by
  rw [List.getElem?_eraseIdx]
  unfold skipIndex
  split <;> rfl

/-! ## Lemmas: reachable quiz states -/

theorem getMultiSeed_shape (wl : List String) (i : Int) (rng : Rand) (ss : shuffledSeedWords)
    (rng' : Rand) (h : getMultiSeed i wl rng = some (ss, rng')) :
    ss.selectedIndex = -1 ∧ ss.words.length = 4 ∧ ss.clickables.length = 4 := by
  cases hidx : index wl i with
  | none => simp [getMultiSeed, hidx] at h
  | some w =>
    obtain ⟨k, rfl, hk, _⟩ := index_eq_some hidx
    by_cases h4 : 4 ≤ wl.length
    · obtain ⟨ss0, rng0, hg, hsel, hw, hc, _⟩ := getMultiSeed_spec wl k rng hk h4
      rw [hg] at h
      simp only [Option.some.injEq, Prod.mk.injEq] at h
      obtain ⟨rfl, _⟩ := h
      exact ⟨hsel, hw, hc⟩
    · rw [getMultiSeed_short wl k rng hk (by omega)] at h
      cases h

theorem navigateLoop_shape (wl allSeeds : List String) (ws : List String)
    (acc out : List shuffledSeedWords) (rng rng' : Rand)
    (hacc : ∀ m ∈ acc, wellFormed m)
    (h : navigateLoop wl allSeeds ws acc rng = some (out, rng')) :
    ∀ m ∈ out, wellFormed m := by
  induction ws generalizing acc rng with
  | nil =>
    simp only [navigateLoop, Option.some.injEq, Prod.mk.injEq] at h
    obtain ⟨rfl, _⟩ := h
    exact hacc
  | cons w rest ih =>
    simp only [navigateLoop] at h
    cases hg : getMultiSeed (seedPosition w allSeeds) wl rng with
    | none => simp [hg] at h
    | some p =>
      obtain ⟨ss, rng1⟩ := p
      rw [hg] at h
      obtain ⟨hsel, hw, hc⟩ := getMultiSeed_shape wl _ rng ss rng1 hg
      refine ih (acc ++ [ss]) rng1 ?_ h
      intro m hm
      rcases List.mem_append.mp hm with hm | hm
      · exact hacc m hm
      · rw [List.mem_singleton] at hm
        subst hm
        exact ⟨hw, hc, Or.inl hsel⟩

theorem iterate_const {σ : Type} (a : σ) (n : Nat) (s : σ) :
    (fun _ => a)^[n] s = if n = 0 then s else a := by
  induction n generalizing s with
  | zero => rfl
  | succ n ih =>
    rw [Function.iterate_succ_apply, ih]
    split <;> simp

theorem handleClickables_range (j : Nat) (cs : List Clickable) (sel : Int) :
    (handleClickables j cs sel).1.length = cs.length ∧
    ((handleClickables j cs sel).2 = sel ∨
      ((j : Int) ≤ (handleClickables j cs sel).2 ∧
        (handleClickables j cs sel).2 < (j : Int) + (cs.length : Int))) := by
  induction cs generalizing j sel with
  | nil => simp [handleClickables]
  | cons c rest ih =>
    simp only [handleClickables, forClicked_spec, iterate_const, List.length_cons]
    obtain ⟨hl, hs⟩ := ih (j + 1) (if c.clicks = 0 then sel else (j : Int))
    refine ⟨by rw [hl], ?_⟩
    rcases hs with hs | ⟨h1, h2⟩
    · rw [hs]
      by_cases hc : c.clicks = 0
      · left; simp [hc]
      · right
        simp only [hc, if_false]
        constructor <;> omega
    · right
      push_cast at h1 h2 ⊢
      constructor <;> omega

theorem handleMultiSeed_wellFormed (m : shuffledSeedWords) (h : wellFormed m) :
    wellFormed (handleMultiSeed m) := by
  obtain ⟨hw, hc, hs⟩ := h
  obtain ⟨hl, hr⟩ := handleClickables_range 0 m.clickables m.selectedIndex
  refine ⟨hw, by simp only [handleMultiSeed]; rw [hl, hc], ?_⟩
  simp only [handleMultiSeed]
  rcases hr with hr | ⟨h1, h2⟩
  · rw [hr]; exact hs
  · right
    rw [hc] at h2
    constructor <;> omega

theorem HandleUserInteractions_multiSeedList (pg : VerifySeedPage) :
    (HandleUserInteractions pg).multiSeedList = pg.multiSeedList.map handleMultiSeed := by
  simp only [HandleUserInteractions, forClicked_spec, iterate_verify]
  split <;> rfl

theorem HandleUserInteractions_eq (p : VerifySeedPage) :
    HandleUserInteractions p =
      { seed := p.seed,
        multiSeedList := p.multiSeedList.map handleMultiSeed,
        actionButton := { p.actionButton with clicks := 0 },
        modalsShown :=
          if allSeedsSelectedLoop (p.multiSeedList.map handleMultiSeed) then
            p.modalsShown + p.actionButton.clicks
          else p.modalsShown } := by
  simp only [HandleUserInteractions, forClicked_spec, iterate_verify]
  unfold allSeedsSelected
  split <;> rfl

theorem reachable_wellFormed (wl : List String) (pg : VerifySeedPage) (h : Reachable wl pg) :
    ∀ m ∈ pg.multiSeedList, wellFormed m := by
  induction h with
  | generated pg pg' rng hgen =>
    simp only [OnNavigatedTo] at hgen
    cases hn : navigateLoop wl wl (stringsSplit pg.seed ' ') [] rng with
    | none => simp [hn] at hgen
    | some p =>
      obtain ⟨out, rng'⟩ := p
      simp only [hn, Option.some.injEq] at hgen
      subst hgen
      exact navigateLoop_shape wl wl _ [] out rng rng' (by simp) hn
  | click pg i j _ ih =>
    intro m hm
    simp only [click] at hm
    obtain ⟨k, hk⟩ := List.mem_iff_getElem?.mp hm
    rw [List.getElem?_modify] at hk
    cases hget : pg.multiSeedList[k]? with
    | none => simp [hget] at hk
    | some m0 =>
      rw [hget] at hk
      simp only [Option.map_eq_map, Option.map_some', Option.some.injEq] at hk
      obtain ⟨hw, hc, hs⟩ := ih m0 (List.getElem?_mem hget)
      subst hk
      split
      · exact ⟨hw, by simp only [List.length_modify]; exact hc, hs⟩
      · exact ⟨hw, hc, hs⟩
  | clickAction pg _ ih => exact ih
  | frame pg _ ih =>
    intro m hm
    rw [HandleUserInteractions_multiSeedList] at hm
    obtain ⟨m0, hm0, rfl⟩ := List.mem_map.mp hm
    exact handleMultiSeed_wellFormed m0 (ih m0 hm0)

theorem wellFormed_index (m : shuffledSeedWords) (h : wellFormed m)
    (hne : m.selectedIndex ≠ -1) : ∃ w, index m.words m.selectedIndex = some w := by
  obtain ⟨hw, _, hs⟩ := h
  rcases hs with hs | ⟨h0, h3⟩
  · exact absurd hs hne
  · obtain ⟨k, hk⟩ := Int.eq_ofNat_of_zero_le h0
    rw [hk, index_natCast]
    have hlt : k < m.words.length := by omega
    exact ⟨m.words[k], List.getElem?_eq_getElem hlt⟩

theorem selectedWordsLoop_wellFormed (msl : List shuffledSeedWords) (acc : List String)
    (h : ∀ m ∈ msl, wellFormed m) : ∃ ws, selectedWordsLoop msl acc = some ws := by
  induction msl generalizing acc with
  | nil => exact ⟨acc, rfl⟩
  | cons m rest ih =>
    have hrest : ∀ m' ∈ rest, wellFormed m' := fun m' hm' => h m' (List.mem_cons_of_mem m hm')
    by_cases hne : m.selectedIndex = -1
    · simp only [selectedWordsLoop, hne, ne_eq, not_true_eq_false, if_false]
      exact ih acc hrest
    · obtain ⟨w, hw⟩ := wellFormed_index m (h m (List.mem_cons_self m rest)) hne
      simp only [selectedWordsLoop, ne_eq, hne, not_false_eq_true, if_true, hw]
      exact ih (acc ++ [w]) hrest

/-! ## The claims, continued -/

/-- C11: for a valid index, `getMultiSeed` succeeds if and only if the word list
has at least 4 entries; with fewer entries the distractor loop runs out of
words (a random draw from an empty range) and the call fails; with exactly 4
entries the candidate set is a permutation of the whole word list. -/
theorem getMultiSeed_succeeds_iff (wl : List String) (realSeedIndex : Int) (rng : Rand)
    (h0 : 0 ≤ realSeedIndex) (hi : realSeedIndex < (wl.length : Int)) :
    ((getMultiSeed realSeedIndex wl rng).isSome = true ↔ 4 ≤ wl.length) ∧
    (wl.length < 4 → getMultiSeed realSeedIndex wl rng = none ∧ rng.Intn 0 = none) ∧
    (wl.length = 4 → ∃ ss rng', getMultiSeed realSeedIndex wl rng = some (ss, rng') ∧
      ss.words.Perm wl) := by
  obtain ⟨k, rfl⟩ := Int.eq_ofNat_of_zero_le h0
  have hk : k < wl.length := by omega
  refine ⟨?_, ?_, ?_⟩
  · constructor
    · intro hs
      by_contra hlt
      rw [getMultiSeed_short wl k rng hk (by omega)] at hs
      cases hs
    · intro h4
      obtain ⟨ss, rng', hg, _⟩ := getMultiSeed_spec wl k rng hk h4
      rw [hg]; rfl
  · intro hlt
    exact ⟨getMultiSeed_short wl k rng hk hlt, Intn_zero rng⟩
  · intro h4
    obtain ⟨ss, rng', hg, _, hw, _, _, rest, hperm⟩ := getMultiSeed_spec wl k rng hk (by omega)
    refine ⟨ss, rng', hg, ?_⟩
    have hlen := hperm.length_eq
    rw [List.length_append, hw, h4] at hlen
    have hrest : rest = [] := List.length_eq_zero.mp (by omega)
    rw [hrest, List.append_nil] at hperm
    exact hperm

theorem getMultiSeed_succeeds_iff_witness :
    (0 : Int) ≤ 1 ∧ (1 : Int) < (fourWordList.length : Int) ∧
    ((getMultiSeed 1 fourWordList exampleRand).isSome = true ↔ 4 ≤ fourWordList.length) ∧
    (fourWordList.length < 4 →
      getMultiSeed 1 fourWordList exampleRand = none ∧ exampleRand.Intn 0 = none) ∧
    (fourWordList.length = 4 →
      ∃ ss rng', getMultiSeed 1 fourWordList exampleRand = some (ss, rng') ∧
        ss.words.Perm fourWordList) :=
  ⟨by decide, by decide,
    getMultiSeed_succeeds_iff fourWordList 1 exampleRand (by decide) (by decide)⟩

/-- C12: for every quiz state, `selectedSeedPhrase` equals the phrase the spec
describes: the single-space-separated concatenation, in position order, of
`words[selectedIndex]` over the positions that have a selection. -/
theorem selectedSeedPhrase_eq_reconstructedPhrase (pg : VerifySeedPage) :
    selectedSeedPhrase pg = reconstructedPhrase pg.multiSeedList := by
  unfold selectedSeedPhrase reconstructedPhrase
  rw [selectedWordsLoop_eq]
  cases List.mapM (fun m => index m.words m.selectedIndex)
      (List.filter (fun m => decide (m.selectedIndex ≠ -1)) pg.multiSeedList) with
  | none => rfl
  | some ws => simp

/-- C13: the four words of a candidate set come from four pairwise distinct
positions of the word list, the first being the correct word's position; each
distractor is read from the word list with the correct position and the
positions drawn before removed; and `removeSeed` at a valid index deletes that
entry, shortening the list by one and keeping the order of the others. -/
theorem getMultiSeed_distinct_positions (wl : List String) (k : Nat) (rng : Rand)
    (hk : k < wl.length) (h4 : 4 ≤ wl.length) :
    (∃ ss rng' w1 w2 w3 d1 d2 d3 P1 P2 P3 p1 p2 p3,
      getMultiSeed (k : Int) wl rng = some (ss, rng') ∧
      ss.words.Perm [wl[k], w1, w2, w3] ∧
      removeSeed wl (k : Int) = some P1 ∧ index P1 (d1 : Int) = some w1 ∧
      removeSeed P1 (d1 : Int) = some P2 ∧ index P2 (d2 : Int) = some w2 ∧
      removeSeed P2 (d2 : Int) = some P3 ∧ index P3 (d3 : Int) = some w3 ∧
      [k, p1, p2, p3].Nodup ∧
      wl[p1]? = some w1 ∧ wl[p2]? = some w2 ∧ wl[p3]? = some w3) ∧
    (∀ (l : List String) (i : Nat), i < l.length →
      ∃ l', removeSeed l (i : Int) = some l' ∧ l'.length + 1 = l.length ∧
        ∀ j, l'[j]? = if j < i then l[j]? else l[j + 1]?) := by
  constructor
  · obtain ⟨d1, d2, d3, w1, w2, w3, rng1, ws, rng2, hd1, hd2, hd3, hw1, hw2, hw3, _, _, hp, hg⟩ :=
      getMultiSeed_stages wl k rng hk h4
    have hp1 : wl[skipIndex k d1]? = some w1 := by
      rw [← getElem?_eraseIdx_skipIndex]; exact hw1
    have hp2 : wl[skipIndex k (skipIndex d1 d2)]? = some w2 := by
      rw [← getElem?_eraseIdx_skipIndex, ← getElem?_eraseIdx_skipIndex]; exact hw2
    have hp3 : wl[skipIndex k (skipIndex d1 (skipIndex d2 d3))]? = some w3 := by
      rw [← getElem?_eraseIdx_skipIndex, ← getElem?_eraseIdx_skipIndex,
        ← getElem?_eraseIdx_skipIndex]
      exact hw3
    refine ⟨_, rng2, w1, w2, w3, d1, d2, d3, wl.eraseIdx k, (wl.eraseIdx k).eraseIdx d1,
      ((wl.eraseIdx k).eraseIdx d1).eraseIdx d2, _, _, _, hg, hp, ?_, ?_, ?_, ?_, ?_, ?_,
      ?_, hp1, hp2, hp3⟩
    · rw [removeSeed_natCast, if_pos hk]
    · rw [index_natCast]; exact hw1
    · rw [removeSeed_natCast, if_pos hd1]
    · rw [index_natCast]; exact hw2
    · rw [removeSeed_natCast, if_pos hd2]
    · rw [index_natCast]; exact hw3
    · simp only [List.nodup_cons, List.mem_cons, List.mem_singleton, List.not_mem_nil,
        not_or, or_false, not_false_eq_true, List.nodup_nil, and_true]
      refine ⟨⟨fun h => skipIndex_ne k _ h.symm, fun h => skipIndex_ne k _ h.symm,
        fun h => skipIndex_ne k _ h.symm⟩, ⟨?_, ?_⟩, ?_⟩
      · intro h
        exact skipIndex_ne d1 d2 (skipIndex_inj h).symm
      · intro h
        exact skipIndex_ne d1 _ (skipIndex_inj h).symm
      · intro h
        exact skipIndex_ne d2 d3 (skipIndex_inj (skipIndex_inj h)).symm
  · intro l i hi
    refine ⟨l.eraseIdx i, ?_, ?_, fun j => List.getElem?_eraseIdx l i j⟩
    · rw [removeSeed_natCast, if_pos hi]
    · rw [List.length_eraseIdx_of_lt hi]; omega

theorem getMultiSeed_distinct_positions_witness :
    2 < exampleWordList.length ∧ 4 ≤ exampleWordList.length ∧
    ((∃ ss rng' w1 w2 w3 d1 d2 d3 P1 P2 P3 p1 p2 p3,
      getMultiSeed ((2 : Nat) : Int) exampleWordList exampleRand = some (ss, rng') ∧
      ss.words.Perm [exampleWordList[2]?.getD "", w1, w2, w3] ∧
      removeSeed exampleWordList ((2 : Nat) : Int) = some P1 ∧ index P1 (d1 : Int) = some w1 ∧
      removeSeed P1 (d1 : Int) = some P2 ∧ index P2 (d2 : Int) = some w2 ∧
      removeSeed P2 (d2 : Int) = some P3 ∧ index P3 (d3 : Int) = some w3 ∧
      [2, p1, p2, p3].Nodup ∧
      exampleWordList[p1]? = some w1 ∧ exampleWordList[p2]? = some w2 ∧
      exampleWordList[p3]? = some w3) ∧
    (∀ (l : List String) (i : Nat), i < l.length →
      ∃ l', removeSeed l (i : Int) = some l' ∧ l'.length + 1 = l.length ∧
        ∀ j, l'[j]? = if j < i then l[j]? else l[j + 1]?)) :=
  ⟨by decide, by decide,
    getMultiSeed_distinct_positions exampleWordList 2 exampleRand (by decide) (by decide)⟩

/-- C14: the final shuffle of `getMultiSeed` only reorders. The returned words
are the result of shuffling the sequence [correct word, distractor 1,
distractor 2, distractor 3] collected by the distractor loop, and are a
permutation of it of the same length; and for every list of words and every
random source the shuffle succeeds with a permutation of its input. -/
theorem getMultiSeed_shuffle_reorders (wl : List String) (k : Nat) (rng : Rand)
    (hk : k < wl.length) (h4 : 4 ≤ wl.length) :
    (∃ pool0 w1 w2 w3 cs pool rng1 ss rng2,
      removeSeed wl (k : Int) = some pool0 ∧
      distractorLoop 3 ⟨-1, [wl[k]], [clickable]⟩ pool0 rng =
        some (⟨-1, [wl[k], w1, w2, w3], cs⟩, pool, rng1) ∧
      Shuffle 4 swapWords rng1 [wl[k], w1, w2, w3] = some (ss.words, rng2) ∧
      getMultiSeed (k : Int) wl rng = some (ss, rng2) ∧
      ss.words.Perm [wl[k], w1, w2, w3] ∧ ss.words.length = 4) ∧
    (∀ (words : List String) (r : Rand), ∃ ws r',
      Shuffle words.length swapWords r words = some (ws, r') ∧
        ws.Perm words ∧ ws.length = words.length) := by
  constructor
  · obtain ⟨d1, d2, d3, w1, w2, w3, rng1, ws, rng2, _, _, _, _, _, _, hloop, hs, hp, hg⟩ :=
      getMultiSeed_stages wl k rng hk h4
    refine ⟨wl.eraseIdx k, w1, w2, w3, _, _, rng1, _, rng2, ?_, hloop, hs, hg, hp, ?_⟩
    · rw [removeSeed_natCast, if_pos hk]
    · simpa using hp.length_eq
  · intro words r
    obtain ⟨ws, r', hs, hp⟩ := Shuffle_spec r words
    exact ⟨ws, r', hs, hp, hp.length_eq⟩

theorem getMultiSeed_shuffle_reorders_witness :
    0 < exampleWordList.length ∧ 4 ≤ exampleWordList.length ∧
    (getMultiSeed ((0 : Nat) : Int) exampleWordList exampleRand).map (fun p => p.1.words) =
      some ["charlie", "delta", "echo", "alpha"] ∧
    (distractorLoop 3 ⟨-1, ["alpha"], [clickable]⟩ ["bravo", "charlie", "delta", "echo"]
      exampleRand).map (fun p => p.1.words) = some ["alpha", "echo", "charlie", "delta"] ∧
    ∃ pool0 w1 w2 w3 cs pool rng1 ss rng2,
      removeSeed exampleWordList ((0 : Nat) : Int) = some pool0 ∧
      distractorLoop 3 ⟨-1, [exampleWordList[0]?.getD ""], [clickable]⟩ pool0 exampleRand =
        some (⟨-1, [exampleWordList[0]?.getD "", w1, w2, w3], cs⟩, pool, rng1) ∧
      Shuffle 4 swapWords rng1 [exampleWordList[0]?.getD "", w1, w2, w3] =
        some (ss.words, rng2) ∧
      getMultiSeed ((0 : Nat) : Int) exampleWordList exampleRand = some (ss, rng2) ∧
      ss.words.Perm [exampleWordList[0]?.getD "", w1, w2, w3] ∧ ss.words.length = 4 :=
  ⟨by decide, by decide, by decide, by decide,
    (getMultiSeed_shuffle_reorders exampleWordList 0 exampleRand (by decide) (by decide)).1⟩

/-- C15: in every quiz state reachable from generation by clicks and frames,
each position has exactly 4 words and a `selectedIndex` that is the sentinel
`-1` or an index in 0..3; every candidate set returned by `getMultiSeed` has
`selectedIndex = -1`; hence every access `words[selectedIndex]` guarded by
`selectedIndex != -1` is in bounds and `selectedSeedPhrase` returns. -/
theorem reachable_selection_in_bounds (wl : List String) (pg : VerifySeedPage)
    (h : Reachable wl pg) :
    (∀ m ∈ pg.multiSeedList, m.words.length = 4 ∧
      (m.selectedIndex = -1 ∨ (0 ≤ m.selectedIndex ∧ m.selectedIndex ≤ 3))) ∧
    (∀ i rng ss rng', getMultiSeed i wl rng = some (ss, rng') → ss.selectedIndex = -1) ∧
    (∀ m ∈ pg.multiSeedList, m.selectedIndex ≠ -1 →
      ∃ w, index m.words m.selectedIndex = some w) ∧
    ∃ phrase, selectedSeedPhrase pg = some phrase := by
  have hwf := reachable_wellFormed wl pg h
  refine ⟨fun m hm => ⟨(hwf m hm).1, (hwf m hm).2.2⟩, ?_, ?_, ?_⟩
  · intro i rng ss rng' hg
    exact (getMultiSeed_shape wl i rng ss rng' hg).1
  · intro m hm hne
    exact wellFormed_index m (hwf m hm) hne
  · obtain ⟨ws, hws⟩ := selectedWordsLoop_wellFormed pg.multiSeedList [] hwf
    exact ⟨stringsJoin ws ' ', by simp [selectedSeedPhrase, hws]⟩

theorem reachable_selection_in_bounds_witness :
    Reachable exampleWordList (select (clickAction (select exampleQuiz 1 2)) 0 3) ∧
    (select (clickAction (select exampleQuiz 1 2)) 0 3).multiSeedList.map
      (fun m => m.selectedIndex) = [3, 2, -1] ∧
    selectedSeedPhrase (select (clickAction (select exampleQuiz 1 2)) 0 3) =
      some "alpha charlie" ∧
    ∃ phrase, selectedSeedPhrase (select (clickAction (select exampleQuiz 1 2)) 0 3) =
      some phrase :=
  have hr : Reachable exampleWordList (select (clickAction (select exampleQuiz 1 2)) 0 3) :=
    Reachable.frame _ (Reachable.click _ 0 3 (Reachable.clickAction _
      (Reachable.frame _ (Reachable.click _ 1 2
        (Reachable.generated examplePage exampleQuiz exampleRand (by decide))))))
  ⟨hr, by decide, by decide,
    (reachable_selection_in_bounds exampleWordList _ hr).2.2.2⟩

/-- C16: in a quiz with no pending click, a click on the Verify button is
consumed by the next frame; it starts the verification (`verifySeed`, once) when
`allSeedsSelected` is true, and when some position has no selection it leaves
the page, quiz state included, exactly as it was before the click. In every
frame the count of started verifications grows only when `allSeedsSelected`
holds. -/
theorem HandleUserInteractions_verify_click (pg : VerifySeedPage) (hq : quiescent pg)
    (h0 : pg.actionButton.clicks = 0) :
    (HandleUserInteractions (clickAction pg)).actionButton.clicks = 0 ∧
    (allSeedsSelected pg = true → HandleUserInteractions (clickAction pg) = verifySeed pg) ∧
    (allSeedsSelected pg = false → HandleUserInteractions (clickAction pg) = pg) ∧
    (∀ p : VerifySeedPage, (HandleUserInteractions p).modalsShown ≠ p.modalsShown →
      allSeedsSelected (HandleUserInteractions p) = true) := by
  have hmap : pg.multiSeedList.map handleMultiSeed = pg.multiSeedList := by
    conv => rhs; rw [← List.map_id pg.multiSeedList]
    exact List.map_congr_left (fun m hm => handleMultiSeed_idle m (hq m hm))
  have hstep : HandleUserInteractions (clickAction pg) =
      if allSeedsSelected pg = true then verifySeed pg else pg := by
    rw [HandleUserInteractions_eq]
    simp only [clickAction, hmap, h0]
    unfold allSeedsSelected verifySeed
    obtain ⟨seed, msl, ⟨hv, r, c⟩, ms⟩ := pg
    simp only at h0
    subst h0
    by_cases hs : allSeedsSelectedLoop msl = true
    · simp only [hs, if_true]
    · simp [hs]
  refine ⟨?_, ?_, ?_, ?_⟩
  · rw [HandleUserInteractions_eq]
  · intro hs
    rw [hstep, if_pos hs]
  · intro hs
    rw [hstep, if_neg (by simp [hs])]
  · intro p hne
    by_contra hsel
    apply hne
    rw [HandleUserInteractions_eq] at hsel ⊢
    simp only [allSeedsSelected] at hsel
    simp only [if_neg hsel]

theorem HandleUserInteractions_verify_click_witness :
    quiescent exampleQuiz ∧ exampleQuiz.actionButton.clicks = 0 ∧
    allSeedsSelected exampleQuiz = false ∧
    HandleUserInteractions (clickAction exampleQuiz) = exampleQuiz ∧
    allSeedsSelected exampleAnswered = true ∧
    (HandleUserInteractions (clickAction exampleAnswered)).modalsShown = 1 :=
  ⟨by unfold quiescent; decide, by decide, by decide,
    (HandleUserInteractions_verify_click exampleQuiz (by unfold quiescent; decide)
      (by decide)).2.2.1 (by decide),
    by decide, by decide⟩

/-- C17: the handling of the verification result distinguishes three outcomes.
An error whose text equals `ErrInvalid` shows the "Failed to verify" error
notification and dismisses the password modal; any other error is shown in the
modal, which stops loading and is not dismissed; success dismisses the modal and
navigates to the backup-success page. In both error outcomes the quiz state is
unchanged and no navigation happens. -/
theorem verifySeedConfirm_outcomes (ErrInvalid : String)
    (VerifySeedForWallet : String → String → Option String) (password seed : String)
    (ui : VerifyUI) (hseed : selectedSeedPhrase ui.page = some seed) :
    (VerifySeedForWallet seed password = some ErrInvalid →
      verifySeedConfirm ErrInvalid VerifySeedForWallet password ui =
        some { ui with
          toastError := some "Failed to verify. Please go through every word and try again.",
          modal := { ui.modal with dismissed := true } }) ∧
    (∀ err, VerifySeedForWallet seed password = some err → err ≠ ErrInvalid →
      verifySeedConfirm ErrInvalid VerifySeedForWallet password ui =
        some { ui with modal := { ui.modal with isLoading := false, error := err } }) ∧
    (VerifySeedForWallet seed password = none →
      verifySeedConfirm ErrInvalid VerifySeedForWallet password ui =
        some { ui with
          modal := { ui.modal with dismissed := true },
          fragment := some Fragment.BackupSuccessPage }) ∧
    (∀ err ui', VerifySeedForWallet seed password = some err →
      verifySeedConfirm ErrInvalid VerifySeedForWallet password ui = some ui' →
      ui'.page = ui.page ∧ ui'.fragment = ui.fragment) := by
  refine ⟨?_, ?_, ?_, ?_⟩
  · intro h
    simp [verifySeedConfirm, hseed, h, PasswordModal.Dismiss]
  · intro err h hne
    simp [verifySeedConfirm, hseed, h, hne, PasswordModal.SetLoading, PasswordModal.SetError]
  · intro h
    simp [verifySeedConfirm, hseed, h, PasswordModal.Dismiss]
  · intro err ui' h hres
    simp only [verifySeedConfirm, hseed, h] at hres
    split at hres
    · simp only [Option.some.injEq] at hres
      subst hres
      exact ⟨rfl, rfl⟩
    · simp only [Option.some.injEq] at hres
      subst hres
      exact ⟨rfl, rfl⟩

theorem verifySeedConfirm_outcomes_witness :
    selectedSeedPhrase exampleVerifyUI.page = some "alpha bravo charlie" ∧
    verifySeedConfirm "invalid" (fun _ _ => some "invalid") "pw" exampleVerifyUI =
      some { exampleVerifyUI with
        toastError := some "Failed to verify. Please go through every word and try again.",
        modal := { isLoading := true, error := "", dismissed := true } } ∧
    verifySeedConfirm "invalid" (fun _ _ => some "wallet is locked") "pw" exampleVerifyUI =
      some { exampleVerifyUI with
        modal := { isLoading := false, error := "wallet is locked", dismissed := false } } ∧
    verifySeedConfirm "invalid" (fun _ _ => none) "pw" exampleVerifyUI =
      some { exampleVerifyUI with
        modal := { isLoading := true, error := "", dismissed := true },
        fragment := some Fragment.BackupSuccessPage } :=
  ⟨by decide,
    (verifySeedConfirm_outcomes "invalid" (fun _ _ => some "invalid") "pw"
      "alpha bravo charlie" exampleVerifyUI (by decide)).1 rfl,
    by decide, by decide⟩

end seedbackup

namespace decredmaterial

open seedbackup

theorem Clicked_idle (c : Clickable) (h : c.clicks = 0) : c.Clicked = (false, c) := by
  simp [Clickable.Clicked, h]

theorem Clicked_pending (c : Clickable) (h : 0 < c.clicks) : (c.Clicked).1 = true := by
  have : c.clicks ≠ 0 := by omega
  simp [Clickable.Clicked, this]

theorem Heap.set_self (heap : Heap) (p : Nat) : heap.set p (heap p) = heap := by
  funext q
  unfold Heap.set
  split
  · rename_i h; rw [h]
  · rfl

theorem closeMenus_isOpen (ms : List Nat) (heap : Heap) (q : Nat) :
    (closeMenus ms heap q).isOpen = if q ∈ ms then false else (heap q).isOpen := by
  induction ms generalizing heap with
  | nil => simp [closeMenus]
  | cons m rest ih =>
    rw [closeMenus, ih]
    by_cases hq : q ∈ rest
    · simp [hq]
    · by_cases hm : q = m
      · simp [hq, hm, Heap.set]
      · simp [hq, hm, Heap.set]

theorem closeMenus_clickable (ms : List Nat) (heap : Heap) (q : Nat) :
    (closeMenus ms heap q).clickable = (heap q).clickable := by
  induction ms generalizing heap with
  | nil => rfl
  | cons m rest ih =>
    rw [closeMenus, ih]
    unfold Heap.set
    split
    · rename_i h; rw [h]
    · rfl

theorem ResliceDropdown_natCast (l : List Nat) (i : Nat) (h : i < l.length) :
    ResliceDropdown l (i : Int) =
      some (l.eraseIdx i, l.eraseIdx i ++ l.drop (l.length - 1)) := by
  unfold ResliceDropdown
  rw [if_pos (by omega), List.eraseIdx_eq_take_drop_succ]
  simp

theorem displayLoop_idle (r j : Nat) (arr : List Nat) (heap : Heap)
    (h : ∀ t, j ≤ t → t < j + r →
      ∃ q, arr[t]? = some q ∧ (heap q).clickable.clicks = 0) :
    displayLoop r j arr heap = some heap := by
  induction r generalizing j with
  | zero => rfl
  | succ r ih =>
    obtain ⟨q, hq, hc⟩ := h j (Nat.le_refl j) (by omega)
    have hset : heap.set q { heap q with clickable := ((heap q).clickable.Clicked).2 } = heap := by
      rw [Clicked_idle _ hc]
      exact Heap.set_self heap q
    simp only [displayLoop, hq, hset]
    rw [Clicked_idle _ hc]
    simp only [Bool.false_eq_true, if_false]
    exact ih (j + 1) (fun t h1 h2 => h t (by omega) (by omega))

theorem displayLoop_before_click (dropdowns : List Nat) (heap : Heap) (i p : Nat)
    (hnd : dropdowns.Nodup) (hp : dropdowns[i]? = some p)
    (hothers : ∀ q ∈ dropdowns, q ≠ p → (heap q).clickable.clicks = 0) (d j : Nat)
    (hj : j + d = i) :
    displayLoop (dropdowns.length - j) j dropdowns heap =
      displayLoop (dropdowns.length - i) i dropdowns heap := by
  have hi : i < dropdowns.length := (List.getElem?_eq_some_iff.mp hp).1
  induction d generalizing j with
  | zero =>
    have : j = i := by omega
    rw [this]
  | succ d ih =>
    have hjl : j < dropdowns.length := by omega
    have hq : dropdowns[j]? = some dropdowns[j] := List.getElem?_eq_getElem hjl
    have hne : dropdowns[j] ≠ p := by
      intro heq
      have : j = i := List.getElem?_inj hjl hnd (by rw [hq, hp, heq])
      omega
    have hc := hothers dropdowns[j] (List.getElem_mem hjl) hne
    have hset : heap.set dropdowns[j]
        { heap dropdowns[j] with clickable := ((heap dropdowns[j]).clickable.Clicked).2 } =
        heap := by
      rw [Clicked_idle _ hc]
      exact Heap.set_self heap _
    have hr : dropdowns.length - j = (dropdowns.length - (j + 1)) + 1 := by omega
    rw [hr]
    simp only [displayLoop, hq, hset]
    rw [Clicked_idle _ hc]
    simp only [Bool.false_eq_true, if_false]
    exact ih (j + 1) (by omega)

/-- When exactly one of the distinct drop-downs has its trigger clicked,
`DisplayOneDropdown` leaves that drop-down open and every other one closed. -/
theorem DisplayOneDropdown_single_click (dropdowns : List Nat) (heap : Heap) (i p : Nat)
    (hnd : dropdowns.Nodup) (hp : dropdowns[i]? = some p)
    (hclicked : 0 < (heap p).clickable.clicks)
    (hothers : ∀ q ∈ dropdowns, q ≠ p → (heap q).clickable.clicks = 0) :
    ∃ heap', DisplayOneDropdown dropdowns heap = some heap' ∧ (heap' p).isOpen = true ∧
      ∀ q ∈ dropdowns, q ≠ p → (heap' q).isOpen = false := by
  have hi : i < dropdowns.length := (List.getElem?_eq_some_iff.mp hp).1
  have hpm : p ∉ dropdowns.eraseIdx i := by
    intro hmem
    obtain ⟨s, hs, hget⟩ := List.mem_eraseIdx_iff_getElem?.mp hmem
    have hsl : s < dropdowns.length := (List.getElem?_eq_some_iff.mp hget).1
    exact hs (List.getElem?_inj hsl hnd (by rw [hget, hp]))
  have hqm : ∀ q ∈ dropdowns, q ≠ p → q ∈ dropdowns.eraseIdx i := by
    intro q hq hne
    obtain ⟨s, hget⟩ := List.mem_iff_getElem?.mp hq
    refine List.mem_eraseIdx_iff_getElem?.mpr ⟨s, ?_, hget⟩
    intro hs
    rw [hs, hp] at hget
    exact hne (Option.some.inj hget).symm
  refine ⟨closeMenus (dropdowns.eraseIdx i)
    ((heap.set p { heap p with clickable := ((heap p).clickable.Clicked).2 }).set p
      { (heap.set p { heap p with clickable := ((heap p).clickable.Clicked).2 }) p with
        isOpen := true }), ?_, ?_, ?_⟩
  · unfold DisplayOneDropdown
    have h1 := displayLoop_before_click dropdowns heap i p hnd hp hothers i 0 (by omega)
    rw [Nat.sub_zero] at h1
    rw [h1]
    have hr : dropdowns.length - i = (dropdowns.length - (i + 1)) + 1 := by omega
    rw [hr]
    simp only [displayLoop, hp, Clicked_pending _ hclicked, if_true,
      ResliceDropdown_natCast dropdowns i hi]
    apply displayLoop_idle
    intro t h1 h2
    have htl : t < dropdowns.length := by omega
    have hlen : (dropdowns.eraseIdx i).length = dropdowns.length - 1 :=
      List.length_eraseIdx_of_lt hi
    have hsrc : ∃ s, i < s ∧ s < dropdowns.length ∧
        (dropdowns.eraseIdx i ++ dropdowns.drop (dropdowns.length - 1))[t]? =
          dropdowns[s]? := by
      by_cases hlast : t < dropdowns.length - 1
      · refine ⟨t + 1, by omega, by omega, ?_⟩
        rw [List.getElem?_append_left (by omega), List.getElem?_eraseIdx_of_ge _ _ _ (by omega)]
      · refine ⟨t, by omega, htl, ?_⟩
        rw [List.getElem?_append_right (by omega), hlen, List.getElem?_drop]
        congr 1
        omega
    obtain ⟨s, hs1, hs2, hs3⟩ := hsrc
    refine ⟨dropdowns[s], ?_, ?_⟩
    · rw [hs3]; exact List.getElem?_eq_getElem hs2
    · have hne : dropdowns[s] ≠ p := by
        intro heq
        have : s = i :=
          List.getElem?_inj hs2 hnd (by rw [List.getElem?_eq_getElem hs2, hp, heq])
        omega
      rw [closeMenus_clickable]
      simp only [Heap.set, hne, if_false]
      exact hothers _ (List.getElem_mem hs2) hne
  · rw [closeMenus_isOpen, if_neg hpm]
    simp [Heap.set]
  · intro q hq hne
    rw [closeMenus_isOpen, if_pos (hqm q hq hne)]

end decredmaterial

namespace decredmaterial

open seedbackup

/-- C20 (evaluation at the failing input): with four distinct closed drop-downs
of which the first and the third had their trigger clicked, `DisplayOneDropdown`
leaves both of them open. -/
theorem DisplayOneDropdown_two_open :
    [0, 1, 2, 3].Nodup ∧ openFlags [0, 1, 2, 3] twoClicksHeap = [false, false, false, false] ∧
    (DisplayOneDropdown [0, 1, 2, 3] twoClicksHeap).map (openFlags [0, 1, 2, 3]) =
      some [true, false, true, false] := by
  decide

end decredmaterial

namespace transaction

open seedbackup decredmaterial

theorem txFilter_match_eq_table (c : TxFilters) (selected : Int) :
    (match selected with
      | 1 => c.TxFilterSent
      | 2 => c.TxFilterReceived
      | 3 => c.TxFilterTransferred
      | 4 => c.TxFilterMixed
      | 5 => c.TxFilterStaking
      | _ => c.TxFilterAll) = txFilterTable c selected := by
  unfold txFilterTable
  split <;> simp_all

theorem loadTransactions_example :
    (loadTransactions exampleFilters exampleGetTransactionsRaw exampleTransactionsPage).map
      (fun pg => pg.transactions) = some [⟨"oldest", 31⟩] := by
  decide

/-- C18: `loadTransactions` asks the wallet library for the transactions of the
selected wallet with the filter that the table 0 All, 1 Sent, 2 Received,
3 Transferred, 4 Mixed, 5 Staking, any other index All assigns to the selected
index of the transaction-type drop-down, and with newest-first ordering exactly
when the selected index of the order drop-down is 0; the items of the
transaction-type drop-down are All, Sent, Received, Yourself, Mixed, Staking in
this order. -/
theorem loadTransactions_filter_table (c : TxFilters)
    (GetTransactionsRaw : Wallet → Int → Int → Int → Bool → Except String (List Transaction))
    (pg : TransactionsPage) :
    loadTransactions c GetTransactionsRaw pg =
      (index pg.wallets pg.walletDropDown.SelectedIndex).map (fun selectedWallet =>
        storeTransactions pg
          (GetTransactionsRaw selectedWallet 0 0
            (txFilterTable c pg.txTypeDropDown.SelectedIndex)
            (decide (pg.orderDropDown.SelectedIndex = 0)))) ∧
    txFilterTable c 0 = c.TxFilterAll ∧ txFilterTable c 1 = c.TxFilterSent ∧
    txFilterTable c 2 = c.TxFilterReceived ∧ txFilterTable c 3 = c.TxFilterTransferred ∧
    txFilterTable c 4 = c.TxFilterMixed ∧ txFilterTable c 5 = c.TxFilterStaking ∧
    (∀ i : Int, i < 0 ∨ 5 < i → txFilterTable c i = c.TxFilterAll) ∧
    (∀ (s : Strings) (orderDropDown walletDropDown : DropDown) (wallets : List Wallet)
        (group : Nat),
      (NewTransactionsPage s orderDropDown walletDropDown wallets group).txTypeDropDown.items.map
          (fun item => item.Text) =
        [s.StrAll, s.StrSent, s.StrReceived, s.StrYourself, "Mixed", s.StrStaking]) := by
  refine ⟨?_, rfl, rfl, rfl, rfl, rfl, rfl, ?_, ?_⟩
  · unfold loadTransactions
    cases index pg.wallets pg.walletDropDown.SelectedIndex with
    | none => rfl
    | some w =>
      simp only [Option.map_some', txFilter_match_eq_table]
      cases GetTransactionsRaw w 0 0 (txFilterTable c pg.txTypeDropDown.SelectedIndex)
          (decide (pg.orderDropDown.SelectedIndex = 0)) with
      | error e => rfl
      | ok txs => rfl
  · intro i hi
    unfold txFilterTable
    have h0 : ¬ i = 0 := by omega
    have h1 : ¬ i = 1 := by omega
    have h2 : ¬ i = 2 := by omega
    have h3 : ¬ i = 3 := by omega
    have h4 : ¬ i = 4 := by omega
    have h5 : ¬ i = 5 := by omega
    simp only [h0, h1, h2, h3, h4, h5, if_false]
  · intro s od wd ws g
    rfl

end transaction

namespace page

open seedbackup

theorem ReadBool_Save (cfg : Config) (key key' : String) (b : Bool) :
    ReadBoolConfigValueForKey (SaveConfigValueForKey cfg key (ConfigValue.bool b)) key' =
      if key' = key then b else ReadBoolConfigValueForKey cfg key' := by
  unfold ReadBoolConfigValueForKey SaveConfigValueForKey
  by_cases h : key' = key
  · simp [h]
  · simp [h]

theorem setCheckedFrom_value (sw : Switch) (v : Bool) : (setCheckedFrom sw v).value = v := by
  unfold setCheckedFrom Switch.SetChecked
  cases v <;> rfl

theorem handleSettingSwitches_config (k : ConfigKeys) (pg : SettingsPage) :
    (handleSettingSwitches k pg).config =
      (fun c5 => if pg.transactionNotification.changed then
          SaveConfigValueForKey c5 k.TransactionNotificationConfigKey
            (ConfigValue.bool pg.transactionNotification.value) else c5)
      ((fun c4 => if pg.proposalNotification.changed then
          SaveConfigValueForKey c4 k.ProposalNotificationConfigKey
            (ConfigValue.bool pg.proposalNotification.value) else c4)
      ((fun c3 => if pg.beepNewBlocks.changed then
          SaveConfigValueForKey c3 k.BeepNewBlocksConfigKey
            (ConfigValue.bool pg.beepNewBlocks.value) else c3)
      ((fun c2 => if pg.governance.changed ∧ pg.governance.value then
          SaveConfigValueForKey c2 k.FetchProposalConfigKey (ConfigValue.bool true) else c2)
      ((fun c1 => if pg.spendUnconfirmed.changed then
          SaveConfigValueForKey c1 k.SpendUnconfirmedConfigKey
            (ConfigValue.bool pg.spendUnconfirmed.value) else c1)
      (if pg.isDarkModeOn.changed then
          SaveConfigValueForKey pg.config k.DarkModeConfigKey
            (ConfigValue.bool pg.isDarkModeOn.value) else pg.config))))) := by
  obtain ⟨cfg, _, _, _, _, _, _, ⟨dv, dc⟩, ⟨sv, sc⟩, _, ⟨bv, bc⟩, _, _, ⟨gv, gc⟩, ⟨pv, pc⟩,
    ⟨tv, tc⟩, _, _, _, _, _, _, _, _, _⟩ := pg
  cases dc <;> cases sc <;> cases gc <;> cases gv <;> cases bc <;> cases pc <;> cases tc <;> rfl

theorem handleRows_view (pg : SettingsPage) : (handleRows pg).settingsView = pg.settingsView := by
  have h1 : ∀ p : SettingsPage, (handleLanguage p).settingsView = p.settingsView := by
    intro p
    unfold handleLanguage
    split <;> rfl
  have h2 : ∀ p : SettingsPage, (handleCurrency p).settingsView = p.settingsView := by
    intro p
    unfold handleCurrency
    split <;> rfl
  unfold handleRows
  rw [h2, h1]

theorem handleInfoButton_view (pg : SettingsPage) :
    (handleInfoButton pg).settingsView = pg.settingsView := by
  unfold handleInfoButton
  split <;> rfl

theorem handleChangeStartupPass_view (pg : SettingsPage) :
    (handleChangeStartupPass pg).settingsView = pg.settingsView := by
  unfold handleChangeStartupPass
  split <;> rfl

theorem handleStartupPassword_view (pg : SettingsPage) :
    (handleStartupPassword pg).settingsView = pg.settingsView := by
  unfold handleStartupPassword
  split <;> rfl

theorem handleUpdateRows_view (pg : SettingsPage) :
    (handleUpdateRows pg).settingsView = pg.settingsView := by
  have h1 : ∀ p : SettingsPage, (handleUpdateConnectToPeer p).settingsView = p.settingsView := by
    intro p
    unfold handleUpdateConnectToPeer
    split <;> rfl
  have h2 : ∀ p : SettingsPage, (handleUpdateUserAgent p).settingsView = p.settingsView := by
    intro p
    unfold handleUpdateUserAgent
    split <;> rfl
  unfold handleUpdateRows
  rw [h2, h1]

theorem handleErrorReceiver_view (E : String) (received : Option String) (pg : SettingsPage) :
    (handleErrorReceiver E received pg).settingsView = pg.settingsView := by
  unfold handleErrorReceiver
  cases received with
  | none => rfl
  | some err => simp only []; split <;> rfl

theorem handleUserAgent_view (E : String) (received : Option String) (pg : SettingsPage) :
    (handleUserAgent E received pg).settingsView = pg.settingsView := by
  unfold handleUserAgent
  split
  · split
    · rfl
    · rw [handleErrorReceiver_view]; rfl
  · rw [handleErrorReceiver_view]; rfl

theorem handleConnectToPeer_view (E : String) (received : Option String) (pg : SettingsPage) :
    (handleConnectToPeer E received pg).settingsView = pg.settingsView := by
  unfold handleConnectToPeer
  split
  · split
    · rfl
    · rw [handleUserAgent_view, handleUpdateRows_view]; rfl
  · rw [handleUserAgent_view, handleUpdateRows_view]; rfl

theorem handleDialogs_view (E : String) (received : Option String) (pg : SettingsPage) :
    (handleDialogs E received pg).settingsView = pg.settingsView := by
  unfold handleDialogs
  rw [handleConnectToPeer_view, handleStartupPassword_view, handleChangeStartupPass_view,
    handleInfoButton_view]

theorem updateSettingOptions_values (k : ConfigKeys) (isPassword : Bool) (pg : SettingsPage) :
    (updateSettingOptions k isPassword pg).isDarkModeOn.value =
      ReadBoolConfigValueForKey pg.config k.DarkModeConfigKey ∧
    (updateSettingOptions k isPassword pg).spendUnconfirmed.value =
      ReadBoolConfigValueForKey pg.config k.SpendUnconfirmedConfigKey ∧
    (updateSettingOptions k isPassword pg).beepNewBlocks.value =
      ReadBoolConfigValueForKey pg.config k.BeepNewBlocksConfigKey ∧
    (updateSettingOptions k isPassword pg).proposalNotification.value =
      ReadBoolConfigValueForKey pg.config k.ProposalNotificationConfigKey ∧
    (updateSettingOptions k isPassword pg).transactionNotification.value =
      ReadBoolConfigValueForKey pg.config k.TransactionNotificationConfigKey := by
  have hP : ∀ p : SettingsPage, (updatePeer k p).config = p.config ∧
      (updatePeer k p).proposalNotification = p.proposalNotification ∧
      (updatePeer k p).transactionNotification = p.transactionNotification ∧
      (updatePeer k p).isDarkModeOn = p.isDarkModeOn ∧
      (updatePeer k p).spendUnconfirmed = p.spendUnconfirmed ∧
      (updatePeer k p).beepNewBlocks = p.beepNewBlocks := by
    intro p
    dsimp only [updatePeer]
    split <;> exact ⟨rfl, rfl, rfl, rfl, rfl, rfl⟩
  have hA : ∀ p : SettingsPage, (updateAgent k p).config = p.config ∧
      (updateAgent k p).proposalNotification = p.proposalNotification ∧
      (updateAgent k p).transactionNotification = p.transactionNotification ∧
      (updateAgent k p).isDarkModeOn = p.isDarkModeOn ∧
      (updateAgent k p).spendUnconfirmed = p.spendUnconfirmed ∧
      (updateAgent k p).beepNewBlocks = p.beepNewBlocks := by
    intro p
    dsimp only [updateAgent]
    split <;> exact ⟨rfl, rfl, rfl, rfl, rfl, rfl⟩
  obtain ⟨a1, a2, a3, a4, a5, a6⟩ :=
    hA (updatePeer k (updateFirstSwitches k (updateStartupPassword isPassword pg)))
  obtain ⟨p1, p2, p3, p4, p5, p6⟩ :=
    hP (updateFirstSwitches k (updateStartupPassword isPassword pg))
  unfold updateSettingOptions
  refine ⟨?_, ?_, ?_, ?_, ?_⟩
  · show (updateAgent k _).isDarkModeOn.value = _
    rw [a4, p4]
    exact setCheckedFrom_value _ _
  · show (updateAgent k _).spendUnconfirmed.value = _
    rw [a5, p5]
    exact setCheckedFrom_value _ _
  · show (updateAgent k _).beepNewBlocks.value = _
    rw [a6, p6]
    exact setCheckedFrom_value _ _
  · show (setCheckedFrom (updateAgent k _).proposalNotification
      (ReadBoolConfigValueForKey (updateAgent k _).config _)).value = _
    rw [setCheckedFrom_value, a1, p1]
    rfl
  · show (setCheckedFrom (updateAgent k _).transactionNotification
      (ReadBoolConfigValueForKey (updateAgent k _).config _)).value = _
    rw [setCheckedFrom_value, a1, p1]
    rfl

theorem ReadBool_ite_Save (c : Prop) [Decidable c] (cfg : Config) (key key' : String)
    (b : Bool) :
    ReadBoolConfigValueForKey
        (if c then SaveConfigValueForKey cfg key (ConfigValue.bool b) else cfg) key' =
      if c ∧ key' = key then b else ReadBoolConfigValueForKey cfg key' := by
  by_cases hc : c
  · simp only [hc, if_true, true_and, ReadBool_Save]
  · simp only [hc, if_false, false_and]

theorem HandleUserInteractions_reads (k : ConfigKeys) (E : String) (received : Option String)
    (pg : SettingsPage) (hk : k.saved.Nodup) :
    (ReadBoolConfigValueForKey (HandleUserInteractions k E received pg).config
        k.DarkModeConfigKey =
      if pg.isDarkModeOn.changed then pg.isDarkModeOn.value
      else ReadBoolConfigValueForKey pg.config k.DarkModeConfigKey) ∧
    (ReadBoolConfigValueForKey (HandleUserInteractions k E received pg).config
        k.SpendUnconfirmedConfigKey =
      if pg.spendUnconfirmed.changed then pg.spendUnconfirmed.value
      else ReadBoolConfigValueForKey pg.config k.SpendUnconfirmedConfigKey) ∧
    (ReadBoolConfigValueForKey (HandleUserInteractions k E received pg).config
        k.BeepNewBlocksConfigKey =
      if pg.beepNewBlocks.changed then pg.beepNewBlocks.value
      else ReadBoolConfigValueForKey pg.config k.BeepNewBlocksConfigKey) ∧
    (ReadBoolConfigValueForKey (HandleUserInteractions k E received pg).config
        k.ProposalNotificationConfigKey =
      if pg.proposalNotification.changed then pg.proposalNotification.value
      else ReadBoolConfigValueForKey pg.config k.ProposalNotificationConfigKey) ∧
    (ReadBoolConfigValueForKey (HandleUserInteractions k E received pg).config
        k.TransactionNotificationConfigKey =
      if pg.transactionNotification.changed then pg.transactionNotification.value
      else ReadBoolConfigValueForKey pg.config k.TransactionNotificationConfigKey) := by
  have hv : (HandleUserInteractions k E received pg).config =
      (handleSettingSwitches k (handleRows pg)).config :=
    congrArg Prod.fst (handleDialogs_view E received (handleSettingSwitches k (handleRows pg)))
  have hr := handleRows_view pg
  simp only [SettingsPage.settingsView, Prod.mk.injEq] at hr
  obtain ⟨r0, r1, r2, r3, r4, r5⟩ := hr
  simp only [ConfigKeys.saved, List.nodup_cons, List.mem_cons, List.mem_singleton,
    List.not_mem_nil, not_or, or_false, not_false_eq_true, List.nodup_nil, and_true] at hk
  obtain ⟨⟨n12, n13, n14, n15, n16⟩, ⟨n23, n24, n25, n26⟩, ⟨n34, n35, n36⟩, ⟨n45, n46⟩, n56⟩ := hk
  rw [hv, handleSettingSwitches_config, r0, r1, r2, r3, r4, r5]
  simp only [ReadBool_ite_Save]
  refine ⟨?_, ?_, ?_, ?_, ?_⟩
  · simp [n12, n13, n14, n15, n16]
  · simp [Ne.symm n12, n23, n24, n25, n26]
  · simp [Ne.symm n14, Ne.symm n24, Ne.symm n34, n45, n46]
  · simp [Ne.symm n15, Ne.symm n25, Ne.symm n35, Ne.symm n45, n56]
  · simp [Ne.symm n16, Ne.symm n26, Ne.symm n36, Ne.symm n46, Ne.symm n56]

/-- C19: persisted boolean settings round-trip through the switches. When the
dark-mode, spend-unconfirmed, beep-new-blocks, proposal-notification or
transaction-notification switch has changed, the value that
`HandleUserInteractions` leaves stored under its key equals the switch's checked
state; `updateSettingOptions` sets each of these switches to checked if and
only if the value stored under its key is true; so after the next
`updateSettingOptions` a changed switch shows the state it was toggled to. The
configuration keys are assumed pairwise distinct. -/
theorem settings_switches_roundtrip (k : ConfigKeys) (E : String) (received : Option String)
    (isPassword : Bool) (pg : SettingsPage) (hk : k.saved.Nodup) :
    ((pg.isDarkModeOn.changed = true →
        ReadBoolConfigValueForKey (HandleUserInteractions k E received pg).config
          k.DarkModeConfigKey = pg.isDarkModeOn.IsChecked) ∧
      (pg.spendUnconfirmed.changed = true →
        ReadBoolConfigValueForKey (HandleUserInteractions k E received pg).config
          k.SpendUnconfirmedConfigKey = pg.spendUnconfirmed.IsChecked) ∧
      (pg.beepNewBlocks.changed = true →
        ReadBoolConfigValueForKey (HandleUserInteractions k E received pg).config
          k.BeepNewBlocksConfigKey = pg.beepNewBlocks.IsChecked) ∧
      (pg.proposalNotification.changed = true →
        ReadBoolConfigValueForKey (HandleUserInteractions k E received pg).config
          k.ProposalNotificationConfigKey = pg.proposalNotification.IsChecked) ∧
      (pg.transactionNotification.changed = true →
        ReadBoolConfigValueForKey (HandleUserInteractions k E received pg).config
          k.TransactionNotificationConfigKey = pg.transactionNotification.IsChecked)) ∧
    (((updateSettingOptions k isPassword pg).isDarkModeOn.IsChecked = true ↔
        ReadBoolConfigValueForKey pg.config k.DarkModeConfigKey = true) ∧
      ((updateSettingOptions k isPassword pg).spendUnconfirmed.IsChecked = true ↔
        ReadBoolConfigValueForKey pg.config k.SpendUnconfirmedConfigKey = true) ∧
      ((updateSettingOptions k isPassword pg).beepNewBlocks.IsChecked = true ↔
        ReadBoolConfigValueForKey pg.config k.BeepNewBlocksConfigKey = true) ∧
      ((updateSettingOptions k isPassword pg).proposalNotification.IsChecked = true ↔
        ReadBoolConfigValueForKey pg.config k.ProposalNotificationConfigKey = true) ∧
      ((updateSettingOptions k isPassword pg).transactionNotification.IsChecked = true ↔
        ReadBoolConfigValueForKey pg.config k.TransactionNotificationConfigKey = true)) ∧
    ((pg.isDarkModeOn.changed = true →
        (updateSettingOptions k isPassword
          (HandleUserInteractions k E received pg)).isDarkModeOn.IsChecked =
          pg.isDarkModeOn.IsChecked) ∧
      (pg.spendUnconfirmed.changed = true →
        (updateSettingOptions k isPassword
          (HandleUserInteractions k E received pg)).spendUnconfirmed.IsChecked =
          pg.spendUnconfirmed.IsChecked) ∧
      (pg.beepNewBlocks.changed = true →
        (updateSettingOptions k isPassword
          (HandleUserInteractions k E received pg)).beepNewBlocks.IsChecked =
          pg.beepNewBlocks.IsChecked) ∧
      (pg.proposalNotification.changed = true →
        (updateSettingOptions k isPassword
          (HandleUserInteractions k E received pg)).proposalNotification.IsChecked =
          pg.proposalNotification.IsChecked) ∧
      (pg.transactionNotification.changed = true →
        (updateSettingOptions k isPassword
          (HandleUserInteractions k E received pg)).transactionNotification.IsChecked =
          pg.transactionNotification.IsChecked)) := by
  obtain ⟨h1, h2, h3, h4, h5⟩ := HandleUserInteractions_reads k E received pg hk
  obtain ⟨u1, u2, u3, u4, u5⟩ := updateSettingOptions_values k isPassword pg
  obtain ⟨v1, v2, v3, v4, v5⟩ :=
    updateSettingOptions_values k isPassword (HandleUserInteractions k E received pg)
  simp only [Switch.IsChecked]
  refine ⟨⟨?_, ?_, ?_, ?_, ?_⟩, ⟨?_, ?_, ?_, ?_, ?_⟩, ⟨?_, ?_, ?_, ?_, ?_⟩⟩
  · intro hc; rw [h1, if_pos hc]
  · intro hc; rw [h2, if_pos hc]
  · intro hc; rw [h3, if_pos hc]
  · intro hc; rw [h4, if_pos hc]
  · intro hc; rw [h5, if_pos hc]
  · rw [u1]
  · rw [u2]
  · rw [u3]
  · rw [u4]
  · rw [u5]
  · intro hc; rw [v1, h1, if_pos hc]
  · intro hc; rw [v2, h2, if_pos hc]
  · intro hc; rw [v3, h3, if_pos hc]
  · intro hc; rw [v4, h4, if_pos hc]
  · intro hc; rw [v5, h5, if_pos hc]

theorem settings_switches_roundtrip_witness :
    exampleKeys.saved.Nodup ∧
    exampleSettingsPage.isDarkModeOn.changed = true ∧
    exampleSettingsPage.isDarkModeOn.IsChecked = true ∧
    ReadBoolConfigValueForKey exampleSettingsPage.config exampleKeys.DarkModeConfigKey = false ∧
    ReadBoolConfigValueForKey
      (HandleUserInteractions exampleKeys "invalid_passphrase" none exampleSettingsPage).config
      exampleKeys.DarkModeConfigKey = true ∧
    (updateSettingOptions exampleKeys false
      (HandleUserInteractions exampleKeys "invalid_passphrase" none
        exampleSettingsPage)).isDarkModeOn.IsChecked = true :=
  ⟨by decide, by decide, by decide, by decide,
    (settings_switches_roundtrip exampleKeys "invalid_passphrase" none false
      exampleSettingsPage (by decide)).1.1 (by decide),
    (settings_switches_roundtrip exampleKeys "invalid_passphrase" none false
      exampleSettingsPage (by decide)).2.2.1 (by decide)⟩

end page

namespace decredmaterial

open seedbackup

/-! ## Lemmas: drop-down events -/

theorem Clicked_fst_iff (c : Clickable) : (c.Clicked).1 = true ↔ 0 < c.clicks := by
  unfold Clickable.Clicked
  by_cases h : c.clicks = 0
  · simp [h]
  · simp [h]; omega

theorem handleItems_spec (i : Nat) (items : List DropDownItem) (sel : Int) (o : Bool) :
    (handleItems i items sel o).1.map (fun item => item.Text) =
      items.map (fun item => item.Text) ∧
    ((handleItems i items sel o).2.1 = sel ∨
      ((i : Int) ≤ (handleItems i items sel o).2.1 ∧
        (handleItems i items sel o).2.1 < (i : Int) + (items.length : Int))) := by
  induction items generalizing i sel o with
  | nil => simp [handleItems]
  | cons item rest ih =>
    simp only [handleItems, List.length_cons, List.map_cons]
    obtain ⟨hl, hs⟩ := ih (i + 1) (if (item.clickable.Clicked).1 then (i : Int) else sel)
      (if (item.clickable.Clicked).1 then false else o)
    refine ⟨by rw [hl], ?_⟩
    rcases hs with hs | ⟨h1, h2⟩
    · rw [hs]
      by_cases hc : (item.clickable.Clicked).1 = true
      · right
        simp only [hc, if_true]
        constructor <;> omega
      · left
        simp only [hc, if_false]
        simp
    · right
      push_cast at h1 h2 ⊢
      constructor <;> omega

theorem changedItems_none (i : Nat) (items : List DropDownItem) :
    changedItems i items = none ↔ ∀ item ∈ items, item.clickable.clicks = 0 := by
  induction items generalizing i with
  | nil => simp [changedItems]
  | cons item rest ih =>
    by_cases hc : (item.clickable.Clicked).1 = true
    · have hpos := (Clicked_fst_iff item.clickable).mp hc
      simp only [changedItems, hc, if_true, List.mem_cons, forall_eq_or_imp]
      constructor
      · intro h
        cases h
      · rintro ⟨h0, _⟩
        omega
    · have h0 : item.clickable.clicks = 0 := by
        by_contra hne
        exact hc ((Clicked_fst_iff item.clickable).mpr (by omega))
      simp only [changedItems, hc, List.mem_cons, forall_eq_or_imp, h0, true_and]
      rw [← ih (i + 1)]
      cases changedItems (i + 1) rest with
      | none => simp
      | some p => simp

theorem changedItems_some (i : Nat) (items : List DropDownItem) (j : Nat)
    (items' : List DropDownItem) (h : changedItems i items = some (j, items')) :
    i ≤ j ∧ j < i + items.length ∧
    items'.map (fun item => item.Text) = items.map (fun item => item.Text) ∧
    (∃ item, items[j - i]? = some item ∧ 0 < item.clickable.clicks) ∧
    ∀ k, k < j - i → ∀ item, items[k]? = some item → item.clickable.clicks = 0 := by
  induction items generalizing i j items' with
  | nil => simp [changedItems] at h
  | cons item rest ih =>
    by_cases hc : (item.clickable.Clicked).1 = true
    · have hpos := (Clicked_fst_iff item.clickable).mp hc
      simp only [changedItems, hc, if_true, Option.some.injEq, Prod.mk.injEq] at h
      obtain ⟨rfl, rfl⟩ := h
      refine ⟨Nat.le_refl _, by simp, by simp, ⟨item, by simp, hpos⟩, ?_⟩
      intro k hk
      omega
    · have h0 : item.clickable.clicks = 0 := by
        by_contra hne
        exact hc ((Clicked_fst_iff item.clickable).mpr (by omega))
      simp only [changedItems, hc] at h
      cases hrec : changedItems (i + 1) rest with
      | none => simp [hrec] at h
      | some p =>
        obtain ⟨j0, rest'⟩ := p
        simp only [hrec, Bool.false_eq_true, if_false, Option.some.injEq, Prod.mk.injEq] at h
        obtain ⟨rfl, rfl⟩ := h
        obtain ⟨h1, h2, h3, ⟨it, hit, hpos⟩, hmin⟩ := ih (i + 1) j0 rest' hrec
        have hji : j0 - i = (j0 - (i + 1)) + 1 := by omega
        refine ⟨by omega, by simp only [List.length_cons]; omega, by simp [h3],
          ⟨it, by rw [hji, List.getElem?_cons_succ]; exact hit, hpos⟩, ?_⟩
        intro k hk it' hit'
        cases k with
        | zero =>
          simp only [List.getElem?_cons_zero, Option.some.injEq] at hit'
          rw [← hit']; exact h0
        | succ k =>
          rw [List.getElem?_cons_succ] at hit'
          exact hmin k (by omega) it' hit'

theorem iterate_ClosesOnly (closeAll : DropDown → DropDown) (h : ClosesOnly closeAll)
    (n : Nat) (d : DropDown) :
    (closeAll^[n] d).items = d.items ∧ (closeAll^[n] d).selectedIndex = d.selectedIndex ∧
    ((closeAll^[n] d).isOpen = true → d.isOpen = true) := by
  induction n generalizing d with
  | zero => exact ⟨rfl, rfl, fun h => h⟩
  | succ n ih =>
    rw [Function.iterate_succ_apply]
    obtain ⟨a1, a2, a3⟩ := ih (closeAll d)
    obtain ⟨b1, b2, b3⟩ := h d
    exact ⟨a1.trans b1, a2.trans b2, fun ho => b3 (a3 ho)⟩

theorem handleEvents_frame (closeAll : DropDown → DropDown) (h : ClosesOnly closeAll)
    (d : DropDown) :
    (d.handleEvents closeAll).items.map (fun item => item.Text) =
      d.items.map (fun item => item.Text) ∧
    ((d.handleEvents closeAll).selectedIndex = d.selectedIndex ∨
      (d.isOpen = true ∧ 0 ≤ (d.handleEvents closeAll).selectedIndex ∧
        (d.handleEvents closeAll).selectedIndex < (d.items.length : Int))) ∧
    (d.isOpen = false → (d.handleEvents closeAll).items = d.items ∧
      ((d.handleEvents closeAll).isOpen = true → 0 < d.clickable.clicks)) := by
  unfold DropDown.handleEvents
  simp only [forClicked_spec]
  by_cases ho : d.isOpen = true
  · simp only [ho, if_true]
    obtain ⟨c1, c2, _⟩ := iterate_ClosesOnly closeAll h d.backdrop.clicks
      { d with
        items := (handleItems 0 d.items d.selectedIndex true).1,
        selectedIndex := (handleItems 0 d.items d.selectedIndex true).2.1,
        isOpen := (handleItems 0 d.items d.selectedIndex true).2.2 }
    obtain ⟨hl, hs⟩ := handleItems_spec 0 d.items d.selectedIndex true
    refine ⟨?_, ?_, ?_⟩
    · show (closeAll^[d.backdrop.clicks] _).items.map _ = _
      rw [c1]; exact hl
    · show (closeAll^[d.backdrop.clicks] _).selectedIndex = _ ∨ _ ∧ 0 ≤
        (closeAll^[d.backdrop.clicks] _).selectedIndex ∧
        (closeAll^[d.backdrop.clicks] _).selectedIndex < _
      rw [c2]
      rcases hs with hs | ⟨h1, h2⟩
      · left; exact hs
      · right
        refine ⟨trivial, ?_, ?_⟩
        · simpa using h1
        · simpa using h2
    · intro hf
      cases hf
  · have hf : d.isOpen = false := by simpa using ho
    simp only [hf, Bool.false_eq_true, if_false, iterate_const]
    obtain ⟨c1, c2, c3⟩ := iterate_ClosesOnly closeAll h d.backdrop.clicks
      { d with
        clickable := { d.clickable with clicks := 0 },
        isOpen := if d.clickable.clicks = 0 then false else true }
    refine ⟨?_, ?_, ?_⟩
    · show (closeAll^[d.backdrop.clicks] _).items.map _ = _
      rw [c1]
    · left
      show (closeAll^[d.backdrop.clicks] _).selectedIndex = _
      rw [c2]
    · intro _
      refine ⟨?_, ?_⟩
      · show (closeAll^[d.backdrop.clicks] _).items = _
        rw [c1]
      · intro hopen
        have h1 := c3 hopen
        by_contra hz
        have hz' : d.clickable.clicks = 0 := by omega
        simp [hz'] at h1

theorem Changed_closed (d : DropDown) (h : d.isOpen = false) : d.Changed = (false, d) := by
  simp [DropDown.Changed, h]

theorem Changed_cases (d : DropDown) :
    (d.Changed = (false, d) ∧
      (d.isOpen = false ∨ ∀ item ∈ d.items, item.clickable.clicks = 0)) ∨
    (∃ (j : Nat) (items' : List DropDownItem), d.isOpen = true ∧
      changedItems 0 d.items = some (j, items') ∧
      d.Changed =
        (true, { d with items := items', selectedIndex := (j : Int), isOpen := false })) := by
  by_cases ho : d.isOpen = true
  · cases hc : changedItems 0 d.items with
    | none =>
      left
      exact ⟨by simp [DropDown.Changed, ho, hc], Or.inr ((changedItems_none 0 d.items).mp hc)⟩
    | some p =>
      obtain ⟨j, items'⟩ := p
      right
      exact ⟨j, items', ho, rfl, by simp [DropDown.Changed, ho, hc]⟩
  · have hf : d.isOpen = false := by simpa using ho
    left
    exact ⟨Changed_closed d hf, Or.inl hf⟩

end decredmaterial

namespace decredmaterial

open seedbackup

theorem ClosesOnly_closeDropDown : ClosesOnly closeDropDown := by
  intro d
  refine ⟨rfl, rfl, ?_⟩
  intro h
  simp [closeDropDown] at h

theorem modify_texts (f : DropDownItem → DropDownItem) (hf : ∀ item, (f item).Text = item.Text)
    (i : Nat) (items : List DropDownItem) :
    (List.modify f i items).map (fun item => item.Text) = items.map (fun item => item.Text) := by
  apply List.ext_getElem?
  intro k
  rw [List.getElem?_map, List.getElem?_map, List.getElem?_modify]
  cases items[k]? with
  | none => rfl
  | some item =>
    by_cases hik : i = k
    · simp [hik, hf]
    · simp [hik]

theorem Changed_frame (d : DropDown) :
    (d.Changed).2.items.map (fun item => item.Text) = d.items.map (fun item => item.Text) ∧
    ((d.Changed).2.selectedIndex = d.selectedIndex ∨
      (0 ≤ (d.Changed).2.selectedIndex ∧
        (d.Changed).2.selectedIndex < (d.items.length : Int))) := by
  rcases Changed_cases d with ⟨h, _⟩ | ⟨j, items', _, hc, h⟩
  · rw [h]
    exact ⟨rfl, Or.inl rfl⟩
  · rw [h]
    obtain ⟨_, h2, h3, _, _⟩ := changedItems_some 0 d.items j items' hc
    refine ⟨h3, Or.inr ⟨?_, ?_⟩⟩
    · show (0 : Int) ≤ (j : Int)
      omega
    · show (j : Int) < (d.items.length : Int)
      omega

/-- The invariant of a drop-down built from `items`: the selection is in bounds
and the item texts are those of `items`. -/
theorem Reachable_invariant (closeAll : DropDown → DropDown) (items : List DropDownItem)
    (d : DropDown) (hclose : ClosesOnly closeAll) (hne : items ≠ [])
    (hr : DropDown.Reachable closeAll items d) :
    d.inBounds ∧ d.items.map (fun item => item.Text) = items.map (fun item => item.Text) := by
  have hlen : ∀ e : DropDown,
      e.items.map (fun item => item.Text) = items.map (fun item => item.Text) →
      e.items.length = items.length := by
    intro e he
    have := congrArg List.length he
    simpa using this
  induction hr with
  | created group pos =>
    have hpos : 0 < items.length := List.length_pos.mpr hne
    refine ⟨⟨?_, ?_⟩, ?_⟩
    · show (0 : Int) ≤ 0
      omega
    · show (0 : Int) < ((items.map _).length : Int)
      rw [List.length_map]
      omega
    · show (items.map _).map _ = _
      rw [List.map_map]
      rfl
  | clickItem d i _ ih =>
    obtain ⟨⟨h1, h2⟩, h3⟩ := ih
    have ht : (d.clickItem i).items.map (fun item => item.Text) =
        d.items.map (fun item => item.Text) := by
      unfold DropDown.clickItem
      dsimp only
      apply modify_texts
      intro item
      rfl
    refine ⟨⟨h1, ?_⟩, ht.trans h3⟩
    show d.selectedIndex < (((d.clickItem i).items.length : Nat) : Int)
    rw [hlen _ (ht.trans h3), ← hlen d h3]
    exact h2
  | clickTrigger d _ ih => exact ih
  | clickBackdrop d _ ih => exact ih
  | handleEvents d _ ih =>
    obtain ⟨⟨h1, h2⟩, h3⟩ := ih
    obtain ⟨f1, f2, _⟩ := handleEvents_frame closeAll hclose d
    have hl := hlen _ (f1.trans h3)
    have hl0 := hlen d h3
    unfold DropDown.inBounds DropDown.Len at *
    refine ⟨?_, f1.trans h3⟩
    rw [hl]
    rcases f2 with f2 | ⟨_, f3, f4⟩
    · rw [f2]
      exact ⟨h1, by omega⟩
    · exact ⟨f3, by omega⟩
  | Changed d _ ih =>
    obtain ⟨⟨h1, h2⟩, h3⟩ := ih
    obtain ⟨f1, f2⟩ := Changed_frame d
    have hl := hlen _ (f1.trans h3)
    have hl0 := hlen d h3
    unfold DropDown.inBounds DropDown.Len at *
    refine ⟨?_, f1.trans h3⟩
    rw [hl]
    rcases f2 with f2 | ⟨f3, f4⟩
    · rw [f2]
      exact ⟨h1, by omega⟩
    · exact ⟨f3, by omega⟩

theorem Selected_of_inBounds (items : List DropDownItem) (d : DropDown) (hb : d.inBounds)
    (ht : d.items.map (fun item => item.Text) = items.map (fun item => item.Text)) :
    ∃ k : Nat, d.selectedIndex = (k : Int) ∧ k < items.length ∧
      d.Selected = (items[k]?).map (fun item => item.Text) ∧
      ((index d.items d.SelectedIndex).map (fun item => item.Text)) = d.Selected ∧
      (d.Selected).isSome = true := by
  obtain ⟨h1, h2⟩ := hb
  unfold DropDown.Len at h2
  have hl : d.items.length = items.length := by
    have := congrArg List.length ht
    simpa using this
  refine ⟨d.selectedIndex.toNat, by omega, by omega, ?_, rfl, ?_⟩
  · unfold DropDown.Selected DropDown.SelectedIndex index
    rw [if_pos h1, ← List.getElem?_map, ← List.getElem?_map, ht]
  · unfold DropDown.Selected DropDown.SelectedIndex index
    rw [if_pos h1]
    have hk : d.selectedIndex.toNat < d.items.length := by omega
    rw [List.getElem?_eq_getElem hk]
    rfl

theorem forChanged_spec {σ : Type} (get : σ → DropDown) (set : DropDown → σ → σ)
    (body : σ → Option σ) (n : Nat) (s : σ)
    (hgs : ∀ d s, get (set d s) = d) (hsg : ∀ s, set (get s) s = s)
    (hbody : ∀ s s', body s = some s' → get s' = get s) (hn : 2 ≤ n) :
    forChanged get set body n s =
      some (if ((get s).Changed).1 then body (set ((get s).Changed).2 s) else some s) := by
  obtain ⟨m, rfl⟩ : ∃ m, n = m + 2 := ⟨n - 2, by omega⟩
  rcases Changed_cases (get s) with ⟨h, _⟩ | ⟨j, items', _, _, h⟩
  · simp only [forChanged, h, Bool.false_eq_true, if_false, hsg]
  · have h1 : ((get s).Changed).1 = true := by rw [h]
    have h2 : ((get s).Changed).2.isOpen = false := by rw [h]
    simp only [forChanged, h1, if_true]
    cases hb : body (set ((get s).Changed).2 s) with
    | none => rfl
    | some s' =>
      have hg := hbody _ _ hb
      rw [hgs] at hg
      have hc : (get s').Changed = (false, get s') := by
        apply Changed_closed
        rw [hg]
        exact h2
      simp only [hc, Bool.false_eq_true, if_false, hsg]

end decredmaterial

namespace transaction

open seedbackup decredmaterial

theorem loadTransactions_dropDowns (c : TxFilters)
    (G : Wallet → Int → Int → Int → Bool → Except String (List Transaction))
    (pg pg' : TransactionsPage) (h : loadTransactions c G pg = some pg') :
    pg'.orderDropDown = pg.orderDropDown ∧ pg'.txTypeDropDown = pg.txTypeDropDown ∧
    pg'.walletDropDown = pg.walletDropDown ∧ pg'.wallets = pg.wallets := by
  unfold loadTransactions at h
  cases hw : index pg.wallets pg.walletDropDown.SelectedIndex with
  | none => simp [hw] at h
  | some w =>
    simp only [hw] at h
    split at h
    · cases h
      exact ⟨rfl, rfl, rfl, rfl⟩
    · cases h
      exact ⟨rfl, rfl, rfl, rfl⟩

theorem pollDropDowns_returns (c : TxFilters)
    (G : Wallet → Int → Int → Int → Bool → Except String (List Transaction))
    (n : Nat) (pg : TransactionsPage) (hn : 2 ≤ n) :
    (pollDropDowns c G n pg).isSome = true := by
  unfold pollDropDowns
  rw [forChanged_spec (fun pg : TransactionsPage => pg.txTypeDropDown)
    (fun d pg => { pg with txTypeDropDown := d }) (loadTransactions c G) n pg
    (fun _ _ => rfl) (fun _ => rfl)
    (fun s s' h => (loadTransactions_dropDowns c G s s' h).2.1) hn]
  generalize (if ((fun pg : TransactionsPage => pg.txTypeDropDown) pg).Changed.1 = true then
    loadTransactions c G _ else some pg) = r1
  cases r1 with
  | none => rfl
  | some pg1 =>
    dsimp only
    rw [forChanged_spec (fun pg : TransactionsPage => pg.orderDropDown)
      (fun d pg => { pg with orderDropDown := d }) (loadTransactions c G) n pg1
      (fun _ _ => rfl) (fun _ => rfl)
      (fun s s' h => (loadTransactions_dropDowns c G s s' h).1) hn]
    generalize (if ((fun pg : TransactionsPage => pg.orderDropDown) pg1).Changed.1 = true then
      loadTransactions c G _ else some pg1) = r2
    cases r2 with
    | none => rfl
    | some pg2 =>
      dsimp only
      rw [forChanged_spec (fun pg : TransactionsPage => pg.walletDropDown)
        (fun d pg => { pg with walletDropDown := d }) (loadTransactions c G) n pg2
        (fun _ _ => rfl) (fun _ => rfl)
        (fun s s' h => (loadTransactions_dropDowns c G s s' h).2.2.1) hn]
      rfl

end transaction

namespace decredmaterial

open seedbackup

theorem inBounds_preserved (closeAll : DropDown → DropDown) (hclose : ClosesOnly closeAll)
    (e : DropDown) (he : e.inBounds) :
    (e.handleEvents closeAll).inBounds ∧ (e.Changed).2.inBounds := by
  obtain ⟨h1, h2⟩ := he
  obtain ⟨f1, f2, _⟩ := handleEvents_frame closeAll hclose e
  obtain ⟨g1, g2⟩ := Changed_frame e
  have hl : (e.handleEvents closeAll).items.length = e.items.length := by
    have := congrArg List.length f1
    simpa using this
  have gl : (e.Changed).2.items.length = e.items.length := by
    have := congrArg List.length g1
    simpa using this
  unfold DropDown.inBounds DropDown.Len at *
  rw [hl, gl]
  constructor
  · rcases f2 with f2 | ⟨_, f3, f4⟩
    · rw [f2]
      exact ⟨h1, h2⟩
    · exact ⟨f3, f4⟩
  · rcases g2 with g2 | ⟨g3, g4⟩
    · rw [g2]
      exact ⟨h1, h2⟩
    · exact ⟨g3, g4⟩

theorem exampleOpenDropDown_reachable :
    DropDown.Reachable closeDropDown exampleItems exampleOpenDropDown :=
  DropDown.Reachable.clickItem _ 1 (DropDown.Reachable.clickItem _ 2
    (DropDown.Reachable.handleEvents _ (DropDown.Reachable.clickTrigger _
      (DropDown.Reachable.created 0 0))))

/-- C23: a drop-down created by `Theme.DropDown` from a non-empty item list
starts with `selectedIndex = 0` and `0 ≤ selectedIndex < Len()`; every call of
`handleEvents` and of `Changed` preserves `0 ≤ selectedIndex < Len()`; hence in
every state reached from the created drop-down by clicks and calls of
`handleEvents` and `Changed`, `Selected()` does not panic and returns the text
of the item of the list at `selectedIndex`. -/
theorem Selected_index_in_bounds (closeAllDropdown : DropDown → DropDown)
    (items : List DropDownItem) (d : DropDown)
    (hclose : ClosesOnly closeAllDropdown) (hne : items ≠ [])
    (hr : DropDown.Reachable closeAllDropdown items d) :
    (∀ group pos : Nat, (Theme.DropDown items group pos).selectedIndex = 0 ∧
      (Theme.DropDown items group pos).inBounds) ∧
    (∀ e : DropDown, e.inBounds →
      (e.handleEvents closeAllDropdown).inBounds ∧ (e.Changed).2.inBounds) ∧
    d.inBounds ∧
    ∃ k : Nat, d.selectedIndex = (k : Int) ∧ k < items.length ∧
      d.Selected = (items[k]?).map (fun item => item.Text) ∧ (d.Selected).isSome = true := by
  obtain ⟨hb, ht⟩ := Reachable_invariant closeAllDropdown items d hclose hne hr
  refine ⟨?_, inBounds_preserved closeAllDropdown hclose, hb, ?_⟩
  · intro group pos
    exact ⟨rfl, (Reachable_invariant closeAllDropdown items _ hclose hne
      (DropDown.Reachable.created group pos)).1⟩
  · obtain ⟨k, h1, h2, h3, _, h5⟩ := Selected_of_inBounds items d hb ht
    exact ⟨k, h1, h2, h3, h5⟩

theorem Selected_index_in_bounds_witness :
    ClosesOnly closeDropDown ∧ exampleItems ≠ [] ∧
    DropDown.Reachable closeDropDown exampleItems exampleOpenDropDown ∧
    exampleOpenDropDown.inBounds ∧
    (exampleOpenDropDown.handleEvents closeDropDown).inBounds ∧
    (exampleOpenDropDown.handleEvents closeDropDown).Selected = some "c" :=
  ⟨ClosesOnly_closeDropDown, by decide, exampleOpenDropDown_reachable,
    (Selected_index_in_bounds closeDropDown exampleItems exampleOpenDropDown
      ClosesOnly_closeDropDown (by decide) exampleOpenDropDown_reachable).2.2.1,
    ((Selected_index_in_bounds closeDropDown exampleItems exampleOpenDropDown
      ClosesOnly_closeDropDown (by decide) exampleOpenDropDown_reachable).2.1 _
      (Selected_index_in_bounds closeDropDown exampleItems exampleOpenDropDown
        ClosesOnly_closeDropDown (by decide) exampleOpenDropDown_reachable).2.2.1).1,
    by decide⟩

/-- C24: `Changed` returns true exactly when the drop-down is open and some item
has a pending click; then `selectedIndex` becomes the lowest index of an item
with a pending click and the drop-down is closed; when it returns false the
state is unchanged. A call of `Changed` right after one that returned true
returns false, so a loop `for dropdown.Changed() { body }` whose body leaves the
drop-down alone ends after at most two calls of `Changed`, having run its body
at most once; this holds for the three loops of the transactions page. -/
theorem Changed_iff_open_and_clicked (d : DropDown) :
    ((d.Changed).1 = true ↔
      (d.isOpen = true ∧ ∃ item ∈ d.items, 0 < item.clickable.clicks)) ∧
    ((d.Changed).1 = true →
      (d.Changed).2.isOpen = false ∧
      ∃ j : Nat, (d.Changed).2.selectedIndex = (j : Int) ∧
        (∃ item, d.items[j]? = some item ∧ 0 < item.clickable.clicks) ∧
        ∀ k, k < j → ∀ item, d.items[k]? = some item → item.clickable.clicks = 0) ∧
    ((d.Changed).1 = false → (d.Changed).2 = d) ∧
    ((d.Changed).1 = true → ((d.Changed).2.Changed).1 = false) ∧
    (∀ (σ : Type) (get : σ → DropDown) (set : DropDown → σ → σ) (body : σ → Option σ)
        (n : Nat) (s : σ),
      (∀ d s, get (set d s) = d) → (∀ s, set (get s) s = s) →
      (∀ s s', body s = some s' → get s' = get s) → 2 ≤ n →
      forChanged get set body n s =
        some (if ((get s).Changed).1 then body (set ((get s).Changed).2 s) else some s)) ∧
    (∀ (c : transaction.TxFilters)
        (GetTransactionsRaw : transaction.Wallet → Int → Int → Int → Bool →
          Except String (List transaction.Transaction))
        (n : Nat) (pg : transaction.TransactionsPage),
      2 ≤ n → (transaction.pollDropDowns c GetTransactionsRaw n pg).isSome = true) := by
  refine ⟨?_, ?_, ?_, ?_, ?_, ?_⟩
  · rcases Changed_cases d with ⟨h, hno⟩ | ⟨j, items', ho, hc, h⟩
    · rw [h]
      constructor
      · intro hf
        cases hf
      · rintro ⟨ho, item, hmem, hpos⟩
        rcases hno with hno | hno
        · rw [ho] at hno
          cases hno
        · have := hno item hmem
          omega
    · rw [h]
      constructor
      · intro _
        obtain ⟨_, _, _, ⟨item, hit, hpos⟩, _⟩ := changedItems_some 0 d.items j items' hc
        exact ⟨ho, item, List.getElem?_mem hit, hpos⟩
      · intro _
        rfl
  · rcases Changed_cases d with ⟨h, _⟩ | ⟨j, items', _, hc, h⟩
    · rw [h]
      intro hf
      cases hf
    · rw [h]
      intro _
      obtain ⟨_, _, _, hj, hmin⟩ := changedItems_some 0 d.items j items' hc
      exact ⟨rfl, j, rfl, hj, hmin⟩
  · rcases Changed_cases d with ⟨h, _⟩ | ⟨j, items', _, _, h⟩
    · rw [h]
      intro _
      rfl
    · rw [h]
      intro hf
      cases hf
  · rcases Changed_cases d with ⟨h, _⟩ | ⟨j, items', _, _, h⟩
    · rw [h]
      intro hf
      cases hf
    · intro _
      rw [Changed_closed]
      rw [h]
  · intro σ get set body n s hgs hsg hbody hn
    exact forChanged_spec get set body n s hgs hsg hbody hn
  · intro c G n pg hn
    exact transaction.pollDropDowns_returns c G n pg hn

theorem Changed_iff_open_and_clicked_witness :
    (exampleOpenDropDown.Changed).1 = true ∧
    ((exampleOpenDropDown.Changed).2.Changed).1 = false ∧
    (exampleOpenDropDown.Changed).2.selectedIndex = 1 :=
  ⟨(Changed_iff_open_and_clicked exampleOpenDropDown).1.mpr
      ⟨by decide, ⟨"b", ⟨true, 0, 1⟩⟩, by decide, by decide⟩,
    (Changed_iff_open_and_clicked exampleOpenDropDown).2.2.2.1 (by decide),
    by decide⟩

/-- C25: on a closed drop-down, whatever clicks are pending, `handleEvents` and
`Changed` leave `selectedIndex` (and the items) unchanged; `Changed` returns
false and changes nothing; `handleEvents` leaves the drop-down open only if its
trigger had a pending click. -/
theorem closed_dropdown_keeps_selection (closeAllDropdown : DropDown → DropDown)
    (d : DropDown) (hclose : ClosesOnly closeAllDropdown) (hd : d.isOpen = false) :
    (d.handleEvents closeAllDropdown).selectedIndex = d.selectedIndex ∧
    (d.handleEvents closeAllDropdown).items = d.items ∧
    ((d.handleEvents closeAllDropdown).isOpen = true → 0 < d.clickable.clicks) ∧
    (d.Changed).2.selectedIndex = d.selectedIndex ∧
    d.Changed = (false, d) := by
  obtain ⟨_, f2, f3⟩ := handleEvents_frame closeAllDropdown hclose d
  obtain ⟨f4, f5⟩ := f3 hd
  refine ⟨?_, f4, f5, by rw [Changed_closed d hd], Changed_closed d hd⟩
  rcases f2 with f2 | ⟨ho, _, _⟩
  · exact f2
  · rw [hd] at ho
    cases ho

theorem closed_dropdown_keeps_selection_witness :
    ClosesOnly closeDropDown ∧ exampleClosedDropDown.isOpen = false ∧
    (exampleClosedDropDown.handleEvents closeDropDown).selectedIndex = 0 ∧
    (exampleClosedDropDown.Changed).2.selectedIndex = 0 :=
  ⟨ClosesOnly_closeDropDown, by decide,
    (closed_dropdown_keeps_selection closeDropDown exampleClosedDropDown
      ClosesOnly_closeDropDown (by decide)).1,
    (closed_dropdown_keeps_selection closeDropDown exampleClosedDropDown
      ClosesOnly_closeDropDown (by decide)).2.2.2.1⟩

end decredmaterial

namespace transaction

open seedbackup decredmaterial

/-- C26: with a selected wallet, when `GetTransactionsRaw` returns an error
`loadTransactions` leaves the page, and so its transaction list, unchanged; when
it returns transactions, the list becomes exactly these and nothing else of the
page changes. -/
theorem loadTransactions_error_keeps_transactions (c : TxFilters)
    (GetTransactionsRaw : Wallet → Int → Int → Int → Bool → Except String (List Transaction))
    (pg : TransactionsPage) (selectedWallet : Wallet)
    (hw : index pg.wallets pg.walletDropDown.SelectedIndex = some selectedWallet) :
    (∀ err : String,
      GetTransactionsRaw selectedWallet 0 0 (txFilterTable c pg.txTypeDropDown.SelectedIndex)
        (decide (pg.orderDropDown.SelectedIndex = 0)) = Except.error err →
      loadTransactions c GetTransactionsRaw pg = some pg) ∧
    (∀ wallTxs : List Transaction,
      GetTransactionsRaw selectedWallet 0 0 (txFilterTable c pg.txTypeDropDown.SelectedIndex)
        (decide (pg.orderDropDown.SelectedIndex = 0)) = Except.ok wallTxs →
      loadTransactions c GetTransactionsRaw pg = some { pg with transactions := wallTxs }) ∧
    ∃ pg' : TransactionsPage, loadTransactions c GetTransactionsRaw pg = some pg' := by
  unfold loadTransactions
  simp only [hw, txFilter_match_eq_table]
  cases GetTransactionsRaw selectedWallet 0 0 (txFilterTable c pg.txTypeDropDown.SelectedIndex)
      (decide (pg.orderDropDown.SelectedIndex = 0)) with
  | error e =>
    refine ⟨fun _ _ => rfl, ?_, ⟨pg, rfl⟩⟩
    intro wallTxs h
    cases h
  | ok txs =>
    refine ⟨?_, ?_, ⟨_, rfl⟩⟩
    · intro err h
      cases h
    · intro wallTxs h
      cases h
      rfl

theorem loadTransactions_error_keeps_transactions_witness :
    index exampleLoadedPage.wallets exampleLoadedPage.walletDropDown.SelectedIndex =
      some ⟨1⟩ ∧
    loadTransactions exampleFilters exampleFailingGetTransactionsRaw exampleLoadedPage =
      some exampleLoadedPage ∧
    loadTransactions exampleFilters exampleGetTransactionsRaw exampleLoadedPage =
      some { exampleLoadedPage with transactions := [⟨"oldest", 31⟩] } :=
  ⟨by decide,
    (loadTransactions_error_keeps_transactions exampleFilters exampleFailingGetTransactionsRaw
      exampleLoadedPage ⟨1⟩ (by decide)).1 "wallet is locked" rfl,
    (loadTransactions_error_keeps_transactions exampleFilters exampleGetTransactionsRaw
      exampleLoadedPage ⟨1⟩ (by decide)).2.1 [⟨"oldest", 31⟩] rfl⟩

end transaction

namespace decredmaterial

open seedbackup

/-! ## Text editor -/

theorem handleShowHide_frame (e : Editor) :
    e.handleShowHide.editor.focused = e.editor.focused ∧
    e.handleShowHide.editor.text = e.editor.text ∧
    e.handleShowHide.editorIconButton = e.editorIconButton ∧
    e.handleShowHide.hasEditorIconButtonEvent = e.hasEditorIconButtonEvent := by
  refine ⟨?_, ?_, rfl, rfl⟩
  · unfold Editor.handleShowHide
    dsimp only
    split
    · split
      · rfl
      · split <;> rfl
    · rfl
  · unfold Editor.handleShowHide
    dsimp only
    split
    · split
      · rfl
      · split <;> rfl
    · rfl

theorem handleIconButton_returns (x : Editor)
    (hev : x.editorIconButton.clicks = 0 ∨ x.hasEditorIconButtonEvent = true) :
    ∃ x', x.handleIconButton = some x' ∧ x'.editor = x.editor := by
  unfold Editor.handleIconButton
  by_cases hc : (x.editorIconButton.Clicked).1 = true
  · have hpos : 0 < x.editorIconButton.clicks := by
      unfold Clickable.Clicked at hc
      by_cases h0 : x.editorIconButton.clicks = 0
      · simp [h0] at hc
      · omega
    have hhas : x.hasEditorIconButtonEvent = true := by
      rcases hev with h | h
      · omega
      · exact h
    rw [if_pos hc, if_pos hhas]
    exact ⟨_, rfl, rfl⟩
  · rw [if_neg hc]
    exact ⟨_, rfl, rfl⟩

theorem handleLineColor_editor (x : Editor) : x.handleLineColor.editor = x.editor := by
  unfold Editor.handleLineColor
  dsimp only
  split <;> split <;> rfl

theorem handleEvents_returns (e : Editor)
    (hev : e.editorIconButton.clicks = 0 ∨ e.hasEditorIconButtonEvent = true) :
    ∃ e', e.handleEvents = some e' ∧
      (e.afterValueCall e').IsRequired = e.IsRequired ∧
      (e.afterValueCall e').requiredErrorText = e.requiredErrorText ∧
      (e.afterValueCall e').errorLabel = e.errorLabel ∧
      (e.afterValueCall e').editor.focused = e.editor.focused ∧
      (e.afterValueCall e').editor.text = e.editor.text := by
  obtain ⟨h1, h2, h3, h4⟩ := handleShowHide_frame e
  obtain ⟨x', hx, hxe⟩ := handleIconButton_returns e.handleShowHide (by rw [h3, h4]; exact hev)
  refine ⟨x'.handleLineColor, ?_, rfl, rfl, rfl, ?_, ?_⟩
  · unfold Editor.handleEvents
    rw [hx]
    rfl
  · show x'.handleLineColor.editor.focused = _
    rw [handleLineColor_editor, hxe, h1]
  · show x'.handleLineColor.editor.text = _
    rw [handleLineColor_editor, hxe, h2]

/-- C21, as written, fails: a required editor that has the focus, or that holds
a text, gets no error label from `Layout` (the required-field text is shown only
for an editor without focus and without text). -/
theorem Layout_required_without_error_label :
    exampleFocusedEditor.IsRequired = true ∧
    (exampleFocusedEditor.Layout).map (fun r => r.1.errorLabel) = some none ∧
    exampleFilledEditor.IsRequired = true ∧
    (exampleFilledEditor.Layout).map (fun r => r.1.errorLabel) = some none := by
  decide

/-- C21, amended: for every editor whose `IsRequired` field is true, that does
not have the focus and whose text is empty, `Layout` returns (no icon-button
click is pending without a callback) and draws the required-field text
(`requiredErrorText`, "Field is required" from `Theme.Editor` or the text given
to `SetRequiredErrorText`) as the error label under the text field, in the
colour of the error label; nothing is drawn when that text is empty. -/
theorem Layout_required_error_label (e : Editor)
    (hreq : e.IsRequired = true) (hfoc : e.editor.Focused = false) (hlen : e.editor.Len = 0)
    (hev : e.editorIconButton.clicks = 0 ∨ e.hasEditorIconButtonEvent = true) :
    (∃ (view : EditorView) (e' : Editor), e.Layout = some (view, e') ∧
      view.errorLabel =
        if e.requiredErrorText = "" then none
        else some { Text := e.requiredErrorText, Color := e.errorLabel.Color }) ∧
    (∀ (editor : WidgetEditor) (hint : String),
      (Theme.Editor editor hint).requiredErrorText = "Field is required") ∧
    (∀ txt : String, (e.SetRequiredErrorText txt).requiredErrorText = txt ∧
      (e.SetRequiredErrorText txt).IsRequired = e.IsRequired ∧
      (e.SetRequiredErrorText txt).editor = e.editor) := by
  refine ⟨?_, fun _ _ => rfl, fun _ => ⟨rfl, rfl, rfl⟩⟩
  obtain ⟨e', he', h1, h2, h3, h4, h5⟩ := handleEvents_returns e hev
  unfold Editor.Layout
  rw [he']
  refine ⟨_, _, rfl, ?_⟩
  generalize e.afterValueCall e' = s at h1 h2 h3 h4 h5
  unfold WidgetEditor.Focused at hfoc
  unfold WidgetEditor.Len at hlen
  have hlen' : s.editor.text.length = 0 := by rw [h5]; exact hlen
  have hfoc' : s.editor.focused = false := by rw [h4]; exact hfoc
  have ht : s.layoutTitle = s := by
    unfold Editor.layoutTitle WidgetEditor.Len
    rw [if_neg (by omega)]
  have hf : s.layoutFocused = s := by
    unfold Editor.layoutFocused WidgetEditor.Focused
    rw [hfoc']
    rfl
  have hr : s.layoutRequired =
      { s with errorLabel := { s.errorLabel with Text := s.requiredErrorText },
               LineColor := Color.Danger } := by
    unfold Editor.layoutRequired WidgetEditor.Focused WidgetEditor.Len
    rw [h1, hreq, hfoc', hlen']
    rfl
  rw [ht, hf, hr]
  unfold Editor.layoutError Editor.draw
  dsimp only
  rw [h2, h3]
  by_cases hz : e.requiredErrorText = ""
  · simp [hz]
  · simp [hz]

theorem Layout_required_error_label_witness :
    exampleRequiredEditor.IsRequired = true ∧ exampleRequiredEditor.editor.Focused = false ∧
    exampleRequiredEditor.editor.Len = 0 ∧
    ∃ (view : EditorView) (e' : Editor), exampleRequiredEditor.Layout = some (view, e') ∧
      view.errorLabel =
        if exampleRequiredEditor.requiredErrorText = "" then none
        else some { Text := exampleRequiredEditor.requiredErrorText,
                    Color := exampleRequiredEditor.errorLabel.Color } :=
  ⟨rfl, rfl, rfl,
    (Layout_required_error_label exampleRequiredEditor rfl rfl rfl (Or.inl rfl)).1⟩

end decredmaterial

namespace staking

theorem foldl_no_config (l : List Wallet) (pg : Page)
    (h : ∀ w ∈ l, w.TicketBuyerConfigIsSet = false) :
    l.foldl (fun pg wal =>
      if wal.TicketBuyerConfigIsSet then { pg with ticketBuyerWallet := some wal } else pg) pg =
      pg := by
  induction l generalizing pg with
  | nil => rfl
  | cons w rest ih =>
    have hw : w.TicketBuyerConfigIsSet = false := h w (List.mem_cons_self _ _)
    rw [List.foldl_cons, hw]
    exact ih pg (fun w' hw' => h w' (List.mem_cons_of_mem _ hw'))

/-- With no wallet having its ticket-buyer configuration set, `setTBWallet`
selects the first wallet of the list on a page that has no ticket-buyer wallet
yet, and otherwise leaves the wallet already selected. -/
theorem setTBWallet_no_config (first : Wallet) (rest : List Wallet) (pg : Page)
    (h : ∀ w ∈ first :: rest, w.TicketBuyerConfigIsSet = false) :
    setTBWallet (first :: rest) pg =
      some { ticketBuyerWallet := some (pg.ticketBuyerWallet.getD first) } := by
  unfold setTBWallet
  rw [foldl_no_config _ _ h]
  cases pg with
  | mk tb =>
    cases tb with
    | none => simp
    | some w => simp

/-- C22 (evaluation at the failing input): with the sorted wallet list `[A, B]`,
no wallet having its ticket-buyer configuration set, and a page whose
ticket-buyer wallet is already `B`, `setTBWallet` leaves `B` selected and not
the first wallet `A`. -/
theorem setTBWallet_keeps_selected_wallet :
    (∀ w ∈ [exampleWalletA, exampleWalletB], w.TicketBuyerConfigIsSet = false) ∧
    setTBWallet [exampleWalletA, exampleWalletB] { ticketBuyerWallet := some exampleWalletB } =
      some { ticketBuyerWallet := some exampleWalletB } ∧
    [exampleWalletA, exampleWalletB][0]? = some exampleWalletA ∧
    exampleWalletA ≠ exampleWalletB := by
  decide

end staking

namespace wallets

open seedbackup decredmaterial

theorem updateButtonColors_signButton (StringNotEmpty : String → Bool) (pg : SignMessagePage) :
    (updateButtonColors StringNotEmpty pg).signButton.isEnabled =
      (!pg.isSigningMessage && pg.messageIsValid && pg.addressIsValid) ∧
    (updateButtonColors StringNotEmpty pg).isEnabled =
      (!pg.isSigningMessage && pg.messageIsValid && pg.addressIsValid) ∧
    (updateButtonColors StringNotEmpty pg).clearButton.isEnabled =
      (StringNotEmpty pg.addressEditor.editor.Text ||
        StringNotEmpty pg.messageEditor.editor.Text) := by
  obtain ⟨sg, av, mv, en, el, sl, ae, me, cb, sb⟩ := pg
  cases hc : (StringNotEmpty ae.editor.Text || StringNotEmpty me.editor.Text) <;>
    cases sg <;> cases av <;> cases mv <;>
    simp [updateButtonColors, hc, Button.SetEnabled]

/-- C27: after `clearForm` the texts of both editors, the errors of both
editors and the signature label are empty, and `addressIsValid`,
`messageIsValid` and `isSigningMessage` are as before; so if the form was valid
and no signing is in progress, `updateButtonColors` after `clearForm` enables
the sign button and disables the clear button (the helper `StringNotEmpty`
answers false on the empty text). For every page `updateButtonColors` enables
the sign button exactly when not `isSigningMessage`, `messageIsValid` and
`addressIsValid`. -/
theorem clearForm_keeps_validity (StringNotEmpty : String → Bool) (pg : SignMessagePage)
    (hempty : StringNotEmpty "" = false) :
    ((clearForm pg).addressEditor.editor.Text = "" ∧
      (clearForm pg).messageEditor.editor.Text = "" ∧
      (clearForm pg).addressEditor.errorLabel.Text = "" ∧
      (clearForm pg).messageEditor.errorLabel.Text = "" ∧
      (clearForm pg).signedMessageLabel.Text = "") ∧
    ((clearForm pg).addressIsValid = pg.addressIsValid ∧
      (clearForm pg).messageIsValid = pg.messageIsValid ∧
      (clearForm pg).isSigningMessage = pg.isSigningMessage) ∧
    (pg.addressIsValid = true → pg.messageIsValid = true → pg.isSigningMessage = false →
      (updateButtonColors StringNotEmpty (clearForm pg)).signButton.isEnabled = true ∧
      (updateButtonColors StringNotEmpty (clearForm pg)).clearButton.isEnabled = false) ∧
    (∀ p : SignMessagePage,
      (updateButtonColors StringNotEmpty p).signButton.isEnabled = true ↔
        (p.isSigningMessage = false ∧ p.messageIsValid = true ∧ p.addressIsValid = true)) := by
  refine ⟨⟨rfl, rfl, rfl, rfl, rfl⟩, ⟨rfl, rfl, rfl⟩, ?_, ?_⟩
  · intro ha hm hs
    obtain ⟨h1, _, h3⟩ := updateButtonColors_signButton StringNotEmpty (clearForm pg)
    rw [h1, h3]
    have e1 : (clearForm pg).addressEditor.editor.Text = "" := rfl
    have e2 : (clearForm pg).messageEditor.editor.Text = "" := rfl
    have e3 : (clearForm pg).addressIsValid = pg.addressIsValid := rfl
    have e4 : (clearForm pg).messageIsValid = pg.messageIsValid := rfl
    have e5 : (clearForm pg).isSigningMessage = pg.isSigningMessage := rfl
    rw [e1, e2, e3, e4, e5, ha, hm, hs, hempty]
    exact ⟨rfl, rfl⟩
  · intro p
    rw [(updateButtonColors_signButton StringNotEmpty p).1]
    cases p.isSigningMessage <;> cases p.messageIsValid <;> cases p.addressIsValid <;> simp

theorem clearForm_keeps_validity_witness :
    exampleStringNotEmpty "" = false ∧
    exampleSignMessagePage.addressIsValid = true ∧
    exampleSignMessagePage.messageIsValid = true ∧
    exampleSignMessagePage.isSigningMessage = false ∧
    (updateButtonColors exampleStringNotEmpty (clearForm exampleSignMessagePage)).signButton.isEnabled
      = true ∧
    (updateButtonColors exampleStringNotEmpty
      (clearForm exampleSignMessagePage)).clearButton.isEnabled = false :=
  ⟨by decide, rfl, rfl, rfl,
    ((clearForm_keeps_validity exampleStringNotEmpty exampleSignMessagePage (by decide)).2.2.1
      rfl rfl rfl).1,
    ((clearForm_keeps_validity exampleStringNotEmpty exampleSignMessagePage (by decide)).2.2.1
      rfl rfl rfl).2⟩

/-- C28: `validateAddress` returns true, sets `addressIsValid` to true and
leaves the error of the address editor empty exactly when the address is not
empty (`StringNotEmpty`), is valid (`IsAddressValid`) and is owned by the wallet
(`HaveAddress`); otherwise it returns false, sets `addressIsValid` to false and
sets one error: "Please enter a valid address" for an empty address, else
"Invalid address" for one that is not valid, else "Address not owned by any
wallet". Nothing else of the page changes. -/
theorem validateAddress_outcomes (StringNotEmpty IsAddressValid HaveAddress : String → Bool)
    (pg : SignMessagePage) :
    (((validateAddress StringNotEmpty IsAddressValid HaveAddress pg).1 = true ∧
        (validateAddress StringNotEmpty IsAddressValid HaveAddress pg).2.addressIsValid = true ∧
        (validateAddress StringNotEmpty IsAddressValid HaveAddress pg).2.addressEditor.errorLabel.Text
          = "") ↔
      (StringNotEmpty pg.addressEditor.editor.Text = true ∧
        IsAddressValid pg.addressEditor.editor.Text = true ∧
        HaveAddress pg.addressEditor.editor.Text = true)) ∧
    (validateAddress StringNotEmpty IsAddressValid HaveAddress pg).2.addressIsValid =
      (validateAddress StringNotEmpty IsAddressValid HaveAddress pg).1 ∧
    (validateAddress StringNotEmpty IsAddressValid HaveAddress pg).1 =
      (StringNotEmpty pg.addressEditor.editor.Text &&
        IsAddressValid pg.addressEditor.editor.Text &&
        HaveAddress pg.addressEditor.editor.Text) ∧
    (validateAddress StringNotEmpty IsAddressValid HaveAddress pg).2 =
      { pg with
        addressIsValid := (validateAddress StringNotEmpty IsAddressValid HaveAddress pg).1,
        addressEditor := pg.addressEditor.SetError
          (if StringNotEmpty pg.addressEditor.editor.Text = false then
            "Please enter a valid address"
          else if IsAddressValid pg.addressEditor.editor.Text = false then "Invalid address"
          else if HaveAddress pg.addressEditor.editor.Text = false then
            "Address not owned by any wallet"
          else "") } := by
  unfold validateAddress validateAddressSwitch
  dsimp only
  cases h1 : StringNotEmpty pg.addressEditor.editor.Text
  · simp [Editor.SetError]
  · cases h2 : IsAddressValid pg.addressEditor.editor.Text
    · simp [Editor.SetError]
    · cases h3 : HaveAddress pg.addressEditor.editor.Text
      · simp [Editor.SetError]
      · simp [Editor.SetError]

end wallets
